import Mathlib

/-!
The ww-tedit console driver (`src/disp/disp_ncurs.c`): palette pool, key decoder, event pump.

A shallow embedding of the ncurses back end of module `disp`.

Conventions of the embedding

* C `int` / `unsigned` values are natural numbers or integers; every counter of the
  modelled code stays far below `2^31` (the largest is `miliseconds`, at most 5 010 000),
  and the one shift that can leave 32 bits (`*shift_state << 16`) is reduced modulo `2^32`.
* `ASSERT(...)` failures and out-of-bounds array writes end the run: the functions return
  `none` there.
* The headers `disp.h`, `disp_ncurs_p.h`, `disp_common.c` and the key definitions are not
  part of the sources at hand.  Table sizes are the lengths of the lists that model the
  arrays, and the constants and macros those headers define are parameters.
* Calls into ncurses are answers supplied by the caller of the model (`init_pair`), and
  the calls made are recorded in ghost fields.
-/

namespace DispNcurs

/-! ## Part 1: definitions -/

/-! ### ncurses constants (`<curses.h>`) -/

def ERR : Int := -1
def COLOR_BLACK : Nat := 0
def COLOR_RED : Nat := 1
def COLOR_GREEN : Nat := 2
def COLOR_YELLOW : Nat := 3
def COLOR_BLUE : Nat := 4
def COLOR_MAGENTA : Nat := 5
def COLOR_CYAN : Nat := 6
def COLOR_WHITE : Nat := 7
def A_NORMAL : Nat := 0
def A_UNDERLINE : Nat := 131072
def A_REVERSE : Nat := 262144
def A_BOLD : Nat := 2097152

/-! ### The display object -/

/-- Error kinds stored in `disp->code` by the functions of this file. -/
inductive disp_error_code where
  | DISP_NCURSES_COLOR_ALLOC_FAIL
  | DISP_PALETTE_FULL
  | DISP_FAILED_NCURS_INIT
  | DISP_TERMINAL_NO_CURSOR_OPERATIONS
  | DISP_TERMINAL_NO_COLOR
  | DISP_NCURSES_MODE_SETUP_FAILURE
  deriving DecidableEq, Repr

/-- One element of `disp->color_pairs[]`. -/
structure disp_color_pair where
  in_use : Bool
  store_color : Nat
  store_background : Nat
  ref_cnt : Nat
  deriving DecidableEq, Repr

/-- One element of `disp->palette[]`. -/
structure disp_palette_entry where
  in_use : Bool
  color_pair_id : Int
  attr_mask : Nat
  deriving DecidableEq, Repr

/-- The fields of `dispc_t` used by the palette pool.  `DISP_COUNTOF(disp->color_pairs)` is
`color_pairs.length`, `DISP_COUNTOF(disp->palette)` is `palette.length`.  `code` is `none`
until a function stores an error kind.  `init_pair_calls` is a ghost field: the arguments of
every call of ncurses `init_pair`, oldest first. -/
structure dispc_t where
  color_pairs : List disp_color_pair
  palette : List disp_palette_entry
  code : Option disp_error_code
  error_msg : String
  init_pair_calls : List (Nat × Nat × Nat)
  deriving DecidableEq, Repr

/-- Table `PC_TO_CURSES` of `s_disp_add_color_pair`. -/
def PC_TO_CURSES : List Nat :=
  [COLOR_BLACK, COLOR_BLUE, COLOR_GREEN, COLOR_CYAN,
   COLOR_RED, COLOR_MAGENTA, COLOR_YELLOW, COLOR_WHITE]

/-- Loop 1 of `s_disp_add_color_pair`, run over the entries `l` that sit at the indices
`i, i+1, ...`: the first index whose entry is in use and stores the requested pair. -/
def find_color_pair : List disp_color_pair → Nat → Nat → Nat → Option Nat
  | [], _, _, _ => none
  | e :: es, i, color, background =>
    if e.in_use = true ∧ e.store_color = color ∧ e.store_background = background then some i
    else find_color_pair es (i + 1) color background

/-- Loop 2 of `s_disp_add_color_pair`, run over the entries `l` that sit at the indices
`i, i+1, ...`: the value of the loop variable when the loop is left, the index of the
first unused entry or the index one past the last entry. -/
def find_unused_pair : List disp_color_pair → Nat → Nat
  | [], i => i
  | e :: es, i => if e.in_use = false then i else find_unused_pair es (i + 1)

/-- Model of `s_disp_add_color_pair`.  `init_pair i f b` is the answer ncurses gives to
`init_pair(i, f, b)` at this call.  Result `none`: an `ASSERT` failed (or a write left the
table, possible only for a table without elements); otherwise the returned `int` and the
display object after the call. -/
def s_disp_add_color_pair (init_pair : Nat → Nat → Nat → Int) (disp : dispc_t)
    (ncurses_color ncurses_background : Nat) : Option (Int × dispc_t) :=
  -- 1. Find if the pair is not already created
  match find_color_pair (disp.color_pairs.tail) 1 ncurses_color ncurses_background with
  | some i =>
    match disp.color_pairs[i]? with
    | some e =>
      some ((i : Int),
        { disp with color_pairs := disp.color_pairs.set i { e with ref_cnt := e.ref_cnt + 1 } })
    | none => none
  | none =>
    -- 2. Find unused entry (notice that 0 is not usable)
    let i := find_unused_pair (disp.color_pairs.tail) 1
    if i = disp.color_pairs.length then
      some (-1, { disp with
        code := some disp_error_code.DISP_NCURSES_COLOR_ALLOC_FAIL,
        error_msg := "no room for additional ncurses color pairs" })
    else if ¬ ncurses_color < PC_TO_CURSES.length then none
    else if ¬ ncurses_background < PC_TO_CURSES.length then none
    else
      let f := PC_TO_CURSES.getD ncurses_color 0
      let b := PC_TO_CURSES.getD ncurses_background 0
      let r := init_pair i f b
      let disp1 := { disp with init_pair_calls := disp.init_pair_calls ++ [(i, f, b)] }
      if r = ERR then
        some (-1, { disp1 with
          code := some disp_error_code.DISP_NCURSES_COLOR_ALLOC_FAIL,
          error_msg := "init_pair() failed to allocate ncurses color pair" })
      else
        match disp.color_pairs[i]? with
        | some e =>
          some ((i : Int), { disp1 with
            color_pairs := disp.color_pairs.set i
              { e with in_use := true, store_color := ncurses_color,
                       store_background := ncurses_background } })
        | none => none

/-- A run of requests to `s_disp_add_color_pair`, one after the other: the values returned
and the display object after the last one.  `none` when one of the calls ends the run. -/
def add_color_pairs (init_pair : Nat → Nat → Nat → Int) :
    dispc_t → List (Nat × Nat) → Option (List Int × dispc_t)
  | disp, [] => some ([], disp)
  | disp, (c, b) :: rest =>
    match s_disp_add_color_pair init_pair disp c b with
    | none => none
    | some (r, d1) =>
      match add_color_pairs init_pair d1 rest with
      | none => none
      | some (rs, d2) => some (r :: rs, d2)

/-- A display object whose tables have `n_pairs` and `n_palette` elements, all of them
zero, as left by a cleared allocation. -/
def disp_clear (n_pairs n_palette : Nat) : dispc_t :=
  { color_pairs := List.replicate n_pairs ⟨false, 0, 0, 0⟩
    palette := List.replicate n_palette ⟨false, 0, 0⟩
    code := none
    error_msg := ""
    init_pair_calls := [] }

/-- The display object `disp_clear 3 2` after one successful request for the pair (2, 1). -/
def disp_one_pair : dispc_t :=
  { disp_clear 3 2 with
    color_pairs := [⟨false, 0, 0, 0⟩, ⟨true, 2, 1, 0⟩, ⟨false, 0, 0, 0⟩]
    init_pair_calls := [(1, 2, 4)] }

/-- A backend that accepts every registration: `init_pair` returns `OK`. -/
def init_pair_ok : Nat → Nat → Nat → Int := fun _ _ _ => 0

/-! ### Palette entries -/

/-- The font style bits `DISP_FONT_ITALIC`, `DISP_FONT_BOLD`, `DISP_FONT_UNDERLINE` and
`DISP_FONT_REVERSE` of `disp.h`.  The header is not among the sources: the four values are
parameters of the model. -/
structure disp_font_bits where
  DISP_FONT_ITALIC : Nat
  DISP_FONT_BOLD : Nat
  DISP_FONT_UNDERLINE : Nat
  DISP_FONT_REVERSE : Nat
  deriving DecidableEq, Repr

/-- Macro `DISP_FONT_STYLE_BITS`. -/
def DISP_FONT_STYLE_BITS (F : disp_font_bits) : Nat :=
  F.DISP_FONT_ITALIC ||| F.DISP_FONT_BOLD ||| F.DISP_FONT_UNDERLINE ||| F.DISP_FONT_REVERSE

/-- The loop of `s_disp_pal_add` over the palette entries `l` that sit at the indices
`i, i+1, ...`: the index of the first entry that is not in use. -/
def find_unused_palette : List disp_palette_entry → Nat → Option Nat
  | [], _ => none
  | e :: es, i => if e.in_use = true then find_unused_palette es (i + 1) else some i

/-- The attribute mask `s_disp_pal_add` builds from a font style: it starts from 0 and ORs
in one ncurses attribute for each style bit that is set. -/
def style_attr_mask (F : disp_font_bits) (font_style : Nat) : Nat :=
  let m0 := 0
  let m1 := if font_style &&& F.DISP_FONT_ITALIC ≠ 0 then m0 ||| A_NORMAL else m0
  let m2 := if font_style &&& F.DISP_FONT_BOLD ≠ 0 then m1 ||| A_BOLD else m1
  let m3 := if font_style &&& F.DISP_FONT_UNDERLINE ≠ 0 then m2 ||| A_UNDERLINE else m2
  if font_style &&& F.DISP_FONT_REVERSE ≠ 0 then m3 ||| A_REVERSE else m3

/-- Model of `s_disp_pal_add`; the pointer `palette_id` is taken to be valid.  Result `none`:
an `ASSERT` failed; otherwise the returned `int`, the value written to `*palette_id`
(`none` when nothing is written) and the display object after the call. -/
def s_disp_pal_add (F : disp_font_bits) (init_pair : Nat → Nat → Nat → Int) (disp : dispc_t)
    (ncurses_color ncurses_background font_style : Nat) :
    Option (Int × Option Nat × dispc_t) :=
  -- check: only valid bits are set
  if ¬ (font_style &&& DISP_FONT_STYLE_BITS F) = font_style then none
  else
    let color := if ncurses_color ≥ 8 then ncurses_color - 8 else ncurses_color
    -- emulate highlight for ncurses
    let style := if ncurses_color ≥ 8 then font_style ||| F.DISP_FONT_BOLD else font_style
    match s_disp_add_color_pair init_pair disp color ncurses_background with
    | none => none
    | some (color_pair_id, d1) =>
      if color_pair_id = -1 then some (0, none, d1)
      else
        match find_unused_palette d1.palette 0 with
        | some i =>
          some (1, some i, { d1 with
            palette := d1.palette.set i
              { in_use := true, color_pair_id := color_pair_id,
                attr_mask := style_attr_mask F style } })
        | none =>
          -- no space in the palette table
          some (0, none, { d1 with
            code := some disp_error_code.DISP_PALETTE_FULL
            error_msg := "no more entries available in the palette table" })

/-- Model of `s_disp_pal_free`: the body does nothing. -/
def s_disp_pal_free (disp : dispc_t) (_palette_id : Int) : dispc_t := disp

/-- Model of `s_disp_pal_get_color_pair_id`.  `none`: no value is returned, because an
`ASSERT` fails or `palette_id` does not index an element of the table. -/
def s_disp_pal_get_color_pair_id (disp : dispc_t) (palette_id : Int) : Option Int :=
  if palette_id < 0 then none
  else if ¬ palette_id < (disp.palette.length : Int) then none
  else
    match disp.palette[palette_id.toNat]? with
    | some e => if e.in_use = true then some e.color_pair_id else none
    | none => none

/-- Model of `s_disp_pal_get_char_style`.  `none`: no value is returned, because an `ASSERT`
fails or `palette_id` does not index an element of the table. -/
def s_disp_pal_get_char_style (disp : dispc_t) (palette_id : Int) : Option Int :=
  if palette_id < 0 then none
  else if ¬ palette_id < (disp.palette.length : Int) then none
  else
    match disp.palette[palette_id.toNat]? with
    | some e => if e.in_use = true then some (e.attr_mask : Int) else none
    | none => none

/-- One call into the palette pool. -/
inductive pool_call where
  | add_color_pair (init_pair : Nat → Nat → Nat → Int) (color background : Nat)
  | pal_add (init_pair : Nat → Nat → Nat → Int) (color background font_style : Nat)
  | pal_free (palette_id : Int)

/-- The display object after one call into the palette pool; `none` when the call ends the
run on a failed `ASSERT`. -/
def pool_step (F : disp_font_bits) (disp : dispc_t) : pool_call → Option dispc_t
  | pool_call.add_color_pair init_pair c b =>
    (s_disp_add_color_pair init_pair disp c b).map (fun x => x.2)
  | pool_call.pal_add init_pair c b st =>
    (s_disp_pal_add F init_pair disp c b st).map (fun x => x.2.2)
  | pool_call.pal_free id => some (s_disp_pal_free disp id)

/-- The display object after a sequence of calls into the palette pool. -/
def pool_run (F : disp_font_bits) : dispc_t → List pool_call → Option dispc_t
  | disp, [] => some disp
  | disp, call :: rest =>
    match pool_step F disp call with
    | none => none
    | some d1 => pool_run F d1 rest

/-- No two different entries in use store the same (foreground, background) pair. -/
def color_pairs_unique (cp : List disp_color_pair) : Prop :=
  ∀ (i j : Nat) (x y : disp_color_pair), cp[i]? = some x → cp[j]? = some y →
    x.in_use = true → y.in_use = true →
    x.store_color = y.store_color → x.store_background = y.store_background → i = j

/-- Entry 0 of the colour-pair table is not in use. -/
def color_pair_zero_unused (cp : List disp_color_pair) : Prop :=
  ∀ x : disp_color_pair, cp[0]? = some x → x.in_use = false

/-- The display object `disp_clear 3 2` after `s_disp_pal_add` for the bright colour 12
on background 1 with the style bit 4 (underline in `font_bits_sample`). -/
def disp_one_palette : dispc_t :=
  { disp_clear 3 2 with
    color_pairs := [⟨false, 0, 0, 0⟩, ⟨true, 4, 1, 0⟩, ⟨false, 0, 0, 0⟩]
    palette := [⟨true, 1, A_BOLD ||| A_UNDERLINE⟩, ⟨false, 0, 0⟩]
    init_pair_calls := [(1, 1, 4)] }

/-- Sample values for the font style bits: four different single bits. -/
def font_bits_sample : disp_font_bits :=
  { DISP_FONT_ITALIC := 1, DISP_FONT_BOLD := 2, DISP_FONT_UNDERLINE := 4,
    DISP_FONT_REVERSE := 8 }

/-! ### Key sequences -/

/-- C `strlen` of the string stored in the bytes `s` and ended by the first NUL among them
or, if there is none, by the NUL that follows them. -/
def strlen : List Nat → Nat
  | [] => 0
  | c :: cs => if c = 0 then 0 else strlen cs + 1

/-- C `strncmp(s1, s2, n)`: the difference of the first two bytes that differ among the
first `n`, 0 when there is no such pair before a NUL.  The bytes after the end of a list
are the NUL that ends the string. -/
def strncmp : List Nat → List Nat → Nat → Int
  | _, _, 0 => 0
  | s1, s2, n + 1 =>
    let c1 := s1.headD 0
    let c2 := s2.headD 0
    if c1 ≠ c2 then (c1 : Int) - (c2 : Int)
    else if c1 = 0 then 0
    else strncmp s1.tail s2.tail n

/-- The struct `key_sequence_t`: `esq_seq` holds the bytes of the C string (the NUL that
ends it is not stored), `key` the key value, `term_esc_seq` the capability name or `none`
for `NULL`. -/
structure key_sequence_t where
  esq_seq : List Nat
  key : Nat
  term_esc_seq : Option String
  deriving DecidableEq, Repr

/-- The loop of `s_match_key_sequence` over the rules `keys`: the value returned and, for
a complete match, the values stored to `*key` and `*shift_state`. -/
def match_key_loop (console_shift_state : Nat) (key_buf : List Nat) (key_buf_len : Nat) :
    List key_sequence_t → Nat × Option (Nat × Nat)
  | [] => (0, none)
  | r :: rest =>
    if strncmp key_buf r.esq_seq key_buf_len = 0 then
      if strlen r.esq_seq = key_buf_len then
        let shift_state := console_shift_state
        (2, some (r.key ||| ((shift_state <<< 16) % 4294967296), shift_state))
      else (1, none)
    else match_key_loop console_shift_state key_buf key_buf_len rest

/-- Model of `s_match_key_sequence` for the table `keys` (the static `s_keys`, or what
`s_disp_get_ncurses_keys` has made of it).  `console_shift_state` is what
`s_disp_get_console_shift_state()` returns when it is called.  Result: the returned value
0, 1 or 2 and, for 2, the pair stored to `*key` and `*shift_state`. -/
def s_match_key_sequence (keys : List key_sequence_t) (console_shift_state : Nat)
    (key_buf : List Nat) : Nat × Option (Nat × Nat) :=
  match_key_loop console_shift_state key_buf (strlen key_buf) keys

/-- The C string a byte list stores: its bytes up to the first NUL. -/
def cstr : List Nat → List Nat
  | [] => []
  | c :: cs => if c = 0 then [] else c :: cstr cs

/-! ### Key definitions and events (headers that are not among the sources) -/

/-- The scan code names of `enum key_defs` that `disp_ncurs.c` uses.  The enumeration is
declared in a header that is not among the sources; the numeric value of each name is the
parameter `key_consts.sc`. -/
inductive key_defs where
  | kbTilda | kb1 | kb2 | kb3 | kb4 | kb5 | kb6 | kb7 | kb8 | kb9 | kb0 | kbMinus | kbEqual
  | kbBckSpc | kbTab | kbQ | kbW | kbE | kbR | kbT | kbY | kbU | kbI | kbO | kbP | kbLBrace
  | kbRBrace | kbEnter | kbA | kbS | kbD | kbF | kbG | kbH | kbJ | kbK | kbL | kbColon | kb_1
  | kb_2 | kbZ | kbX | kbC | kbV | kbB | kbN | kbM | kbComa | kbPeriod | kbSlash | kbSpace
  | kbF1 | kbF2 | kbF3 | kbF4 | kbF5 | kbF6 | kbF7 | kbF8 | kbF9 | kbF10 | kbF11 | kbF12
  | kbHome | kbIns | kbDel | kbEnd | kbPgUp | kbPgDn | kbUp | kbDown | kbLeft | kbRight
  | kbEsc
  deriving DecidableEq, Repr

/-- The event codes `disp_ncurs.c` stores in `ev.t.code`; `other` stands for every other
value of that field. -/
inductive disp_event_code where
  | EVENT_KEY
  | EVENT_TIMER_5SEC
  | other (code : Nat)
  deriving DecidableEq, Repr

/-- The fields of `disp_event_t` that `s_disp_process_events` writes: `t.code`,
`e.kbd.scan_code_only`, `e.kbd.shift_state` and `e.kbd.key`. -/
structure disp_event_t where
  code : disp_event_code
  scan_code_only : Nat
  shift_state : Nat
  key : Nat
  deriving DecidableEq, Repr

/-- What the headers that are not among the sources define for the key tables and the
events: the macro `KEY(state, scancode)`, the shift state masks `kbShift`, `kbCtrl` and
`kbAlt`, the numeric values `sc` of the scan code names, and the event `ev_clear` that
`disp_event_clear` leaves.  All of them are parameters of the model. -/
structure key_consts where
  KEY : Nat → Nat → Nat
  kbShift : Nat
  kbCtrl : Nat
  kbAlt : Nat
  sc : key_defs → Nat
  ev_clear : disp_event_t

/-- The table `s_keys` as initialised in the source, in source order (341 rules).  Each
byte pattern is the string literal of the source written out in bytes: `\033` and `\x1b`
are 27, and `\e`, which the compiler reads as ESC as well, makes the pattern of the rule
for Alt+N the two bytes 27, 101. -/
def s_keys (K : key_consts) : List key_sequence_t :=
  [
    key_sequence_t.mk [126] (K.KEY 0 (K.sc key_defs.kbTilda) ||| 126) none,
    key_sequence_t.mk [96] (K.KEY K.kbShift (K.sc key_defs.kbTilda) ||| 96) none,
    key_sequence_t.mk [49] (K.KEY 0 (K.sc key_defs.kb1) ||| 49) none,
    key_sequence_t.mk [33] (K.KEY K.kbShift (K.sc key_defs.kb1) ||| 33) none,
    key_sequence_t.mk [27, 49] (K.KEY K.kbAlt (K.sc key_defs.kb1)) none,
    key_sequence_t.mk [177] (K.KEY K.kbAlt (K.sc key_defs.kb1)) none,
    key_sequence_t.mk [50] (K.KEY 0 (K.sc key_defs.kb2) ||| 50) none,
    key_sequence_t.mk [64] (K.KEY K.kbShift (K.sc key_defs.kb2) ||| 64) none,
    key_sequence_t.mk [27, 50] (K.KEY K.kbAlt (K.sc key_defs.kb2)) none,
    key_sequence_t.mk [178] (K.KEY K.kbAlt (K.sc key_defs.kb2)) none,
    key_sequence_t.mk [51] (K.KEY 0 (K.sc key_defs.kb3) ||| 51) none,
    key_sequence_t.mk [35] (K.KEY K.kbShift (K.sc key_defs.kb3) ||| 35) none,
    key_sequence_t.mk [27, 51] (K.KEY K.kbAlt (K.sc key_defs.kb3)) none,
    key_sequence_t.mk [179] (K.KEY K.kbAlt (K.sc key_defs.kb3)) none,
    key_sequence_t.mk [52] (K.KEY 0 (K.sc key_defs.kb4) ||| 52) none,
    key_sequence_t.mk [36] (K.KEY K.kbShift (K.sc key_defs.kb4) ||| 36) none,
    key_sequence_t.mk [27, 52] (K.KEY K.kbAlt (K.sc key_defs.kb4)) none,
    key_sequence_t.mk [180] (K.KEY K.kbAlt (K.sc key_defs.kb4)) none,
    key_sequence_t.mk [53] (K.KEY 0 (K.sc key_defs.kb5) ||| 53) none,
    key_sequence_t.mk [37] (K.KEY K.kbShift (K.sc key_defs.kb5) ||| 37) none,
    key_sequence_t.mk [27, 53] (K.KEY K.kbAlt (K.sc key_defs.kb5)) none,
    key_sequence_t.mk [181] (K.KEY K.kbAlt (K.sc key_defs.kb5)) none,
    key_sequence_t.mk [54] (K.KEY 0 (K.sc key_defs.kb6) ||| 54) none,
    key_sequence_t.mk [94] (K.KEY K.kbShift (K.sc key_defs.kb6) ||| 94) none,
    key_sequence_t.mk [27, 54] (K.KEY K.kbAlt (K.sc key_defs.kb6)) none,
    key_sequence_t.mk [182] (K.KEY K.kbAlt (K.sc key_defs.kb6)) none,
    key_sequence_t.mk [55] (K.KEY 0 (K.sc key_defs.kb7) ||| 55) none,
    key_sequence_t.mk [38] (K.KEY K.kbShift (K.sc key_defs.kb7) ||| 38) none,
    key_sequence_t.mk [27, 55] (K.KEY K.kbAlt (K.sc key_defs.kb7)) none,
    key_sequence_t.mk [183] (K.KEY K.kbAlt (K.sc key_defs.kb7)) none,
    key_sequence_t.mk [56] (K.KEY 0 (K.sc key_defs.kb8) ||| 56) none,
    key_sequence_t.mk [42] (K.KEY K.kbShift (K.sc key_defs.kb8) ||| 42) none,
    key_sequence_t.mk [27, 56] (K.KEY K.kbAlt (K.sc key_defs.kb8)) none,
    key_sequence_t.mk [184] (K.KEY K.kbAlt (K.sc key_defs.kb8)) none,
    key_sequence_t.mk [57] (K.KEY 0 (K.sc key_defs.kb9) ||| 57) none,
    key_sequence_t.mk [40] (K.KEY K.kbShift (K.sc key_defs.kb9) ||| 40) none,
    key_sequence_t.mk [27, 57] (K.KEY K.kbAlt (K.sc key_defs.kb9)) none,
    key_sequence_t.mk [185] (K.KEY K.kbAlt (K.sc key_defs.kb9)) none,
    key_sequence_t.mk [48] (K.KEY 0 (K.sc key_defs.kb0) ||| 48) none,
    key_sequence_t.mk [41] (K.KEY K.kbShift (K.sc key_defs.kb0) ||| 41) none,
    key_sequence_t.mk [27, 48] (K.KEY K.kbAlt (K.sc key_defs.kb0)) none,
    key_sequence_t.mk [176] (K.KEY K.kbAlt (K.sc key_defs.kb0)) none,
    key_sequence_t.mk [45] (K.KEY 0 (K.sc key_defs.kbMinus) ||| 45) none,
    key_sequence_t.mk [95] (K.KEY K.kbShift (K.sc key_defs.kbMinus) ||| 95) none,
    key_sequence_t.mk [27, 45] (K.KEY K.kbAlt (K.sc key_defs.kbMinus)) none,
    key_sequence_t.mk [173] (K.KEY K.kbAlt (K.sc key_defs.kbMinus)) none,
    key_sequence_t.mk [61] (K.KEY 0 (K.sc key_defs.kbEqual) ||| 61) none,
    key_sequence_t.mk [43] (K.KEY K.kbShift (K.sc key_defs.kbEqual) ||| 43) none,
    key_sequence_t.mk [27, 61] (K.KEY K.kbAlt (K.sc key_defs.kbEqual)) none,
    key_sequence_t.mk [189] (K.KEY K.kbAlt (K.sc key_defs.kbEqual)) none,
    key_sequence_t.mk [127] (K.KEY 0 (K.sc key_defs.kbBckSpc)) (some "kbs"),
    key_sequence_t.mk [27, 127] (K.KEY K.kbAlt (K.sc key_defs.kbBckSpc)) none,
    key_sequence_t.mk [136] (K.KEY K.kbAlt (K.sc key_defs.kbBckSpc)) none,
    key_sequence_t.mk [9] (K.KEY 0 (K.sc key_defs.kbTab)) none,
    key_sequence_t.mk [113] (K.KEY 0 (K.sc key_defs.kbQ) ||| 113) none,
    key_sequence_t.mk [81] (K.KEY K.kbShift (K.sc key_defs.kbQ) ||| 81) none,
    key_sequence_t.mk [27, 113] (K.KEY K.kbAlt (K.sc key_defs.kbQ)) none,
    key_sequence_t.mk [241] (K.KEY K.kbAlt (K.sc key_defs.kbQ)) none,
    key_sequence_t.mk [119] (K.KEY 0 (K.sc key_defs.kbW) ||| 119) none,
    key_sequence_t.mk [87] (K.KEY K.kbShift (K.sc key_defs.kbW) ||| 87) none,
    key_sequence_t.mk [27, 119] (K.KEY K.kbAlt (K.sc key_defs.kbW)) none,
    key_sequence_t.mk [247] (K.KEY K.kbAlt (K.sc key_defs.kbW)) none,
    key_sequence_t.mk [101] (K.KEY 0 (K.sc key_defs.kbE) ||| 101) none,
    key_sequence_t.mk [69] (K.KEY K.kbShift (K.sc key_defs.kbE) ||| 69) none,
    key_sequence_t.mk [27, 101] (K.KEY K.kbAlt (K.sc key_defs.kbE)) none,
    key_sequence_t.mk [229] (K.KEY K.kbAlt (K.sc key_defs.kbE)) none,
    key_sequence_t.mk [114] (K.KEY 0 (K.sc key_defs.kbR) ||| 114) none,
    key_sequence_t.mk [82] (K.KEY K.kbShift (K.sc key_defs.kbR) ||| 82) none,
    key_sequence_t.mk [27, 114] (K.KEY K.kbAlt (K.sc key_defs.kbR)) none,
    key_sequence_t.mk [242] (K.KEY K.kbAlt (K.sc key_defs.kbR)) none,
    key_sequence_t.mk [116] (K.KEY 0 (K.sc key_defs.kbT) ||| 116) none,
    key_sequence_t.mk [84] (K.KEY K.kbShift (K.sc key_defs.kbT) ||| 84) none,
    key_sequence_t.mk [27, 116] (K.KEY K.kbAlt (K.sc key_defs.kbT)) none,
    key_sequence_t.mk [244] (K.KEY K.kbAlt (K.sc key_defs.kbT)) none,
    key_sequence_t.mk [121] (K.KEY 0 (K.sc key_defs.kbY) ||| 121) none,
    key_sequence_t.mk [89] (K.KEY K.kbShift (K.sc key_defs.kbY) ||| 89) none,
    key_sequence_t.mk [27, 121] (K.KEY K.kbAlt (K.sc key_defs.kbY)) none,
    key_sequence_t.mk [249] (K.KEY K.kbAlt (K.sc key_defs.kbY)) none,
    key_sequence_t.mk [117] (K.KEY 0 (K.sc key_defs.kbU) ||| 117) none,
    key_sequence_t.mk [85] (K.KEY K.kbShift (K.sc key_defs.kbU) ||| 85) none,
    key_sequence_t.mk [27, 117] (K.KEY K.kbAlt (K.sc key_defs.kbU)) none,
    key_sequence_t.mk [245] (K.KEY K.kbAlt (K.sc key_defs.kbU)) none,
    key_sequence_t.mk [105] (K.KEY 0 (K.sc key_defs.kbI) ||| 105) none,
    key_sequence_t.mk [73] (K.KEY K.kbShift (K.sc key_defs.kbI) ||| 73) none,
    key_sequence_t.mk [27, 105] (K.KEY K.kbAlt (K.sc key_defs.kbI)) none,
    key_sequence_t.mk [233] (K.KEY K.kbAlt (K.sc key_defs.kbI)) none,
    key_sequence_t.mk [111] (K.KEY 0 (K.sc key_defs.kbO) ||| 111) none,
    key_sequence_t.mk [79] (K.KEY K.kbShift (K.sc key_defs.kbO) ||| 79) none,
    key_sequence_t.mk [27, 111] (K.KEY K.kbAlt (K.sc key_defs.kbO)) none,
    key_sequence_t.mk [239] (K.KEY K.kbAlt (K.sc key_defs.kbO)) none,
    key_sequence_t.mk [112] (K.KEY 0 (K.sc key_defs.kbP) ||| 112) none,
    key_sequence_t.mk [80] (K.KEY K.kbShift (K.sc key_defs.kbP) ||| 80) none,
    key_sequence_t.mk [27, 112] (K.KEY K.kbAlt (K.sc key_defs.kbP)) none,
    key_sequence_t.mk [240] (K.KEY K.kbAlt (K.sc key_defs.kbP)) none,
    key_sequence_t.mk [91] (K.KEY 0 (K.sc key_defs.kbLBrace) ||| 91) none,
    key_sequence_t.mk [123] (K.KEY K.kbShift (K.sc key_defs.kbLBrace) ||| 123) none,
    key_sequence_t.mk [219] (K.KEY K.kbAlt (K.sc key_defs.kbLBrace)) none,
    key_sequence_t.mk [93] (K.KEY 0 (K.sc key_defs.kbRBrace) ||| 93) none,
    key_sequence_t.mk [125] (K.KEY K.kbShift (K.sc key_defs.kbRBrace) ||| 125) none,
    key_sequence_t.mk [27, 93] (K.KEY K.kbAlt (K.sc key_defs.kbRBrace)) none,
    key_sequence_t.mk [221] (K.KEY K.kbAlt (K.sc key_defs.kbRBrace)) none,
    key_sequence_t.mk [13] (K.KEY 0 (K.sc key_defs.kbEnter)) none,
    key_sequence_t.mk [27, 13] (K.KEY K.kbAlt (K.sc key_defs.kbEnter)) none,
    key_sequence_t.mk [141] (K.KEY K.kbAlt (K.sc key_defs.kbEnter)) none,
    key_sequence_t.mk [97] (K.KEY 0 (K.sc key_defs.kbA) ||| 97) none,
    key_sequence_t.mk [65] (K.KEY K.kbShift (K.sc key_defs.kbA) ||| 65) none,
    key_sequence_t.mk [27, 97] (K.KEY K.kbAlt (K.sc key_defs.kbA)) none,
    key_sequence_t.mk [225] (K.KEY K.kbAlt (K.sc key_defs.kbA)) none,
    key_sequence_t.mk [115] (K.KEY 0 (K.sc key_defs.kbS) ||| 115) none,
    key_sequence_t.mk [83] (K.KEY K.kbShift (K.sc key_defs.kbS) ||| 83) none,
    key_sequence_t.mk [27, 115] (K.KEY K.kbAlt (K.sc key_defs.kbS)) none,
    key_sequence_t.mk [243] (K.KEY K.kbAlt (K.sc key_defs.kbS)) none,
    key_sequence_t.mk [100] (K.KEY 0 (K.sc key_defs.kbD) ||| 100) none,
    key_sequence_t.mk [68] (K.KEY K.kbShift (K.sc key_defs.kbD) ||| 68) none,
    key_sequence_t.mk [27, 100] (K.KEY K.kbAlt (K.sc key_defs.kbD)) none,
    key_sequence_t.mk [228] (K.KEY K.kbAlt (K.sc key_defs.kbD)) none,
    key_sequence_t.mk [102] (K.KEY 0 (K.sc key_defs.kbF) ||| 102) none,
    key_sequence_t.mk [70] (K.KEY K.kbShift (K.sc key_defs.kbF) ||| 70) none,
    key_sequence_t.mk [27, 102] (K.KEY K.kbAlt (K.sc key_defs.kbF)) none,
    key_sequence_t.mk [230] (K.KEY K.kbAlt (K.sc key_defs.kbF)) none,
    key_sequence_t.mk [103] (K.KEY 0 (K.sc key_defs.kbG) ||| 103) none,
    key_sequence_t.mk [71] (K.KEY K.kbShift (K.sc key_defs.kbG) ||| 71) none,
    key_sequence_t.mk [27, 103] (K.KEY K.kbAlt (K.sc key_defs.kbG)) none,
    key_sequence_t.mk [231] (K.KEY K.kbAlt (K.sc key_defs.kbG)) none,
    key_sequence_t.mk [104] (K.KEY 0 (K.sc key_defs.kbH) ||| 104) none,
    key_sequence_t.mk [72] (K.KEY K.kbShift (K.sc key_defs.kbH) ||| 72) none,
    key_sequence_t.mk [27, 104] (K.KEY K.kbAlt (K.sc key_defs.kbH)) none,
    key_sequence_t.mk [232] (K.KEY K.kbAlt (K.sc key_defs.kbH)) none,
    key_sequence_t.mk [106] (K.KEY 0 (K.sc key_defs.kbJ) ||| 106) none,
    key_sequence_t.mk [74] (K.KEY K.kbShift (K.sc key_defs.kbJ) ||| 74) none,
    key_sequence_t.mk [27, 106] (K.KEY K.kbAlt (K.sc key_defs.kbJ)) none,
    key_sequence_t.mk [234] (K.KEY K.kbAlt (K.sc key_defs.kbJ)) none,
    key_sequence_t.mk [107] (K.KEY 0 (K.sc key_defs.kbK) ||| 107) none,
    key_sequence_t.mk [75] (K.KEY K.kbShift (K.sc key_defs.kbK) ||| 75) none,
    key_sequence_t.mk [27, 107] (K.KEY K.kbAlt (K.sc key_defs.kbK)) none,
    key_sequence_t.mk [235] (K.KEY K.kbAlt (K.sc key_defs.kbK)) none,
    key_sequence_t.mk [108] (K.KEY 0 (K.sc key_defs.kbL) ||| 108) none,
    key_sequence_t.mk [76] (K.KEY K.kbShift (K.sc key_defs.kbL) ||| 76) none,
    key_sequence_t.mk [27, 108] (K.KEY K.kbAlt (K.sc key_defs.kbL)) none,
    key_sequence_t.mk [236] (K.KEY K.kbAlt (K.sc key_defs.kbL)) none,
    key_sequence_t.mk [59] (K.KEY 0 (K.sc key_defs.kbColon) ||| 59) none,
    key_sequence_t.mk [58] (K.KEY K.kbShift (K.sc key_defs.kbColon) ||| 58) none,
    key_sequence_t.mk [27, 59] (K.KEY K.kbAlt (K.sc key_defs.kbColon)) none,
    key_sequence_t.mk [187] (K.KEY K.kbAlt (K.sc key_defs.kbColon)) none,
    key_sequence_t.mk [34] (K.KEY 0 (K.sc key_defs.kb_1) ||| 34) none,
    key_sequence_t.mk [39] (K.KEY K.kbShift (K.sc key_defs.kb_1) ||| 39) none,
    key_sequence_t.mk [27, 39] (K.KEY K.kbAlt (K.sc key_defs.kb_1)) none,
    key_sequence_t.mk [167] (K.KEY K.kbAlt (K.sc key_defs.kb_1)) none,
    key_sequence_t.mk [92] (K.KEY 0 (K.sc key_defs.kb_2) ||| 92) none,
    key_sequence_t.mk [124] (K.KEY K.kbShift (K.sc key_defs.kb_2) ||| 124) none,
    key_sequence_t.mk [27, 92] (K.KEY K.kbAlt (K.sc key_defs.kb_2)) none,
    key_sequence_t.mk [220] (K.KEY K.kbAlt (K.sc key_defs.kb_2)) none,
    key_sequence_t.mk [122] (K.KEY 0 (K.sc key_defs.kbZ) ||| 122) none,
    key_sequence_t.mk [90] (K.KEY K.kbShift (K.sc key_defs.kbZ) ||| 90) none,
    key_sequence_t.mk [27, 122] (K.KEY K.kbAlt (K.sc key_defs.kbZ)) none,
    key_sequence_t.mk [250] (K.KEY K.kbAlt (K.sc key_defs.kbZ)) none,
    key_sequence_t.mk [120] (K.KEY 0 (K.sc key_defs.kbX) ||| 120) none,
    key_sequence_t.mk [88] (K.KEY K.kbShift (K.sc key_defs.kbX) ||| 88) none,
    key_sequence_t.mk [27, 120] (K.KEY K.kbAlt (K.sc key_defs.kbX)) none,
    key_sequence_t.mk [248] (K.KEY K.kbAlt (K.sc key_defs.kbX)) none,
    key_sequence_t.mk [99] (K.KEY 0 (K.sc key_defs.kbC) ||| 99) none,
    key_sequence_t.mk [67] (K.KEY K.kbShift (K.sc key_defs.kbC) ||| 67) none,
    key_sequence_t.mk [27, 99] (K.KEY K.kbAlt (K.sc key_defs.kbC)) none,
    key_sequence_t.mk [227] (K.KEY K.kbAlt (K.sc key_defs.kbC)) none,
    key_sequence_t.mk [118] (K.KEY 0 (K.sc key_defs.kbV) ||| 118) none,
    key_sequence_t.mk [86] (K.KEY K.kbShift (K.sc key_defs.kbV) ||| 86) none,
    key_sequence_t.mk [27, 118] (K.KEY K.kbAlt (K.sc key_defs.kbV)) none,
    key_sequence_t.mk [246] (K.KEY K.kbAlt (K.sc key_defs.kbV)) none,
    key_sequence_t.mk [98] (K.KEY 0 (K.sc key_defs.kbB) ||| 98) none,
    key_sequence_t.mk [66] (K.KEY K.kbShift (K.sc key_defs.kbB) ||| 66) none,
    key_sequence_t.mk [27, 98] (K.KEY K.kbAlt (K.sc key_defs.kbB)) none,
    key_sequence_t.mk [226] (K.KEY K.kbAlt (K.sc key_defs.kbB)) none,
    key_sequence_t.mk [110] (K.KEY 0 (K.sc key_defs.kbN) ||| 110) none,
    key_sequence_t.mk [78] (K.KEY K.kbShift (K.sc key_defs.kbN) ||| 78) none,
    key_sequence_t.mk [27, 110] (K.KEY K.kbAlt (K.sc key_defs.kbN)) none,
    key_sequence_t.mk [27, 101] (K.KEY K.kbAlt (K.sc key_defs.kbN)) none,
    key_sequence_t.mk [109] (K.KEY 0 (K.sc key_defs.kbM) ||| 109) none,
    key_sequence_t.mk [77] (K.KEY K.kbShift (K.sc key_defs.kbM) ||| 77) none,
    key_sequence_t.mk [27, 109] (K.KEY K.kbAlt (K.sc key_defs.kbM)) none,
    key_sequence_t.mk [237] (K.KEY K.kbAlt (K.sc key_defs.kbM)) none,
    key_sequence_t.mk [44] (K.KEY 0 (K.sc key_defs.kbComa) ||| 44) none,
    key_sequence_t.mk [60] (K.KEY K.kbShift (K.sc key_defs.kbComa) ||| 60) none,
    key_sequence_t.mk [27, 44] (K.KEY K.kbAlt (K.sc key_defs.kbComa)) none,
    key_sequence_t.mk [172] (K.KEY K.kbAlt (K.sc key_defs.kbComa)) none,
    key_sequence_t.mk [46] (K.KEY 0 (K.sc key_defs.kbPeriod) ||| 46) none,
    key_sequence_t.mk [62] (K.KEY K.kbShift (K.sc key_defs.kbPeriod) ||| 62) none,
    key_sequence_t.mk [27, 46] (K.KEY K.kbAlt (K.sc key_defs.kbPeriod)) none,
    key_sequence_t.mk [174] (K.KEY K.kbAlt (K.sc key_defs.kbPeriod)) none,
    key_sequence_t.mk [47] (K.KEY 0 (K.sc key_defs.kbSlash) ||| 47) none,
    key_sequence_t.mk [63] (K.KEY K.kbShift (K.sc key_defs.kbSlash) ||| 63) none,
    key_sequence_t.mk [27, 47] (K.KEY K.kbAlt (K.sc key_defs.kbSlash)) none,
    key_sequence_t.mk [175] (K.KEY K.kbAlt (K.sc key_defs.kbSlash)) none,
    key_sequence_t.mk [32] (K.KEY 0 (K.sc key_defs.kbSpace) ||| 32) none,
    key_sequence_t.mk [27, 32] (K.KEY K.kbAlt (K.sc key_defs.kbSpace)) none,
    key_sequence_t.mk [160, 32] (K.KEY K.kbAlt (K.sc key_defs.kbSpace)) none,
    key_sequence_t.mk [27, 91, 49, 49, 126] (K.KEY 0 (K.sc key_defs.kbF1)) none,
    key_sequence_t.mk [27, 91, 49, 50, 126] (K.KEY 0 (K.sc key_defs.kbF2)) none,
    key_sequence_t.mk [27, 91, 49, 51, 126] (K.KEY 0 (K.sc key_defs.kbF3)) none,
    key_sequence_t.mk [27, 91, 49, 52, 126] (K.KEY 0 (K.sc key_defs.kbF4)) none,
    key_sequence_t.mk [27, 91, 91, 65] (K.KEY 0 (K.sc key_defs.kbF1)) (some "kf1"),
    key_sequence_t.mk [27, 91, 91, 66] (K.KEY 0 (K.sc key_defs.kbF2)) (some "kf2"),
    key_sequence_t.mk [27, 91, 91, 67] (K.KEY 0 (K.sc key_defs.kbF3)) (some "kf3"),
    key_sequence_t.mk [27, 91, 91, 68] (K.KEY 0 (K.sc key_defs.kbF4)) (some "kf4"),
    key_sequence_t.mk [27, 91, 91, 69] (K.KEY 0 (K.sc key_defs.kbF5)) (some "kf5"),
    key_sequence_t.mk [27, 91, 49, 55, 126] (K.KEY 0 (K.sc key_defs.kbF6)) (some "kf6"),
    key_sequence_t.mk [27, 91, 49, 56, 126] (K.KEY 0 (K.sc key_defs.kbF7)) (some "kf7"),
    key_sequence_t.mk [27, 91, 49, 57, 126] (K.KEY 0 (K.sc key_defs.kbF8)) (some "kf8"),
    key_sequence_t.mk [27, 91, 50, 48, 126] (K.KEY 0 (K.sc key_defs.kbF9)) (some "kf9"),
    key_sequence_t.mk [27, 91, 50, 49, 126] (K.KEY 0 (K.sc key_defs.kbF10)) (some "kf10"),
    key_sequence_t.mk [27, 91, 50, 51, 126] (K.KEY 0 (K.sc key_defs.kbF11)) (some "kf11"),
    key_sequence_t.mk [27, 91, 50, 52, 126] (K.KEY 0 (K.sc key_defs.kbF12)) (some "kf12"),
    key_sequence_t.mk [27, 91, 49, 126] (K.KEY 0 (K.sc key_defs.kbHome)) (some "khome"),
    key_sequence_t.mk [27, 91, 49, 126] (K.KEY 0 (K.sc key_defs.kbHome)) none,
    key_sequence_t.mk [27, 91, 50, 126] (K.KEY 0 (K.sc key_defs.kbIns)) (some "kich1"),
    key_sequence_t.mk [27, 91, 51, 126] (K.KEY 0 (K.sc key_defs.kbDel)) (some "kdch1"),
    key_sequence_t.mk [27, 91, 52, 126] (K.KEY 0 (K.sc key_defs.kbEnd)) (some "kend"),
    key_sequence_t.mk [27, 91, 52, 126] (K.KEY 0 (K.sc key_defs.kbEnd)) none,
    key_sequence_t.mk [27, 91, 53, 126] (K.KEY 0 (K.sc key_defs.kbPgUp)) (some "kpp"),
    key_sequence_t.mk [27, 91, 54, 126] (K.KEY 0 (K.sc key_defs.kbPgDn)) (some "knp"),
    key_sequence_t.mk [27, 91, 77] (127) none,
    key_sequence_t.mk [27, 91, 80] (127) none,
    key_sequence_t.mk [27, 91, 65] (K.KEY 0 (K.sc key_defs.kbUp)) (some "kcuu1"),
    key_sequence_t.mk [27, 91, 66] (K.KEY 0 (K.sc key_defs.kbDown)) (some "kcud1"),
    key_sequence_t.mk [27, 91, 68] (K.KEY 0 (K.sc key_defs.kbLeft)) (some "kcub1"),
    key_sequence_t.mk [27, 91, 67] (K.KEY 0 (K.sc key_defs.kbRight)) (some "kcuf1"),
    key_sequence_t.mk [27, 91, 65] (K.KEY 0 (K.sc key_defs.kbUp)) none,
    key_sequence_t.mk [27, 91, 66] (K.KEY 0 (K.sc key_defs.kbDown)) none,
    key_sequence_t.mk [27, 91, 68] (K.KEY 0 (K.sc key_defs.kbLeft)) none,
    key_sequence_t.mk [27, 91, 67] (K.KEY 0 (K.sc key_defs.kbRight)) none,
    key_sequence_t.mk [27, 91, 72] (K.KEY 0 (K.sc key_defs.kbHome)) none,
    key_sequence_t.mk [27, 91, 70] (K.KEY 0 (K.sc key_defs.kbEnd)) none,
    key_sequence_t.mk [27, 91, 49, 59, 53, 72] (K.KEY K.kbCtrl (K.sc key_defs.kbHome)) none,
    key_sequence_t.mk [27, 91, 49, 59, 53, 70] (K.KEY K.kbCtrl (K.sc key_defs.kbEnd)) none,
    key_sequence_t.mk [27, 91, 53, 59, 53, 126] (K.KEY K.kbCtrl (K.sc key_defs.kbPgUp)) none,
    key_sequence_t.mk [27, 91, 54, 59, 53, 126] (K.KEY K.kbCtrl (K.sc key_defs.kbPgDn)) none,
    key_sequence_t.mk [27, 91, 49, 59, 50, 72] (K.KEY K.kbShift (K.sc key_defs.kbHome)) none,
    key_sequence_t.mk [27, 91, 49, 59, 50, 70] (K.KEY K.kbShift (K.sc key_defs.kbEnd)) none,
    key_sequence_t.mk [27, 91, 53, 59, 50, 126] (K.KEY K.kbShift (K.sc key_defs.kbPgUp)) none,
    key_sequence_t.mk [27, 91, 54, 59, 50, 126] (K.KEY K.kbShift (K.sc key_defs.kbPgDn)) none,
    key_sequence_t.mk [27, 91, 49, 59, 54, 72] (K.KEY (K.kbCtrl + K.kbShift) (K.sc key_defs.kbHome)) none,
    key_sequence_t.mk [27, 91, 49, 59, 54, 70] (K.KEY (K.kbCtrl + K.kbShift) (K.sc key_defs.kbEnd)) none,
    key_sequence_t.mk [27, 91, 53, 59, 54, 126] (K.KEY (K.kbCtrl + K.kbShift) (K.sc key_defs.kbPgUp)) none,
    key_sequence_t.mk [27, 91, 54, 59, 54, 126] (K.KEY (K.kbCtrl + K.kbShift) (K.sc key_defs.kbPgDn)) none,
    key_sequence_t.mk [27, 91, 49, 59, 50, 65] (K.KEY K.kbShift (K.sc key_defs.kbUp)) none,
    key_sequence_t.mk [27, 91, 49, 59, 50, 66] (K.KEY K.kbShift (K.sc key_defs.kbDown)) none,
    key_sequence_t.mk [27, 91, 49, 59, 50, 68] (K.KEY K.kbShift (K.sc key_defs.kbLeft)) none,
    key_sequence_t.mk [27, 91, 49, 59, 50, 67] (K.KEY K.kbShift (K.sc key_defs.kbRight)) none,
    key_sequence_t.mk [27, 91, 49, 59, 53, 65] (K.KEY K.kbCtrl (K.sc key_defs.kbUp)) none,
    key_sequence_t.mk [27, 91, 49, 59, 53, 66] (K.KEY K.kbCtrl (K.sc key_defs.kbDown)) none,
    key_sequence_t.mk [27, 91, 49, 59, 53, 68] (K.KEY K.kbCtrl (K.sc key_defs.kbLeft)) none,
    key_sequence_t.mk [27, 91, 49, 59, 53, 67] (K.KEY K.kbCtrl (K.sc key_defs.kbRight)) none,
    key_sequence_t.mk [27, 91, 49, 59, 54, 65] (K.KEY (K.kbCtrl + K.kbShift) (K.sc key_defs.kbUp)) none,
    key_sequence_t.mk [27, 91, 49, 59, 54, 66] (K.KEY (K.kbCtrl + K.kbShift) (K.sc key_defs.kbDown)) none,
    key_sequence_t.mk [27, 91, 49, 59, 54, 68] (K.KEY (K.kbCtrl + K.kbShift) (K.sc key_defs.kbLeft)) none,
    key_sequence_t.mk [27, 91, 49, 59, 54, 67] (K.KEY (K.kbCtrl + K.kbShift) (K.sc key_defs.kbRight)) none,
    key_sequence_t.mk [27, 79, 50, 80] (K.KEY K.kbShift (K.sc key_defs.kbF1)) none,
    key_sequence_t.mk [27, 79, 53, 80] (K.KEY K.kbCtrl (K.sc key_defs.kbF1)) none,
    key_sequence_t.mk [27, 79, 51, 80] (K.KEY K.kbAlt (K.sc key_defs.kbF1)) none,
    key_sequence_t.mk [27, 79, 54, 80] (K.KEY (K.kbCtrl + K.kbShift) (K.sc key_defs.kbF1)) none,
    key_sequence_t.mk [27, 79, 52, 80] (K.KEY (K.kbAlt + K.kbShift) (K.sc key_defs.kbF1)) none,
    key_sequence_t.mk [27, 79, 50, 81] (K.KEY K.kbShift (K.sc key_defs.kbF2)) none,
    key_sequence_t.mk [27, 79, 53, 81] (K.KEY K.kbCtrl (K.sc key_defs.kbF2)) none,
    key_sequence_t.mk [27, 79, 51, 81] (K.KEY K.kbAlt (K.sc key_defs.kbF2)) none,
    key_sequence_t.mk [27, 79, 54, 81] (K.KEY (K.kbCtrl + K.kbShift) (K.sc key_defs.kbF2)) none,
    key_sequence_t.mk [27, 79, 52, 81] (K.KEY (K.kbAlt + K.kbShift) (K.sc key_defs.kbF2)) none,
    key_sequence_t.mk [27, 79, 50, 82] (K.KEY K.kbShift (K.sc key_defs.kbF3)) none,
    key_sequence_t.mk [27, 79, 53, 82] (K.KEY K.kbCtrl (K.sc key_defs.kbF3)) none,
    key_sequence_t.mk [27, 79, 51, 82] (K.KEY K.kbAlt (K.sc key_defs.kbF3)) none,
    key_sequence_t.mk [27, 79, 54, 82] (K.KEY (K.kbCtrl + K.kbShift) (K.sc key_defs.kbF3)) none,
    key_sequence_t.mk [27, 79, 52, 82] (K.KEY (K.kbAlt + K.kbShift) (K.sc key_defs.kbF3)) none,
    key_sequence_t.mk [27, 79, 50, 83] (K.KEY K.kbShift (K.sc key_defs.kbF4)) none,
    key_sequence_t.mk [27, 79, 53, 83] (K.KEY K.kbCtrl (K.sc key_defs.kbF4)) none,
    key_sequence_t.mk [27, 79, 51, 83] (K.KEY K.kbAlt (K.sc key_defs.kbF4)) none,
    key_sequence_t.mk [27, 79, 54, 83] (K.KEY (K.kbCtrl + K.kbShift) (K.sc key_defs.kbF4)) none,
    key_sequence_t.mk [27, 79, 52, 83] (K.KEY (K.kbAlt + K.kbShift) (K.sc key_defs.kbF4)) none,
    key_sequence_t.mk [27, 91, 49, 53, 59, 50, 126] (K.KEY K.kbShift (K.sc key_defs.kbF5)) none,
    key_sequence_t.mk [27, 91, 49, 53, 59, 53, 126] (K.KEY K.kbCtrl (K.sc key_defs.kbF5)) none,
    key_sequence_t.mk [27, 91, 49, 53, 59, 51, 126] (K.KEY K.kbAlt (K.sc key_defs.kbF5)) none,
    key_sequence_t.mk [27, 91, 49, 53, 59, 54, 126] (K.KEY (K.kbCtrl + K.kbShift) (K.sc key_defs.kbF5)) none,
    key_sequence_t.mk [27, 91, 49, 53, 59, 52, 126] (K.KEY (K.kbAlt + K.kbShift) (K.sc key_defs.kbF5)) none,
    key_sequence_t.mk [27, 91, 49, 55, 59, 50, 126] (K.KEY K.kbShift (K.sc key_defs.kbF6)) none,
    key_sequence_t.mk [27, 91, 49, 55, 59, 53, 126] (K.KEY K.kbCtrl (K.sc key_defs.kbF6)) none,
    key_sequence_t.mk [27, 91, 49, 55, 59, 51, 126] (K.KEY K.kbAlt (K.sc key_defs.kbF6)) none,
    key_sequence_t.mk [27, 91, 49, 55, 59, 54, 126] (K.KEY (K.kbCtrl + K.kbShift) (K.sc key_defs.kbF6)) none,
    key_sequence_t.mk [27, 91, 49, 55, 59, 52, 126] (K.KEY (K.kbAlt + K.kbShift) (K.sc key_defs.kbF6)) none,
    key_sequence_t.mk [27, 91, 49, 56, 59, 50, 126] (K.KEY K.kbShift (K.sc key_defs.kbF7)) none,
    key_sequence_t.mk [27, 91, 49, 56, 59, 53, 126] (K.KEY K.kbCtrl (K.sc key_defs.kbF7)) none,
    key_sequence_t.mk [27, 91, 49, 56, 59, 51, 126] (K.KEY K.kbAlt (K.sc key_defs.kbF7)) none,
    key_sequence_t.mk [27, 91, 49, 56, 59, 54, 126] (K.KEY (K.kbCtrl + K.kbShift) (K.sc key_defs.kbF7)) none,
    key_sequence_t.mk [27, 91, 49, 56, 59, 52, 126] (K.KEY (K.kbAlt + K.kbShift) (K.sc key_defs.kbF7)) none,
    key_sequence_t.mk [27, 91, 49, 57, 59, 50, 126] (K.KEY K.kbShift (K.sc key_defs.kbF8)) none,
    key_sequence_t.mk [27, 91, 49, 57, 59, 53, 126] (K.KEY K.kbCtrl (K.sc key_defs.kbF8)) none,
    key_sequence_t.mk [27, 91, 49, 57, 59, 51, 126] (K.KEY K.kbAlt (K.sc key_defs.kbF8)) none,
    key_sequence_t.mk [27, 91, 49, 57, 59, 54, 126] (K.KEY (K.kbCtrl + K.kbShift) (K.sc key_defs.kbF8)) none,
    key_sequence_t.mk [27, 91, 49, 57, 59, 52, 126] (K.KEY (K.kbAlt + K.kbShift) (K.sc key_defs.kbF8)) none,
    key_sequence_t.mk [27, 91, 49, 48, 59, 50, 126] (K.KEY K.kbShift (K.sc key_defs.kbF9)) none,
    key_sequence_t.mk [27, 91, 49, 48, 59, 53, 126] (K.KEY K.kbCtrl (K.sc key_defs.kbF9)) none,
    key_sequence_t.mk [27, 91, 49, 48, 59, 51, 126] (K.KEY K.kbAlt (K.sc key_defs.kbF9)) none,
    key_sequence_t.mk [27, 91, 49, 48, 59, 54, 126] (K.KEY (K.kbCtrl + K.kbShift) (K.sc key_defs.kbF9)) none,
    key_sequence_t.mk [27, 91, 49, 48, 59, 52, 126] (K.KEY (K.kbAlt + K.kbShift) (K.sc key_defs.kbF9)) none,
    key_sequence_t.mk [27, 91, 49, 49, 59, 50, 126] (K.KEY K.kbShift (K.sc key_defs.kbF10)) none,
    key_sequence_t.mk [27, 91, 49, 49, 59, 53, 126] (K.KEY K.kbCtrl (K.sc key_defs.kbF10)) none,
    key_sequence_t.mk [27, 91, 49, 49, 59, 51, 126] (K.KEY K.kbAlt (K.sc key_defs.kbF10)) none,
    key_sequence_t.mk [27, 91, 49, 49, 59, 54, 126] (K.KEY (K.kbCtrl + K.kbShift) (K.sc key_defs.kbF10)) none,
    key_sequence_t.mk [27, 91, 49, 49, 59, 52, 126] (K.KEY (K.kbAlt + K.kbShift) (K.sc key_defs.kbF10)) none,
    key_sequence_t.mk [27, 91, 49, 51, 59, 50, 126] (K.KEY K.kbShift (K.sc key_defs.kbF11)) none,
    key_sequence_t.mk [27, 91, 49, 51, 59, 53, 126] (K.KEY K.kbCtrl (K.sc key_defs.kbF11)) none,
    key_sequence_t.mk [27, 91, 49, 51, 59, 51, 126] (K.KEY K.kbAlt (K.sc key_defs.kbF11)) none,
    key_sequence_t.mk [27, 91, 49, 51, 59, 54, 126] (K.KEY (K.kbCtrl + K.kbShift) (K.sc key_defs.kbF11)) none,
    key_sequence_t.mk [27, 91, 49, 51, 59, 52, 126] (K.KEY (K.kbAlt + K.kbShift) (K.sc key_defs.kbF11)) none,
    key_sequence_t.mk [27, 91, 49, 52, 59, 50, 126] (K.KEY K.kbShift (K.sc key_defs.kbF12)) none,
    key_sequence_t.mk [27, 91, 49, 52, 59, 53, 126] (K.KEY K.kbCtrl (K.sc key_defs.kbF12)) none,
    key_sequence_t.mk [27, 91, 49, 52, 59, 51, 126] (K.KEY K.kbAlt (K.sc key_defs.kbF12)) none,
    key_sequence_t.mk [27, 91, 49, 52, 59, 54, 126] (K.KEY (K.kbCtrl + K.kbShift) (K.sc key_defs.kbF12)) none,
    key_sequence_t.mk [27, 91, 49, 52, 59, 52, 126] (K.KEY (K.kbAlt + K.kbShift) (K.sc key_defs.kbF12)) none,
    key_sequence_t.mk [1] (K.KEY K.kbCtrl (K.sc key_defs.kbA) ||| 1) none,
    key_sequence_t.mk [2] (K.KEY K.kbCtrl (K.sc key_defs.kbB) ||| 2) none,
    key_sequence_t.mk [3] (K.KEY K.kbCtrl (K.sc key_defs.kbC) ||| 3) none,
    key_sequence_t.mk [4] (K.KEY K.kbCtrl (K.sc key_defs.kbD) ||| 4) none,
    key_sequence_t.mk [5] (K.KEY K.kbCtrl (K.sc key_defs.kbE) ||| 5) none,
    key_sequence_t.mk [6] (K.KEY K.kbCtrl (K.sc key_defs.kbF) ||| 6) none,
    key_sequence_t.mk [7] (K.KEY K.kbCtrl (K.sc key_defs.kbG) ||| 7) none,
    key_sequence_t.mk [8] (K.KEY 0 (K.sc key_defs.kbBckSpc)) none,
    key_sequence_t.mk [27, 91, 91, 70] (K.KEY K.kbCtrl (K.sc key_defs.kbI) ||| 9) none,
    key_sequence_t.mk [10] (K.KEY K.kbCtrl (K.sc key_defs.kbJ) ||| 10) none,
    key_sequence_t.mk [11] (K.KEY K.kbCtrl (K.sc key_defs.kbK) ||| 11) none,
    key_sequence_t.mk [12] (K.KEY K.kbCtrl (K.sc key_defs.kbL) ||| 12) none,
    key_sequence_t.mk [14] (K.KEY K.kbCtrl (K.sc key_defs.kbN) ||| 14) none,
    key_sequence_t.mk [15] (K.KEY K.kbCtrl (K.sc key_defs.kbO) ||| 15) none,
    key_sequence_t.mk [16] (K.KEY K.kbCtrl (K.sc key_defs.kbP) ||| 16) none,
    key_sequence_t.mk [17] (K.KEY K.kbCtrl (K.sc key_defs.kbQ) ||| 17) none,
    key_sequence_t.mk [18] (K.KEY K.kbCtrl (K.sc key_defs.kbR) ||| 18) none,
    key_sequence_t.mk [19] (K.KEY K.kbCtrl (K.sc key_defs.kbS) ||| 19) none,
    key_sequence_t.mk [20] (K.KEY K.kbCtrl (K.sc key_defs.kbT) ||| 20) none,
    key_sequence_t.mk [21] (K.KEY K.kbCtrl (K.sc key_defs.kbU) ||| 21) none,
    key_sequence_t.mk [22] (K.KEY K.kbCtrl (K.sc key_defs.kbV) ||| 22) none,
    key_sequence_t.mk [23] (K.KEY K.kbCtrl (K.sc key_defs.kbW) ||| 23) none,
    key_sequence_t.mk [24] (K.KEY K.kbCtrl (K.sc key_defs.kbX) ||| 24) none,
    key_sequence_t.mk [25] (K.KEY K.kbCtrl (K.sc key_defs.kbY) ||| 25) none,
    key_sequence_t.mk [26] (K.KEY K.kbCtrl (K.sc key_defs.kbZ) ||| 26) none,
    key_sequence_t.mk [27, 91, 91, 71] (K.KEY K.kbCtrl (K.sc key_defs.kbLBrace) ||| 27) none
  ]

/-- Sample values for the key definitions, for use in examples: `KEY` puts the shift state
in the high word and the scan code in the high byte of the low word, as the comment at
`key_sequence_t.key` describes. -/
def key_consts_sample : key_consts :=
  { KEY := fun state scancode => (state <<< 16) ||| (scancode <<< 8)
    kbShift := 3
    kbCtrl := 4
    kbAlt := 8
    sc := fun k => k.toCtorIdx + 1
    ev_clear := ⟨disp_event_code.other 0, 0, 0, 0⟩ }

/-! ### The event pump -/

def DISP_SLEEP_TIME : Nat := 15000
def DISP_KEY_TIMEOUT : Nat := 30000

/-- What one pass of the loop of `s_disp_process_events` gets from the console: the value
`select()` returns inside `s_disp_wait_console` (0 for a time-out, positive when a byte can
be read, negative when a signal ended the wait) and the value `getch()` returns if it is
called in this pass. -/
structure console_slice where
  num_files_ready : Int
  getch : Int
  deriving DecidableEq, Repr

/-- A wait slice that times out. -/
def slice_silent : console_slice := ⟨0, 0⟩

/-- A wait slice in which the byte `c` is read. -/
def slice_byte (c : Nat) : console_slice := ⟨1, (c : Int)⟩

/-- Model of `s_disp_wait_console`: the value stored to `*elapsed_time` and the value
returned, as a truth value. -/
def s_disp_wait_console (num_files_ready : Int) : Nat × Bool :=
  (if num_files_ready = 0 then DISP_SLEEP_TIME else 0, decide (num_files_ready > 0))

/-- The local variables of `s_disp_process_events` that live across passes of its loop.
`key_buf` is the list of the bytes `key_buf[0 .. key_cnt-1]`, so `key_cnt` is its length and
`key_cnt = 0` makes it empty.  The bytes of the array behind index `key_cnt` are never read:
a NUL is stored at index `key_cnt` before the buffer is read as a string. -/
structure pump_state where
  miliseconds : Nat
  key_wait_time : Nat
  key_buf : List Nat
  deriving DecidableEq, Repr

/-- Where `s_disp_process_events` stands: still in its loop with the given locals, returned
with a value after having put the listed events into the queue (`s_disp_ev_q_put`), or
stopped by a store outside `key_buf` or by `ASSERT(0)`. -/
inductive pump_outcome where
  | running (st : pump_state)
  | returned (ret : Int) (puts : List disp_event_t)
  | fault
  deriving DecidableEq, Repr

/-- The bytes `key_buf[0 .. key_cnt-1]` after the byte `c` has been read: the two resets that
come before the store (ESC with more than one byte pending, `key_cnt == sizeof(key_buf)`)
and the store `key_buf[key_cnt++] = c`. -/
def key_buf_append (key_buf : List Nat) (c : Nat) : List Nat :=
  -- Rule: we can have 0x1b (ESC) only at the start
  let buf1 := if c = 27 ∧ key_buf.length > 1 then [] else key_buf
  let buf2 := if buf1.length = 10 then [] else buf1
  -- Add character to the key sequence
  buf2 ++ [c]

/-- One pass of the loop `for (;;)` of `s_disp_process_events`. -/
def pump_iter (K : key_consts) (keys : List key_sequence_t) (console_shift_state : Nat)
    (st : pump_state) (sl : console_slice) : pump_outcome :=
  let elapsed_time := (s_disp_wait_console sl.num_files_ready).1
  let character_is_ready := (s_disp_wait_console sl.num_files_ready).2
  let miliseconds := st.miliseconds + elapsed_time
  let key_wait_time := st.key_wait_time + elapsed_time
  if character_is_ready = false then
    if miliseconds > 5000000 then
      -- 5sec waiting?
      pump_outcome.returned 1 [{ K.ev_clear with code := disp_event_code.EVENT_TIMER_5SEC }]
    else if key_wait_time > DISP_KEY_TIMEOUT then
      -- check for a single ESC key
      if st.key_buf.length = 1 ∧ st.key_buf.headD 0 = 27 then
        pump_outcome.returned 1 [{ K.ev_clear with
          code := disp_event_code.EVENT_KEY
          scan_code_only := K.sc key_defs.kbEsc
          shift_state := 0
          key := K.KEY 0 (K.sc key_defs.kbEsc) }]
      else
        -- time-out cancel the sequence
        pump_outcome.running
          { miliseconds := miliseconds
            key_wait_time := 0
            key_buf := if st.key_buf.length > 0 then [] else st.key_buf }
    else
      pump_outcome.running
        { miliseconds := miliseconds, key_wait_time := key_wait_time, key_buf := st.key_buf }
  else
    -- character is now ready
    let c := (sl.getch % 256).toNat
    let buf3 := key_buf_append st.key_buf c
    -- the NUL goes to key_buf[key_cnt], which must be one of the 10 bytes of key_buf
    if ¬ buf3.length < 10 then pump_outcome.fault
    else
      match s_match_key_sequence keys console_shift_state buf3 with
      | (0, _) =>
        pump_outcome.running
          { miliseconds := miliseconds, key_wait_time := key_wait_time, key_buf := buf3 }
      | (1, _) =>
        pump_outcome.running
          { miliseconds := miliseconds, key_wait_time := key_wait_time, key_buf := buf3 }
      | (2, some (key, shift_state)) =>
        pump_outcome.returned 1 [{ K.ev_clear with
          code := disp_event_code.EVENT_KEY
          scan_code_only := ((key >>> 16) &&& 255) % 256
          shift_state := shift_state
          key := key }]
      | _ => pump_outcome.fault

/-- The loop of `s_disp_process_events`, fed the console slices `input` one per pass.
`running st`: the loop has used up `input` and waits for more. -/
def pump_loop (K : key_consts) (keys : List key_sequence_t) (console_shift_state : Nat) :
    pump_state → List console_slice → pump_outcome
  | st, [] => pump_outcome.running st
  | st, sl :: rest =>
    match pump_iter K keys console_shift_state st sl with
    | pump_outcome.running st1 => pump_loop K keys console_shift_state st1 rest
    | pump_outcome.returned ret puts => pump_outcome.returned ret puts
    | pump_outcome.fault => pump_outcome.fault

/-- Model of one invocation of `s_disp_process_events`: the locals start at 0 and the loop
runs over the console slices `input`. -/
def s_disp_process_events (K : key_consts) (keys : List key_sequence_t)
    (console_shift_state : Nat) (input : List console_slice) : pump_outcome :=
  pump_loop K keys console_shift_state
    { miliseconds := 0, key_wait_time := 0, key_buf := [] } input

/-! ### Checks of a palette id -/

/-- The value an `int` has after conversion to `size_t` (64 bits).  `DISP_COUNTOF(a)` is
declared in a header that is not among the sources; it is taken to be the usual quotient
`sizeof(a) / sizeof(a[0])`, of type `size_t`, so that in `palette_id < DISP_COUNTOF(...)`
the `int` on the left is converted to `size_t` before the comparison. -/
def size_t_of_int (x : Int) : Nat := (x % 18446744073709551616).toNat

/-- Model of `s_disp_palette_id_is_valid`: the value of
`palette_id < DISP_COUNTOF(disp->palette) && palette_id >= 0`, 1 or 0. -/
def s_disp_palette_id_is_valid (disp : dispc_t) (palette_id : Int) : Int :=
  if size_t_of_int palette_id < disp.palette.length ∧ palette_id ≥ 0 then 1 else 0

/-- How a palette accessor ends: it returns the value `v`, or its `n`-th `ASSERT` (counted
from 1 in the order of the source) fails, or it reads `disp->palette[palette_id]` outside
the table. -/
inductive access_outcome where
  | value (v : Int)
  | assert_failed (n : Nat)
  | read_outside
  deriving DecidableEq, Repr

/-- The statements of `s_disp_pal_get_color_pair_id` one by one, telling which `ASSERT`
fails.  `ASSERT(VALID_DISP(disp))`, the first, holds for the display objects of the model. -/
def s_disp_pal_get_color_pair_id_asserts (disp : dispc_t) (palette_id : Int) :
    access_outcome :=
  -- ASSERT(palette_id < DISP_COUNTOF(disp->palette))
  if ¬ size_t_of_int palette_id < disp.palette.length then access_outcome.assert_failed 2
  else if palette_id < 0 then access_outcome.read_outside
  else
    match disp.palette[palette_id.toNat]? with
    | none => access_outcome.read_outside
    | some e =>
      -- ASSERT(disp->palette[palette_id].in_use)
      if e.in_use = false then access_outcome.assert_failed 3
      else access_outcome.value e.color_pair_id

/-- The statements of `s_disp_pal_get_char_style` one by one, telling which `ASSERT`
fails.  `ASSERT(VALID_DISP(disp))`, the first, holds for the display objects of the model. -/
def s_disp_pal_get_char_style_asserts (disp : dispc_t) (palette_id : Int) :
    access_outcome :=
  -- ASSERT(palette_id < DISP_COUNTOF(disp->palette))
  if ¬ size_t_of_int palette_id < disp.palette.length then access_outcome.assert_failed 2
  else if palette_id < 0 then access_outcome.read_outside
  else
    match disp.palette[palette_id.toNat]? with
    | none => access_outcome.read_outside
    | some e =>
      -- ASSERT(disp->palette[palette_id].in_use)
      if e.in_use = false then access_outcome.assert_failed 3
      else access_outcome.value (e.attr_mask : Int)

/-! ### The screen renderer -/

/-- The value an `int` has after conversion to `chtype` (32 bits, unsigned). -/
def chtype_of_int (x : Int) : Nat := (x % 4294967296).toNat

/-- The ncurses macro `COLOR_PAIR(n)`: `n` as a `chtype`, shifted left by 8 and masked with
`A_COLOR`, which is 0xff00 (`<curses.h>`). -/
def COLOR_PAIR (n : Int) : Nat := ((chtype_of_int n <<< 8) % 4294967296) &&& 65280

/-- One cell of the screen buffer, `disp_char_t`: the character `c` and the attribute `a`,
a palette id. -/
structure disp_char_t where
  c : Int
  a : Int
  deriving DecidableEq, Repr

/-- The fields of `dispc_t` used by the screen renderer: `geom_param.width`,
`geom_param.height`, `paint_is_suspended`, and the screen buffer `char_buf`, which holds the
`width * height` cells of the screen row by row. -/
structure disp_screen_t where
  width : Int
  height : Int
  paint_is_suspended : Int
  char_buf : List disp_char_t
  deriving DecidableEq, Repr

/-- Modelled from the spec: `s_disp_buf_access` and the layout of the screen buffer belong
to `disp_common.c` and `disp.h`, which are not among the sources.  The spec has the cells
"stored in a process-owned 2-D buffer sized to the current terminal geometry (width ×
height)"; here `s_disp_buf_access(disp, x, y)` points at the cell of column `x` in row `y`
of that buffer, stored row by row, and the result is the cell `char_ln[j]`, `j` places
further on.  `none`: that place is not in the buffer. -/
def s_disp_buf_access (scr : disp_screen_t) (x y : Int) (j : Nat) : Option disp_char_t :=
  if y * scr.width + x + (j : Int) < 0 then none
  else scr.char_buf[(y * scr.width + x + (j : Int)).toNat]?

/-- Ghost record of what `s_disp_validate_rect` does: the (column, row) of every cell
`char_ln[j]` it reads, and the arguments `(y, x, chstr, n)` of every call of ncurses
`mvaddchnstr`, both oldest first. -/
structure rect_trace where
  cells_read : List (Int × Int)
  mvaddchnstr_calls : List (Int × Int × List Nat × Int)
  deriving DecidableEq, Repr

/-- How the inner loop of `s_disp_validate_rect` ends for one row: with the cells composed
in `ncurs_buf`, with a failed `ASSERT` (of a palette accessor), with a read outside the
screen buffer, or with a store outside the `width` elements of `ncurs_buf`. -/
inductive row_outcome where
  | cells (ncurs_buf : List Nat) (reads : List (Int × Int))
  | assert_failed (reads : List (Int × Int))
  | read_outside (reads : List (Int × Int))
  | write_outside (reads : List (Int × Int))
  deriving DecidableEq, Repr

/-- How `s_disp_validate_rect` ends: it returns, or an `ASSERT` fails, or a cell is read
outside the screen buffer, or a cell is stored outside `ncurs_buf`. -/
inductive rect_outcome where
  | painted (scr : disp_screen_t) (tr : rect_trace)
  | assert_failed (tr : rect_trace)
  | read_outside (tr : rect_trace)
  | write_outside (tr : rect_trace)
  deriving DecidableEq, Repr

/-- The inner loop of `s_disp_validate_rect` for the row `yi = y + i`, over the values
`js` of `j`; `buf` holds the cells stored in `ncurs_buf` so far (the store for `j` goes to
`ncurs_buf[j]`) and `reads` the cells read so far. -/
def compose_row (disp : dispc_t) (scr : disp_screen_t) (x yi : Int) :
    List Nat → List Nat → List (Int × Int) → row_outcome
  | [], buf, reads => row_outcome.cells buf reads
  | j :: js, buf, reads =>
    -- c = char_ln[j].c; a = char_ln[j].a;
    match s_disp_buf_access scr x yi j with
    | none => row_outcome.read_outside (reads ++ [(x + (j : Int), yi)])
    | some cell =>
      -- p = ncurs_buf + j; *p = c;
      if ¬ (j : Int) < scr.width then
        row_outcome.write_outside (reads ++ [(x + (j : Int), yi)])
      else
        -- *p &= 0xff; *p |= COLOR_PAIR(...); *p |= s_disp_pal_get_char_style(disp, a);
        match s_disp_pal_get_color_pair_id disp cell.a with
        | none => row_outcome.assert_failed (reads ++ [(x + (j : Int), yi)])
        | some color_pair_id =>
          match s_disp_pal_get_char_style disp cell.a with
          | none => row_outcome.assert_failed (reads ++ [(x + (j : Int), yi)])
          | some style =>
            compose_row disp scr x yi js
              (buf ++ [((chtype_of_int cell.c &&& 255) ||| COLOR_PAIR color_pair_id) |||
                chtype_of_int style])
              (reads ++ [(x + (j : Int), yi)])

/-- The outer loop of `s_disp_validate_rect` over the values `is` of `i`.
`mvaddchnstr y x chstr n` is the answer ncurses gives to that call. -/
def paint_rows (mvaddchnstr : Int → Int → List Nat → Int → Int) (disp : dispc_t)
    (scr : disp_screen_t) (x y w : Int) : List Nat → rect_trace → rect_outcome
  | [], tr => rect_outcome.painted scr tr
  | i :: is, tr =>
    match compose_row disp scr x (y + (i : Int)) (List.range w.toNat) [] tr.cells_read with
    | row_outcome.cells ncurs_buf reads =>
      -- r = mvaddchnstr(y + i, x, ncurs_buf, w); ASSERT(r != ERR);
      if mvaddchnstr (y + (i : Int)) x ncurs_buf w = ERR then
        rect_outcome.assert_failed
          { cells_read := reads
            mvaddchnstr_calls := tr.mvaddchnstr_calls ++ [(y + (i : Int), x, ncurs_buf, w)] }
      else
        paint_rows mvaddchnstr disp scr x y w is
          { cells_read := reads
            mvaddchnstr_calls := tr.mvaddchnstr_calls ++ [(y + (i : Int), x, ncurs_buf, w)] }
    | row_outcome.assert_failed reads =>
      rect_outcome.assert_failed { tr with cells_read := reads }
    | row_outcome.read_outside reads =>
      rect_outcome.read_outside { tr with cells_read := reads }
    | row_outcome.write_outside reads =>
      rect_outcome.write_outside { tr with cells_read := reads }

/-- Model of `s_disp_validate_rect`.  `tr` is the ghost record before the call;
`ASSERT(VALID_DISP(disp))` holds for the display objects of the model and `alloca` gives a
buffer of `width` elements. -/
def s_disp_validate_rect (mvaddchnstr : Int → Int → List Nat → Int → Int) (disp : dispc_t)
    (scr : disp_screen_t) (tr : rect_trace) (x y w h : Int) : rect_outcome :=
  if ¬ x ≥ 0 then rect_outcome.assert_failed tr
  else if ¬ y ≥ 0 then rect_outcome.assert_failed tr
  else if ¬ w > 0 then rect_outcome.assert_failed tr
  else if ¬ h > 0 then rect_outcome.assert_failed tr
  else if ¬ w ≤ scr.width then rect_outcome.assert_failed tr
  else if ¬ h ≤ scr.height then rect_outcome.assert_failed tr
  else
    paint_rows mvaddchnstr disp { scr with paint_is_suspended := 0 } x y w
      (List.range h.toNat) tr

/-- The cell of column `col` in row `row` of the screen buffer (a cell of zeros when the
place is not in the buffer). -/
def screen_cell (scr : disp_screen_t) (col row : Int) : disp_char_t :=
  (s_disp_buf_access scr col row 0).getD ⟨0, 0⟩

/-- The value C19 gives for a painted cell: the low byte of the character, ORed with
`COLOR_PAIR` of the colour-pair id of the cell's palette id and with the style mask of the
cell's palette id. -/
def composed_cell (disp : dispc_t) (cell : disp_char_t) : Nat :=
  ((chtype_of_int cell.c &&& 255) |||
    COLOR_PAIR ((s_disp_pal_get_color_pair_id disp cell.a).getD 0)) |||
    chtype_of_int ((s_disp_pal_get_char_style disp cell.a).getD 0)

/-- A backend whose `mvaddchnstr` always succeeds (returns `OK`). -/
def mvaddchnstr_ok : Int → Int → List Nat → Int → Int := fun _ _ _ _ => 0

/-- A screen of 3 columns and 2 rows: every cell carries palette id 0, the characters are
`a` to `f`. -/
def screen_sample : disp_screen_t :=
  { width := 3, height := 2, paint_is_suspended := 1
    char_buf := [⟨97, 0⟩, ⟨98, 0⟩, ⟨99, 0⟩, ⟨100, 0⟩, ⟨101, 0⟩, ⟨102, 0⟩] }

/-- The number of wait slices of `input` that time out (`select` returns 0). -/
def timed_out_slices (input : List console_slice) : Nat :=
  (input.filter (fun sl => decide (sl.num_files_ready = 0))).length

/-! ### Session setup -/

/-- What `tigetstr(capname)` returns: the pointer value `ptr` (0 for `NULL`; `(char *)-1`,
every bit set, when `capname` is not a string capability) and the bytes `str` of the C
string the pointer addresses, when it addresses one.  Pointers have 64 bits, like `size_t`
in `size_t_of_int`, so `(char *)-1` is 18446744073709551615. -/
structure tigetstr_answer where
  ptr : Nat
  str : List Nat
  deriving DecidableEq, Repr

/-- The cast `(int)s` of a pointer `s`: its low 32 bits, read as a signed number. -/
def int_of_pointer (p : Nat) : Int :=
  if p % 4294967296 < 2147483648 then ((p % 4294967296 : Nat) : Int)
  else ((p % 4294967296 : Nat) : Int) - 4294967296

/-- The calls into ncurses that `s_disp_init` and `s_disp_get_ncurses_keys` make. -/
inductive curses_call where
  | initscr
  | tigetstr (capname : String)
  | start_color
  | raw
  | noecho
  | nonl
  | nodelay
  | intrflush
  | endwin
  | getmaxyx
  deriving DecidableEq, Repr

/-- The answers of the terminal library during `s_disp_init`: the pointer `initscr()`
returns (0 for `NULL`), the answer of `tigetstr` for every capability name, the values
`start_color()`, `raw()`, `noecho()`, `nonl()`, `nodelay(stdscr, TRUE)` and
`intrflush(stdscr, FALSE)` return, and the (height, width) that `getmaxyx` stores. -/
structure curses_backend where
  initscr : Nat
  tigetstr : String → tigetstr_answer
  start_color : Int
  raw : Int
  noecho : Int
  nonl : Int
  nodelay : Int
  intrflush : Int
  getmaxyx : Int × Int

/-- Model of `s_disp_get_ncurses_keys`, the loop over the rules of the table in table order:
the table after the call and the calls of `tigetstr` made. -/
def s_disp_get_ncurses_keys (tigetstr : String → tigetstr_answer) :
    List key_sequence_t → List key_sequence_t × List curses_call
  | [] => ([], [])
  | r :: rest =>
    let out := s_disp_get_ncurses_keys tigetstr rest
    match r.term_esc_seq with
    | some capname =>
      let s := tigetstr capname
      if int_of_pointer s.ptr ≠ -1 ∧ int_of_pointer s.ptr ≠ 0 then
        -- override the manually coded sequence with what terminal capabilities returned
        ({ r with esq_seq := s.str } :: out.1, curses_call.tigetstr capname :: out.2)
      else (r :: out.1, curses_call.tigetstr capname :: out.2)
    | none => (r :: out.1, out.2)

/-- The condition `raw() != ERR && noecho() != ERR && nonl() != ERR && nodelay(...) != ERR
&& intrflush(...) != ERR` of `s_disp_init`, evaluated from left to right up to the first
call that fails: its truth value and the calls made. -/
def mode_setup (B : curses_backend) : Bool × List curses_call :=
  if ¬ B.raw ≠ ERR then (false, [curses_call.raw])
  else if ¬ B.noecho ≠ ERR then (false, [curses_call.raw, curses_call.noecho])
  else if ¬ B.nonl ≠ ERR then
    (false, [curses_call.raw, curses_call.noecho, curses_call.nonl])
  else if ¬ B.nodelay ≠ ERR then
    (false, [curses_call.raw, curses_call.noecho, curses_call.nonl, curses_call.nodelay])
  else if ¬ B.intrflush ≠ ERR then
    (false, [curses_call.raw, curses_call.noecho, curses_call.nonl, curses_call.nodelay,
      curses_call.intrflush])
  else
    (true, [curses_call.raw, curses_call.noecho, curses_call.nonl, curses_call.nodelay,
      curses_call.intrflush])

/-- What a call of `s_disp_init` leaves: the value returned, the display object, the screen
(whose `height` and `width` stand for `disp->geom_param`), the key table, and the calls
into ncurses in the order they were made. -/
structure init_result where
  ret : Int
  disp : dispc_t
  scr : disp_screen_t
  keys : List key_sequence_t
  calls : List curses_call

/-- Model of `s_disp_init`. -/
def s_disp_init (B : curses_backend) (disp : dispc_t) (scr : disp_screen_t)
    (keys : List key_sequence_t) : init_result :=
  if B.initscr = 0 then
    { ret := 0
      disp := { disp with
        code := some disp_error_code.DISP_FAILED_NCURS_INIT
        error_msg := "ncurses initialization failed" }
      scr := scr, keys := keys
      calls := [curses_call.initscr] }
  else if (B.tigetstr "cup").ptr = 0 then
    { ret := 0
      disp := { disp with
        code := some disp_error_code.DISP_TERMINAL_NO_CURSOR_OPERATIONS
        error_msg := "terminal doesn't support cursor oriented operations" }
      scr := scr, keys := keys
      calls := [curses_call.initscr, curses_call.tigetstr "cup", curses_call.endwin] }
  else if B.start_color = ERR then
    { ret := 0
      disp := { disp with
        code := some disp_error_code.DISP_TERMINAL_NO_COLOR
        error_msg := "terminal doesn't support color" }
      scr := scr, keys := keys
      calls := [curses_call.initscr, curses_call.tigetstr "cup", curses_call.start_color,
        curses_call.endwin] }
  else if (mode_setup B).1 = false then
    { ret := 0
      disp := { disp with
        code := some disp_error_code.DISP_NCURSES_MODE_SETUP_FAILURE
        error_msg := "failed to set desired ncurses mode" }
      scr := scr, keys := keys
      calls := [curses_call.initscr, curses_call.tigetstr "cup", curses_call.start_color] ++
        (mode_setup B).2 ++ [curses_call.endwin] }
  else
    { ret := 1
      disp := disp
      scr := { scr with height := B.getmaxyx.1, width := B.getmaxyx.2 }
      keys := (s_disp_get_ncurses_keys B.tigetstr keys).1
      calls := [curses_call.initscr, curses_call.tigetstr "cup", curses_call.start_color] ++
        (mode_setup B).2 ++ (s_disp_get_ncurses_keys B.tigetstr keys).2 ++
        [curses_call.getmaxyx] }

/-- A terminal on which every step of the setup succeeds; it knows the capabilities `cup`
and `kcuu1` (cursor up, here ESC `O` `A`), `kcud1` is not a string capability for it, and
every other name is absent. -/
def backend_sample : curses_backend :=
  { initscr := 4096
    tigetstr := fun capname =>
      if capname = "cup" then ⟨8192, [27, 91, 37, 105, 37, 112, 49, 37, 100, 59, 37, 112, 50,
        37, 100, 72]⟩
      else if capname = "kcuu1" then ⟨8448, [27, 79, 65]⟩
      else if capname = "kcud1" then ⟨18446744073709551615, []⟩
      else ⟨0, []⟩
    start_color := 0
    raw := 0
    noecho := 0
    nonl := 0
    nodelay := 0
    intrflush := 0
    getmaxyx := (25, 80) }

/-- Answers of `tigetstr` with strings high in a 64-bit address space: ESC `O` `A` for
`kcuu1` at the address 0x1_0000_0000, ESC `O` `B` for `kcud1` at 0x1_FFFF_FFFF and ESC `O`
`D` for `kcub1` at 0x5555_5576_A2A0; `kcuf1` is not a string capability (`(char *)-1`) and
every other name is absent (`NULL`). -/
def tigetstr_high_sample : String → tigetstr_answer := fun capname =>
  if capname = "kcuu1" then ⟨4294967296, [27, 79, 65]⟩
  else if capname = "kcud1" then ⟨8589934591, [27, 79, 66]⟩
  else if capname = "kcub1" then ⟨93824994419360, [27, 79, 68]⟩
  else if capname = "kcuf1" then ⟨18446744073709551615, []⟩
  else ⟨0, []⟩

/-- A backend that refuses every registration: `init_pair` returns `ERR`. -/
def init_pair_fail : Nat → Nat → Nat → Int := fun _ _ _ => -1

/-! ### Checks on the byte patterns of `s_keys` -/

/-- The byte patterns of `s_keys`, in table order (they do not depend on the key values). -/
def s_keys_patterns : List (List Nat) :=
  (s_keys key_consts_sample).map (fun r => r.esq_seq)

/-- Whether the bytes `p` are the first bytes of `q`. -/
def starts_with : List Nat → List Nat → Bool
  | [], _ => true
  | _ :: _, [] => false
  | a :: as, b :: bs => if a = b then starts_with as bs else false

/-- Whether none of the patterns `qs` is longer than `p` and starts with `p`. -/
def no_longer_pattern (p : List Nat) : List (List Nat) → Bool
  | [] => true
  | q :: qs =>
    if p.length < q.length ∧ starts_with p q = true then false else no_longer_pattern p qs

/-- Whether none of the patterns `ps` is the start of a longer pattern among `all`. -/
def prefix_free_among (all : List (List Nat)) : List (List Nat) → Bool
  | [] => true
  | p :: ps => if no_longer_pattern p all = true then prefix_free_among all ps else false

/-! ### The references from the palette table into the colour-pair table -/

/-- Every palette entry in use holds the index, at least 1 and at most the number of
colour-pair slots less 1, of a colour-pair entry in use. -/
def palette_refs_valid (disp : dispc_t) : Prop :=
  ∀ (p : Nat) (e : disp_palette_entry), disp.palette[p]? = some e → e.in_use = true →
    ∃ (i : Nat) (cp : disp_color_pair), e.color_pair_id = (i : Int) ∧ 1 ≤ i ∧
      i ≤ disp.color_pairs.length - 1 ∧ disp.color_pairs[i]? = some cp ∧ cp.in_use = true

/-! ## Part 2: theorems -/

/-! ### Scans of the colour-pair table -/

theorem find_color_pair_some {l : List disp_color_pair} {k c b i : Nat}
    (h : find_color_pair l k c b = some i) :
    k ≤ i ∧ ∃ e, l[i - k]? = some e ∧
      e.in_use = true ∧ e.store_color = c ∧ e.store_background = b := by
  induction l generalizing k with
  | nil => simp [find_color_pair] at h
  | cons e es ih =>
    unfold find_color_pair at h
    split at h
    · rename_i hm
      simp only [Option.some.injEq] at h
      subst h
      exact ⟨le_refl _, e, by simp, hm⟩
    · obtain ⟨hk, e1, he1, hm1⟩ := ih h
      refine ⟨by omega, e1, ?_, hm1⟩
      have : i - k = (i - (k + 1)) + 1 := by omega
      rw [this]
      simpa using he1

theorem find_color_pair_none {l : List disp_color_pair} {k c b : Nat}
    (h : find_color_pair l k c b = none) :
    ∀ e ∈ l, ¬ (e.in_use = true ∧ e.store_color = c ∧ e.store_background = b) := by
  induction l generalizing k with
  | nil => simp
  | cons e es ih =>
    unfold find_color_pair at h
    split at h
    · simp at h
    · rename_i hm
      intro x hx
      rcases List.mem_cons.mp hx with rfl | hx
      · exact hm
      · exact ih h x hx

theorem find_color_pair_set_same {l : List disp_color_pair} {k c b i : Nat}
    (h : find_color_pair l k c b = some i) (e1 : disp_color_pair)
    (hm : e1.in_use = true ∧ e1.store_color = c ∧ e1.store_background = b) :
    find_color_pair (l.set (i - k) e1) k c b = some i := by
  induction l generalizing k with
  | nil => simp [find_color_pair] at h
  | cons e es ih =>
    unfold find_color_pair at h
    split at h
    · simp only [Option.some.injEq] at h
      subst h
      simp [find_color_pair, hm]
    · rename_i hn
      have hk := (find_color_pair_some h).1
      have : i - k = (i - (k + 1)) + 1 := by omega
      rw [this, List.set_cons_succ]
      unfold find_color_pair
      rw [if_neg hn]
      exact ih h

theorem find_color_pair_set_new {l : List disp_color_pair} {k c b : Nat}
    (h : find_color_pair l k c b = none) (j : Nat) (hj : j < l.length) (e1 : disp_color_pair)
    (hm : e1.in_use = true ∧ e1.store_color = c ∧ e1.store_background = b) :
    find_color_pair (l.set j e1) k c b = some (k + j) := by
  induction l generalizing k j with
  | nil => simp at hj
  | cons e es ih =>
    unfold find_color_pair at h
    split at h
    · simp at h
    · rename_i hn
      cases j with
      | zero => simp [find_color_pair, hm]
      | succ j =>
        rw [List.set_cons_succ]
        unfold find_color_pair
        rw [if_neg hn, ih h j (by simpa using hj)]
        congr 1
        omega

theorem find_unused_pair_spec (l : List disp_color_pair) (k : Nat) :
    k ≤ find_unused_pair l k ∧ find_unused_pair l k ≤ k + l.length ∧
    (∀ j e, j < find_unused_pair l k - k → l[j]? = some e → e.in_use = true) ∧
    (find_unused_pair l k < k + l.length →
      ∃ e, l[find_unused_pair l k - k]? = some e ∧ e.in_use = false) := by
  induction l generalizing k with
  | nil => simp [find_unused_pair]
  | cons e es ih =>
    unfold find_unused_pair
    split
    · rename_i hu
      simp [hu]
    · rename_i hu
      obtain ⟨h1, h2, h3, h4⟩ := ih (k + 1)
      refine ⟨by omega, by simp only [List.length_cons]; omega, ?_, ?_⟩
      · intro j x hj hx
        cases j with
        | zero =>
          simp only [List.getElem?_cons_zero, Option.some.injEq] at hx
          subst hx
          simpa using hu
        | succ j =>
          simp only [List.getElem?_cons_succ] at hx
          exact h3 j x (by omega) hx
      · intro hlt
        obtain ⟨x, hx, hxu⟩ := h4 (by simp only [List.length_cons] at hlt; omega)
        refine ⟨x, ?_, hxu⟩
        have : find_unused_pair es (k + 1) - k = (find_unused_pair es (k + 1) - (k + 1)) + 1 := by
          omega
        rw [this]
        simpa using hx

theorem tail_set {α : Type} (l : List α) (i : Nat) (x : α) (hi : 1 ≤ i) :
    (l.set i x).tail = l.tail.set (i - 1) x := by
  cases l with
  | nil => simp
  | cons a as =>
    cases i with
    | zero => omega
    | succ j => simp

theorem getElem?_tail_pred {α : Type} (l : List α) (i : Nat) (hi : 1 ≤ i) :
    l.tail[i - 1]? = l[i]? := by
  cases l with
  | nil => simp
  | cons a as =>
    cases i with
    | zero => omega
    | succ j => simp

theorem getElem?_set_same {α : Type} (l : List α) (i : Nat) (x : α) (h : i < l.length) :
    (l.set i x)[i]? = some x := by
  simp [h]

/-- A request that finds its pair: the index found is returned and its reference count
goes up by one. -/
theorem add_color_pair_hit (init_pair : Nat → Nat → Nat → Int) (disp : dispc_t)
    (c b i : Nat) (e : disp_color_pair)
    (hf : find_color_pair (disp.color_pairs.tail) 1 c b = some i)
    (he : disp.color_pairs[i]? = some e) :
    s_disp_add_color_pair init_pair disp c b =
      some ((i : Int),
        { disp with color_pairs := disp.color_pairs.set i { e with ref_cnt := e.ref_cnt + 1 } }) := by
  unfold s_disp_add_color_pair
  simp only [hf, he]

/-- C1: deduplication in `s_disp_add_color_pair`.  When a call for `(fg, bg)` succeeds with
index `i`, the call for the same pair that follows it returns `i` again, adds exactly one
to `color_pairs[i].ref_cnt` and changes nothing else of the display object: no other field
of a colour-pair entry, and no call of `init_pair` is made.  This holds for every state and
every answer of the backend, in particular for all colours in 0..7. -/
theorem add_color_pair_twice (init1 init2 : Nat → Nat → Nat → Int) (disp d1 : dispc_t)
    (fg bg : Nat) (r : Int)
    (h1 : s_disp_add_color_pair init1 disp fg bg = some (r, d1)) (hr : r ≠ -1) :
    ∃ (i : Nat) (e : disp_color_pair), r = (i : Int) ∧ d1.color_pairs[i]? = some e ∧
      s_disp_add_color_pair init2 d1 fg bg =
        some (r, { d1 with
          color_pairs := d1.color_pairs.set i { e with ref_cnt := e.ref_cnt + 1 } }) := by
  unfold s_disp_add_color_pair at h1
  split at h1
  · rename_i i hf
    split at h1
    · rename_i e he
      simp only [Option.some.injEq, Prod.mk.injEq] at h1
      obtain ⟨hri, hd⟩ := h1
      obtain ⟨hi1, e0, he0, hm⟩ := find_color_pair_some hf
      have hlt : i < disp.color_pairs.length := by
        rcases List.getElem?_eq_some_iff.mp he with ⟨h, _⟩
        exact h
      have hee : e0 = e := by
        rw [getElem?_tail_pred _ _ hi1, he] at he0
        exact (Option.some.inj he0).symm
      subst hee
      refine ⟨i, { e0 with ref_cnt := e0.ref_cnt + 1 }, hri.symm, ?_, ?_⟩
      · rw [← hd]
        exact getElem?_set_same _ _ _ hlt
      · rw [← hri]
        apply add_color_pair_hit
        · rw [← hd]
          simp only
          rw [tail_set _ _ _ hi1]
          exact find_color_pair_set_same hf _ hm
        · rw [← hd]
          exact getElem?_set_same _ _ _ hlt
    · simp at h1
  · rename_i hf
    simp only at h1
    split at h1
    · simp only [Option.some.injEq, Prod.mk.injEq] at h1
      exact absurd h1.1.symm hr
    · split at h1
      · simp at h1
      · split at h1
        · simp at h1
        · split at h1
          · simp only [Option.some.injEq, Prod.mk.injEq] at h1
            exact absurd h1.1.symm hr
          · split at h1
            · rename_i e he
              simp only [Option.some.injEq, Prod.mk.injEq] at h1
              obtain ⟨hri, hd⟩ := h1
              have hi1 := (find_unused_pair_spec (disp.color_pairs.tail) 1).1
              have hlt : find_unused_pair (disp.color_pairs.tail) 1 <
                  disp.color_pairs.length := by
                rcases List.getElem?_eq_some_iff.mp he with ⟨h, _⟩
                exact h
              refine ⟨find_unused_pair (disp.color_pairs.tail) 1,
                { e with in_use := true, store_color := fg, store_background := bg },
                hri.symm, ?_, ?_⟩
              · rw [← hd]
                exact getElem?_set_same _ _ _ hlt
              · rw [← hri]
                apply add_color_pair_hit
                · rw [← hd]
                  simp only
                  rw [tail_set _ _ _ hi1]
                  have := find_color_pair_set_new hf
                    (find_unused_pair (disp.color_pairs.tail) 1 - 1)
                    (by simp only [List.length_tail]; omega)
                    { e with in_use := true, store_color := fg, store_background := bg }
                    ⟨rfl, rfl, rfl⟩
                  rw [this]
                  congr 1
                  omega
                · rw [← hd]
                  exact getElem?_set_same _ _ _ hlt
            · simp at h1

theorem add_color_pair_twice_witness :
    s_disp_add_color_pair init_pair_ok (disp_clear 3 2) 2 1 = some (1, disp_one_pair) ∧
    (1 : Int) ≠ -1 ∧
    ∃ (i : Nat) (e : disp_color_pair), (1 : Int) = (i : Int) ∧
      disp_one_pair.color_pairs[i]? = some e ∧
      s_disp_add_color_pair init_pair_ok disp_one_pair 2 1 =
        some (1, { disp_one_pair with
          color_pairs := disp_one_pair.color_pairs.set i { e with ref_cnt := e.ref_cnt + 1 } }) :=
  ⟨by decide, by decide,
    add_color_pair_twice init_pair_ok init_pair_ok (disp_clear 3 2) disp_one_pair 2 1 1
      (by decide) (by decide)⟩

/-! ### Filling the colour-pair table -/

theorem find_color_pair_eq_none {l : List disp_color_pair} {k c b : Nat}
    (h : ∀ e ∈ l, ¬ (e.in_use = true ∧ e.store_color = c ∧ e.store_background = b)) :
    find_color_pair l k c b = none := by
  induction l generalizing k with
  | nil => rfl
  | cons e es ih =>
    unfold find_color_pair
    rw [if_neg (h e (List.mem_cons_self _ _))]
    exact ih (fun x hx => h x (List.mem_cons_of_mem _ hx))

theorem find_unused_pair_append (U F : List disp_color_pair) (k : Nat)
    (hU : ∀ e ∈ U, e.in_use = true) (hF : ∀ e ∈ F, e.in_use = false) :
    find_unused_pair (U ++ F) k = k + U.length := by
  induction U generalizing k with
  | nil =>
    cases F with
    | nil => simp [find_unused_pair]
    | cons f fs => simp [find_unused_pair, hF f (List.mem_cons_self _ _)]
  | cons u us ih =>
    have hu := hU u (List.mem_cons_self _ _)
    rw [List.cons_append]
    unfold find_unused_pair
    rw [if_neg (by simp [hu]), ih (k + 1) (fun x hx => hU x (List.mem_cons_of_mem _ hx))]
    simp only [List.length_cons]
    omega

/-- A request for a pair that is not in the table, which holds its used entries `U` in front
of its unused entries `f :: F`: the first unused entry is taken. -/
theorem add_color_pair_fresh (init_pair : Nat → Nat → Nat → Int) (disp : dispc_t)
    (e0 f : disp_color_pair) (U F : List disp_color_pair) (c b : Nat)
    (hcp : disp.color_pairs = e0 :: (U ++ f :: F))
    (hU : ∀ e ∈ U, e.in_use = true) (hF : ∀ e ∈ f :: F, e.in_use = false)
    (hnew : ∀ e ∈ U, ¬ (e.store_color = c ∧ e.store_background = b))
    (hc : c < 8) (hb : b < 8)
    (hok : init_pair (U.length + 1) (PC_TO_CURSES.getD c 0) (PC_TO_CURSES.getD b 0) ≠ ERR) :
    s_disp_add_color_pair init_pair disp c b =
      some (((U.length + 1 : Nat) : Int), { disp with
        color_pairs := e0 :: (U ++
          { f with in_use := true, store_color := c, store_background := b } :: F)
        init_pair_calls := disp.init_pair_calls ++
          [(U.length + 1, PC_TO_CURSES.getD c 0, PC_TO_CURSES.getD b 0)] }) := by
  have hfind : find_color_pair (U ++ f :: F) 1 c b = none := by
    apply find_color_pair_eq_none
    intro e he
    rcases List.mem_append.mp he with h | h
    · exact fun hm => hnew e h ⟨hm.2.1, hm.2.2⟩
    · intro hm
      rw [hF e h] at hm
      exact absurd hm.1 (by decide)
  have hun : find_unused_pair (U ++ f :: F) 1 = U.length + 1 := by
    rw [find_unused_pair_append U (f :: F) 1 hU hF]
    omega
  have hget : (e0 :: (U ++ f :: F))[U.length + 1]? = some f := by
    rw [List.getElem?_cons_succ, List.getElem?_append_right (le_refl _)]
    simp
  have hset : (e0 :: (U ++ f :: F)).set (U.length + 1)
      { f with in_use := true, store_color := c, store_background := b } =
      e0 :: (U ++ { f with in_use := true, store_color := c, store_background := b } :: F) := by
    simp
  have hlen : PC_TO_CURSES.length = 8 := rfl
  unfold s_disp_add_color_pair
  simp only [hcp, List.tail_cons, hfind, hun, hlen, hget, hset]
  rw [if_neg (by simp only [List.length_cons, List.length_append]; omega)]
  rw [if_neg (by omega), if_neg (by omega), if_neg hok]

/-- A request for a pair that is not in the table when every entry behind entry 0 is in
use: the call fails for want of room and changes only `code` and `error_msg`. -/
theorem add_color_pair_full (init_pair : Nat → Nat → Nat → Int) (disp : dispc_t)
    (e0 : disp_color_pair) (U : List disp_color_pair) (c b : Nat)
    (hcp : disp.color_pairs = e0 :: U)
    (hU : ∀ e ∈ U, e.in_use = true)
    (hnew : ∀ e ∈ U, ¬ (e.store_color = c ∧ e.store_background = b)) :
    s_disp_add_color_pair init_pair disp c b =
      some (-1, { disp with
        code := some disp_error_code.DISP_NCURSES_COLOR_ALLOC_FAIL
        error_msg := "no room for additional ncurses color pairs" }) := by
  have hfind : find_color_pair U 1 c b = none :=
    find_color_pair_eq_none (fun e he hm => hnew e he ⟨hm.2.1, hm.2.2⟩)
  have hun : find_unused_pair U 1 = U.length + 1 := by
    have := find_unused_pair_append U [] 1 hU (by simp)
    rw [List.append_nil] at this
    omega
  unfold s_disp_add_color_pair
  simp only [hcp, List.tail_cons, hfind, hun, List.length_cons, if_true]

/-- Requests for pairwise distinct new pairs, at most as many as there are unused entries,
all succeed and take the unused entries in index order. -/
theorem add_color_pairs_fill (init_pair : Nat → Nat → Nat → Int)
    (hok : ∀ i f b, init_pair i f b ≠ ERR) (reqs : List (Nat × Nat)) :
    ∀ (disp : dispc_t) (e0 : disp_color_pair) (U F : List disp_color_pair),
    disp.color_pairs = e0 :: (U ++ F) →
    (∀ e ∈ U, e.in_use = true) → (∀ e ∈ F, e.in_use = false) →
    reqs.length ≤ F.length → reqs.Nodup →
    (∀ p ∈ reqs, ∀ e ∈ U, ¬ (e.store_color = p.1 ∧ e.store_background = p.2)) →
    (∀ p ∈ reqs, p.1 < 8 ∧ p.2 < 8) →
    ∃ (d1 : dispc_t) (U1 F1 : List disp_color_pair),
      add_color_pairs init_pair disp reqs =
        some ((List.range' (U.length + 1) reqs.length).map (fun (n : Nat) => (n : Int)), d1) ∧
      d1.color_pairs = e0 :: (U ++ U1 ++ F1) ∧
      F1.length + reqs.length = F.length ∧
      (∀ e ∈ U1, e.in_use = true ∧ (e.store_color, e.store_background) ∈ reqs) ∧
      (∀ e ∈ F1, e.in_use = false) := by
  induction reqs with
  | nil =>
    intro disp e0 U F hcp _ hF _ _ _ _
    exact ⟨disp, [], F, rfl, by simpa using hcp, by simp, by simp, hF⟩
  | cons p ps ih =>
    intro disp e0 U F hcp hU hF hlen hnd hnew hrange
    cases F with
    | nil => simp at hlen
    | cons f F0 =>
      obtain ⟨c, b⟩ := p
      have hstep := add_color_pair_fresh init_pair disp e0 f U F0 c b hcp hU hF
        (hnew (c, b) (List.mem_cons_self _ _))
        (hrange (c, b) (List.mem_cons_self _ _)).1
        (hrange (c, b) (List.mem_cons_self _ _)).2 (hok _ _ _)
      have hnd2 := List.nodup_cons.mp hnd
      obtain ⟨d1, U1, F1, hrun, hcp1, hlen1, hU1, hF1⟩ :=
        ih { disp with
            color_pairs := e0 :: (U ++
              { f with in_use := true, store_color := c, store_background := b } :: F0)
            init_pair_calls := disp.init_pair_calls ++
              [(U.length + 1, PC_TO_CURSES.getD c 0, PC_TO_CURSES.getD b 0)] }
          e0 (U ++ [{ f with in_use := true, store_color := c, store_background := b }]) F0
          (by simp)
          (by
            intro e he
            rcases List.mem_append.mp he with h | h
            · exact hU e h
            · rw [List.mem_singleton.mp h])
          (fun e he => hF e (List.mem_cons_of_mem _ he))
          (by simpa using hlen)
          hnd2.2
          (by
            intro q hq e he
            rcases List.mem_append.mp he with h | h
            · exact hnew q (List.mem_cons_of_mem _ hq) e h
            · rw [List.mem_singleton.mp h]
              rintro ⟨h1, h2⟩
              apply hnd2.1
              have : q = (c, b) := Prod.ext h1.symm h2.symm
              rw [← this]
              exact hq)
          (fun q hq => hrange q (List.mem_cons_of_mem _ hq))
      refine ⟨d1, { f with in_use := true, store_color := c, store_background := b } :: U1,
        F1, ?_, ?_, ?_, ?_, hF1⟩
      · simp only [add_color_pairs, hstep, hrun, List.length_cons, List.length_append,
          List.length_nil, List.range'_succ, List.map_cons]
      · rw [hcp1]
        simp
      · simp only [List.length_cons] at hlen1 ⊢
        omega
      · intro e he
        rcases List.mem_cons.mp he with h | h
        · rw [h]
          exact ⟨rfl, List.mem_cons_self _ _⟩
        · exact ⟨(hU1 e h).1, List.mem_cons_of_mem _ (hU1 e h).2⟩

/-- C2: exhaustion of the colour-pair table.  Start from a table with no entry in use and a
backend that accepts every registration.  Requests for pairwise distinct pairs with colours
in 0..7, one for each entry behind entry 0, all succeed: they return the indices 1, 2, ...
in order and leave every entry behind entry 0 in use.  The request for one more distinct
pair then returns -1 with `code = DISP_NCURSES_COLOR_ALLOC_FAIL`, and it changes nothing
but `code` and `error_msg`: every colour-pair entry is as before the call. -/
theorem color_pair_table_exhaustion (init_pair : Nat → Nat → Nat → Int) (disp : dispc_t)
    (reqs : List (Nat × Nat)) (extra : Nat × Nat)
    (hok : ∀ i f b, init_pair i f b ≠ ERR)
    (hempty : ∀ e ∈ disp.color_pairs, e.in_use = false)
    (hlen : reqs.length + 1 = disp.color_pairs.length)
    (hnd : (reqs ++ [extra]).Nodup)
    (hrange : ∀ p ∈ reqs, p.1 < 8 ∧ p.2 < 8) :
    ∃ d1 : dispc_t,
      add_color_pairs init_pair disp reqs =
        some ((List.range' 1 reqs.length).map (fun (n : Nat) => (n : Int)), d1) ∧
      (∀ (i : Nat) (e : disp_color_pair),
        1 ≤ i → d1.color_pairs[i]? = some e → e.in_use = true) ∧
      s_disp_add_color_pair init_pair d1 extra.1 extra.2 =
        some (-1, { d1 with
          code := some disp_error_code.DISP_NCURSES_COLOR_ALLOC_FAIL
          error_msg := "no room for additional ncurses color pairs" }) := by
  cases hcp : disp.color_pairs with
  | nil => rw [hcp] at hlen; simp at hlen
  | cons e0 F =>
    rw [hcp] at hlen hempty
    obtain ⟨d1, U1, F1, hrun, hcp1, hlen1, hU1, _⟩ :=
      add_color_pairs_fill init_pair hok reqs disp e0 [] F (by simpa using hcp) (by simp)
        (fun e he => hempty e (List.mem_cons_of_mem _ he))
        (by simp only [List.length_cons] at hlen; omega)
        (List.Nodup.of_append_left hnd) (by simp) hrange
    have hF1 : F1 = [] := by
      apply List.eq_nil_of_length_eq_zero
      simp only [List.length_cons] at hlen
      omega
    subst hF1
    simp only [List.nil_append, List.append_nil] at hcp1
    refine ⟨d1, by simpa using hrun, ?_, ?_⟩
    · intro i e hi he
      rw [hcp1] at he
      cases i with
      | zero => omega
      | succ j =>
        rw [List.getElem?_cons_succ] at he
        exact (hU1 e (List.getElem?_mem he)).1
    · apply add_color_pair_full init_pair d1 e0 U1 extra.1 extra.2 hcp1
        (fun e he => (hU1 e he).1)
      intro e he hm
      have hin := (hU1 e he).2
      rw [hm.1, hm.2] at hin
      have hdis := List.disjoint_of_nodup_append hnd
      exact hdis hin (List.mem_singleton.mpr rfl)

theorem color_pair_table_exhaustion_witness :
    (∀ i f b, init_pair_ok i f b ≠ ERR) ∧
    (∀ e ∈ (disp_clear 3 2).color_pairs, e.in_use = false) ∧
    [(2, 1), (0, 7)].length + 1 = (disp_clear 3 2).color_pairs.length ∧
    ([(2, 1), (0, 7)] ++ [((3, 3) : Nat × Nat)]).Nodup ∧
    (∀ p ∈ [((2, 1) : Nat × Nat), (0, 7)], p.1 < 8 ∧ p.2 < 8) ∧
    ∃ d1 : dispc_t,
      add_color_pairs init_pair_ok (disp_clear 3 2) [(2, 1), (0, 7)] =
        some ((List.range' 1 [((2, 1) : Nat × Nat), (0, 7)].length).map
          (fun (n : Nat) => (n : Int)), d1) ∧
      (∀ (i : Nat) (e : disp_color_pair),
        1 ≤ i → d1.color_pairs[i]? = some e → e.in_use = true) ∧
      s_disp_add_color_pair init_pair_ok d1 3 3 =
        some (-1, { d1 with
          code := some disp_error_code.DISP_NCURSES_COLOR_ALLOC_FAIL
          error_msg := "no room for additional ncurses color pairs" }) :=
  ⟨by intro i f b; simp [init_pair_ok, ERR], by decide, by decide, by decide, by decide,
    color_pair_table_exhaustion init_pair_ok (disp_clear 3 2) [(2, 1), (0, 7)] (3, 3)
      (by intro i f b; simp [init_pair_ok, ERR]) (by decide) (by decide) (by decide)
      (by decide)⟩

/-! ### What a call of `s_disp_add_color_pair` can do -/

/-- The three ways a call of `s_disp_add_color_pair` returns: (a) the pair was found at
index `i ≥ 1`, whose reference count is raised; (b) failure with -1, the tables untouched;
(c) the pair was not in the table and the unused entry `i ≥ 1` now holds it. -/
theorem add_color_pair_cases {init_pair : Nat → Nat → Nat → Int} {disp d1 : dispc_t}
    {c b : Nat} {r : Int} (h : s_disp_add_color_pair init_pair disp c b = some (r, d1)) :
    (∃ (i : Nat) (e : disp_color_pair), 1 ≤ i ∧ r = (i : Int) ∧
        disp.color_pairs[i]? = some e ∧
        (e.in_use = true ∧ e.store_color = c ∧ e.store_background = b) ∧
        d1 = { disp with
          color_pairs := disp.color_pairs.set i { e with ref_cnt := e.ref_cnt + 1 } }) ∨
    (r = -1 ∧ d1.color_pairs = disp.color_pairs ∧ d1.palette = disp.palette) ∨
    (∃ (i : Nat) (e : disp_color_pair), 1 ≤ i ∧ r = (i : Int) ∧
        find_color_pair disp.color_pairs.tail 1 c b = none ∧
        i = find_unused_pair disp.color_pairs.tail 1 ∧
        disp.color_pairs[i]? = some e ∧ e.in_use = false ∧ c < 8 ∧ b < 8 ∧
        d1 = { disp with
          color_pairs := disp.color_pairs.set i
            { e with in_use := true, store_color := c, store_background := b }
          init_pair_calls := disp.init_pair_calls ++
            [(i, PC_TO_CURSES.getD c 0, PC_TO_CURSES.getD b 0)] }) := by
  unfold s_disp_add_color_pair at h
  split at h
  · rename_i i hf
    split at h
    · rename_i e he
      simp only [Option.some.injEq, Prod.mk.injEq] at h
      obtain ⟨hi1, e0, he0, hm⟩ := find_color_pair_some hf
      have hee : e0 = e := by
        rw [getElem?_tail_pred _ _ hi1, he] at he0
        exact (Option.some.inj he0).symm
      subst hee
      exact Or.inl ⟨i, e0, hi1, h.1.symm, he, hm, h.2.symm⟩
    · simp at h
  · rename_i hf
    simp only at h
    split at h
    · simp only [Option.some.injEq, Prod.mk.injEq] at h
      refine Or.inr (Or.inl ⟨h.1.symm, ?_, ?_⟩) <;> rw [← h.2]
    · split at h
      · simp at h
      · split at h
        · simp at h
        · rename_i hc hb
          split at h
          · simp only [Option.some.injEq, Prod.mk.injEq] at h
            refine Or.inr (Or.inl ⟨h.1.symm, ?_, ?_⟩) <;> rw [← h.2]
          · split at h
            · rename_i e he
              simp only [Option.some.injEq, Prod.mk.injEq] at h
              have hspec := find_unused_pair_spec disp.color_pairs.tail 1
              have hlt : find_unused_pair disp.color_pairs.tail 1 <
                  disp.color_pairs.length := by
                rcases List.getElem?_eq_some_iff.mp he with ⟨h, _⟩
                exact h
              obtain ⟨x, hx, hxu⟩ := hspec.2.2.2 (by
                have := List.length_tail disp.color_pairs
                omega)
              rw [getElem?_tail_pred _ _ hspec.1, he] at hx
              have hxe : x = e := (Option.some.inj hx).symm
              subst hxe
              have hlen : PC_TO_CURSES.length = 8 := rfl
              rw [hlen] at hc hb
              exact Or.inr (Or.inr ⟨_, x, hspec.1, h.1.symm, hf, rfl, he, hxu,
                by omega, by omega, h.2.symm⟩)
            · simp at h

/-- Loop 2 stops at the smallest index `i ≥ 1` whose entry is unused. -/
theorem find_unused_pair_first (cp : List disp_color_pair) (i : Nat) (e : disp_color_pair)
    (hi : 1 ≤ i) (he : cp[i]? = some e) (hu : e.in_use = false)
    (hmin : ∀ (j : Nat) (x : disp_color_pair),
      1 ≤ j → j < i → cp[j]? = some x → x.in_use = true) :
    find_unused_pair cp.tail 1 = i := by
  obtain ⟨h1, h2, h3, h4⟩ := find_unused_pair_spec cp.tail 1
  have hlt : i < cp.length := by
    rcases List.getElem?_eq_some_iff.mp he with ⟨h, _⟩
    exact h
  have hlen := List.length_tail cp
  rcases Nat.lt_trichotomy (find_unused_pair cp.tail 1) i with hlt2 | heq | hgt
  · obtain ⟨x, hx, hxu⟩ := h4 (by omega)
    rw [getElem?_tail_pred _ _ h1] at hx
    have := hmin _ x h1 hlt2 hx
    rw [hxu] at this
    exact absurd this (by decide)
  · exact heq
  · have := h3 (i - 1) e (by omega) (by rw [getElem?_tail_pred _ _ hi]; exact he)
    rw [hu] at this
    exact absurd this (by decide)

/-- C3: first-free-slot policy of `s_disp_add_color_pair`.  When no entry in use stores
`(fg, bg)`, both colours are in 0..7, `i` is the smallest index `≥ 1` whose entry is unused
and the backend accepts the registration, the call returns `i`, makes exactly one call of
`init_pair`, for index `i` with the curses colours of `fg` and `bg`, marks entry `i` in use
with the colours `(fg, bg)` stored, and leaves every other entry (and every other field)
as it was.  And whatever the state and the arguments, a call that succeeds does not return
0 and does not change entry 0. -/
theorem add_color_pair_first_free (init_pair : Nat → Nat → Nat → Int) (disp : dispc_t)
    (fg bg i : Nat) (e : disp_color_pair)
    (hnm : ∀ x ∈ disp.color_pairs,
      ¬ (x.in_use = true ∧ x.store_color = fg ∧ x.store_background = bg))
    (hfg : fg < 8) (hbg : bg < 8)
    (hi : 1 ≤ i) (he : disp.color_pairs[i]? = some e) (hu : e.in_use = false)
    (hmin : ∀ (j : Nat) (x : disp_color_pair),
      1 ≤ j → j < i → disp.color_pairs[j]? = some x → x.in_use = true)
    (hok : init_pair i (PC_TO_CURSES.getD fg 0) (PC_TO_CURSES.getD bg 0) ≠ ERR) :
    s_disp_add_color_pair init_pair disp fg bg =
      some ((i : Int), { disp with
        color_pairs := disp.color_pairs.set i
          { e with in_use := true, store_color := fg, store_background := bg }
        init_pair_calls := disp.init_pair_calls ++
          [(i, PC_TO_CURSES.getD fg 0, PC_TO_CURSES.getD bg 0)] }) ∧
    ∀ (init2 : Nat → Nat → Nat → Int) (d d1 : dispc_t) (c b : Nat) (r : Int),
      s_disp_add_color_pair init2 d c b = some (r, d1) → r ≠ -1 →
      r ≠ 0 ∧ d1.color_pairs[0]? = d.color_pairs[0]? := by
  constructor
  · have hfind : find_color_pair disp.color_pairs.tail 1 fg bg = none :=
      find_color_pair_eq_none (fun x hx => hnm x (List.mem_of_mem_tail hx))
    have hun := find_unused_pair_first disp.color_pairs i e hi he hu hmin
    have hlt : i < disp.color_pairs.length := by
      rcases List.getElem?_eq_some_iff.mp he with ⟨h, _⟩
      exact h
    have hlen : PC_TO_CURSES.length = 8 := rfl
    unfold s_disp_add_color_pair
    simp only [hfind, hun, hlen, he]
    rw [if_neg (by omega), if_neg (by omega), if_neg (by omega), if_neg hok]
  · intro init2 d d1 c b r h hr
    rcases add_color_pair_cases h with ⟨j, x, hj, hrj, _, _, hd⟩ | ⟨hr1, _, _⟩ |
      ⟨j, x, hj, hrj, _, _, _, _, _, _, hd⟩
    · refine ⟨by omega, ?_⟩
      rw [hd]
      exact List.getElem?_set_ne (by omega)
    · exact absurd hr1 hr
    · refine ⟨by omega, ?_⟩
      rw [hd]
      exact List.getElem?_set_ne (by omega)

theorem add_color_pair_first_free_witness :
    (∀ x ∈ disp_one_pair.color_pairs,
      ¬ (x.in_use = true ∧ x.store_color = 5 ∧ x.store_background = 0)) ∧
    5 < 8 ∧ 0 < 8 ∧ 1 ≤ 2 ∧ disp_one_pair.color_pairs[2]? = some ⟨false, 0, 0, 0⟩ ∧
    s_disp_add_color_pair init_pair_ok disp_one_pair 5 0 =
      some (2, { disp_one_pair with
        color_pairs := [⟨false, 0, 0, 0⟩, ⟨true, 2, 1, 0⟩, ⟨true, 5, 0, 0⟩]
        init_pair_calls := [(1, 2, 4), (2, 5, 0)] }) :=
  ⟨by decide, by decide, by decide, by decide, by decide,
    (add_color_pair_first_free init_pair_ok disp_one_pair 5 0 2 ⟨false, 0, 0, 0⟩
      (by decide) (by decide) (by decide) (by decide) (by decide) (by decide)
      (by
        intro j x h1 h2 hx
        have hj : j = 1 := by omega
        subst hj
        have : x = ⟨true, 2, 1, 0⟩ := by
          have h : disp_one_pair.color_pairs[1]? = some ⟨true, 2, 1, 0⟩ := by decide
          rw [h] at hx
          exact (Option.some.inj hx).symm
        rw [this])
      (by decide)).1⟩

/-! ### The uniqueness invariant of the colour-pair table -/

theorem getElem?_set_cases {α : Type} {l : List α} {i j : Nat} {a y : α}
    (h : (l.set i a)[j]? = some y) : (j = i ∧ y = a) ∨ (j ≠ i ∧ l[j]? = some y) := by
  rw [List.getElem?_set] at h
  split at h
  · rename_i hij
    split at h
    · exact Or.inl ⟨hij.symm, (Option.some.inj h).symm⟩
    · simp at h
  · rename_i hij
    exact Or.inr ⟨fun hji => hij hji.symm, h⟩

theorem color_pairs_unique_set_same (cp : List disp_color_pair) (i : Nat)
    (e e1 : disp_color_pair) (he : cp[i]? = some e)
    (h1 : e1.in_use = e.in_use) (h2 : e1.store_color = e.store_color)
    (h3 : e1.store_background = e.store_background) (hU : color_pairs_unique cp) :
    color_pairs_unique (cp.set i e1) := by
  intro j k x y hx hy hxu hyu hc hb
  rcases getElem?_set_cases hx with ⟨hj, hxe⟩ | ⟨hj, hx0⟩ <;>
    rcases getElem?_set_cases hy with ⟨hk, hye⟩ | ⟨hk, hy0⟩
  · omega
  · subst hxe
    rw [hj]
    exact hU i k e y he hy0 (h1 ▸ hxu) hyu (h2 ▸ hc) (h3 ▸ hb)
  · subst hye
    rw [hk]
    exact hU j i x e hx0 he hxu (h1 ▸ hyu) (by rw [hc, h2]) (by rw [hb, h3])
  · exact hU j k x y hx0 hy0 hxu hyu hc hb

theorem color_pairs_unique_set_new (cp : List disp_color_pair) (i : Nat)
    (e1 : disp_color_pair)
    (hnew : ∀ (j : Nat) (y : disp_color_pair), cp[j]? = some y → y.in_use = true →
      ¬ (y.store_color = e1.store_color ∧ y.store_background = e1.store_background))
    (hU : color_pairs_unique cp) :
    color_pairs_unique (cp.set i e1) := by
  intro j k x y hx hy hxu hyu hc hb
  rcases getElem?_set_cases hx with ⟨hj, hxe⟩ | ⟨hj, hx0⟩ <;>
    rcases getElem?_set_cases hy with ⟨hk, hye⟩ | ⟨hk, hy0⟩
  · omega
  · subst hxe
    exact absurd ⟨hc.symm, hb.symm⟩ (hnew k y hy0 hyu)
  · subst hye
    exact absurd ⟨hc, hb⟩ (hnew j x hx0 hxu)
  · exact hU j k x y hx0 hy0 hxu hyu hc hb

/-- A call of `s_disp_add_color_pair` keeps the invariant. -/
theorem add_color_pair_keeps_unique {init_pair : Nat → Nat → Nat → Int} {disp d1 : dispc_t}
    {c b : Nat} {r : Int} (h : s_disp_add_color_pair init_pair disp c b = some (r, d1))
    (hU : color_pairs_unique disp.color_pairs)
    (hZ : color_pair_zero_unused disp.color_pairs) :
    color_pairs_unique d1.color_pairs ∧ color_pair_zero_unused d1.color_pairs := by
  rcases add_color_pair_cases h with ⟨i, e, hi, _, he, _, hd⟩ | ⟨_, hcp, _⟩ |
    ⟨i, e, hi, _, hf, _, he, _, _, _, hd⟩
  · rw [hd]
    refine ⟨color_pairs_unique_set_same _ i e _ he rfl rfl rfl hU, ?_⟩
    intro x hx
    rw [List.getElem?_set_ne (by omega)] at hx
    exact hZ x hx
  · rw [hcp]
    exact ⟨hU, hZ⟩
  · rw [hd]
    refine ⟨color_pairs_unique_set_new _ i _ ?_ hU, ?_⟩
    · intro j y hy hyu hm
      cases j with
      | zero =>
        have := hZ y hy
        rw [hyu] at this
        exact absurd this (by decide)
      | succ k =>
        have hmem : y ∈ disp.color_pairs.tail := by
          apply List.getElem?_mem
          rw [← hy]
          exact getElem?_tail_pred disp.color_pairs (k + 1) (by omega)
        exact find_color_pair_none hf y hmem ⟨hyu, hm.1, hm.2⟩
    · intro x hx
      rw [List.getElem?_set_ne (by omega)] at hx
      exact hZ x hx

/-- What `s_disp_pal_add` does to the colour-pair table is what its call of
`s_disp_add_color_pair` does. -/
theorem pal_add_color_pairs {F : disp_font_bits} {init_pair : Nat → Nat → Nat → Int}
    {disp d2 : dispc_t} {c b st : Nat} {r : Int} {pid : Option Nat}
    (h : s_disp_pal_add F init_pair disp c b st = some (r, pid, d2)) :
    ∃ (r1 : Int) (d1 : dispc_t),
      s_disp_add_color_pair init_pair disp (if c ≥ 8 then c - 8 else c) b = some (r1, d1) ∧
      d2.color_pairs = d1.color_pairs := by
  unfold s_disp_pal_add at h
  split at h
  · simp at h
  · simp only at h
    split at h
    · simp at h
    · rename_i r1 d1 hadd
      refine ⟨r1, d1, hadd, ?_⟩
      split at h
      · simp only [Option.some.injEq, Prod.mk.injEq] at h
        rw [← h.2.2]
      · split at h <;>
          (simp only [Option.some.injEq, Prod.mk.injEq] at h; rw [← h.2.2])

theorem pool_step_keeps_unique {F : disp_font_bits} {disp d1 : dispc_t} {call : pool_call}
    (h : pool_step F disp call = some d1)
    (hU : color_pairs_unique disp.color_pairs)
    (hZ : color_pair_zero_unused disp.color_pairs) :
    color_pairs_unique d1.color_pairs ∧ color_pair_zero_unused d1.color_pairs := by
  cases call with
  | add_color_pair init_pair c b =>
    simp only [pool_step, Option.map_eq_some'] at h
    obtain ⟨⟨r, d⟩, hs, hd⟩ := h
    simp only at hd
    subst hd
    exact add_color_pair_keeps_unique hs hU hZ
  | pal_add init_pair c b st =>
    simp only [pool_step, Option.map_eq_some'] at h
    obtain ⟨⟨r, pid, d⟩, hs, hd⟩ := h
    simp only at hd
    subst hd
    obtain ⟨r1, d0, hadd, hcp⟩ := pal_add_color_pairs hs
    rw [hcp]
    exact add_color_pair_keeps_unique hadd hU hZ
  | pal_free id =>
    simp only [pool_step, s_disp_pal_free, Option.some.injEq] at h
    subst h
    exact ⟨hU, hZ⟩

/-- C4: uniqueness invariant of the colour-pair table.  In every state reached from a table
with no entry in use by a sequence of calls of `s_disp_add_color_pair`, `s_disp_pal_add` and
`s_disp_pal_free` (with any arguments and any answers of the backend), no two different
entries in use store the same (foreground, background) pair, and entry 0 is not in use. -/
theorem color_pairs_unique_reachable (F : disp_font_bits) (d0 d : dispc_t)
    (calls : List pool_call)
    (hempty : ∀ e ∈ d0.color_pairs, e.in_use = false)
    (hrun : pool_run F d0 calls = some d) :
    color_pairs_unique d.color_pairs ∧ color_pair_zero_unused d.color_pairs := by
  have hgen : ∀ (calls : List pool_call) (d1 : dispc_t),
      color_pairs_unique d1.color_pairs → color_pair_zero_unused d1.color_pairs →
      pool_run F d1 calls = some d →
      color_pairs_unique d.color_pairs ∧ color_pair_zero_unused d.color_pairs := by
    intro calls
    induction calls with
    | nil =>
      intro d1 hU hZ h
      simp only [pool_run, Option.some.injEq] at h
      subst h
      exact ⟨hU, hZ⟩
    | cons call rest ih =>
      intro d1 hU hZ h
      simp only [pool_run] at h
      split at h
      · simp at h
      · rename_i d2 hstep
        obtain ⟨hU2, hZ2⟩ := pool_step_keeps_unique hstep hU hZ
        exact ih d2 hU2 hZ2 h
  refine hgen calls d0 ?_ ?_ hrun
  · intro i j x y hx _ hxu _ _ _
    have := hempty x (List.getElem?_mem hx)
    rw [hxu] at this
    exact absurd this (by decide)
  · intro x hx
    exact hempty x (List.getElem?_mem hx)

theorem color_pairs_unique_reachable_witness :
    (∀ e ∈ (disp_clear 3 2).color_pairs, e.in_use = false) ∧
    pool_run font_bits_sample (disp_clear 3 2)
      [pool_call.add_color_pair init_pair_ok 2 1, pool_call.pal_free 0,
       pool_call.add_color_pair init_pair_ok 2 1] =
      some { disp_one_pair with
        color_pairs := [⟨false, 0, 0, 0⟩, ⟨true, 2, 1, 1⟩, ⟨false, 0, 0, 0⟩] } ∧
    color_pairs_unique [⟨false, 0, 0, 0⟩, ⟨true, 2, 1, 1⟩, ⟨false, 0, 0, 0⟩] ∧
    color_pair_zero_unused [⟨false, 0, 0, 0⟩, ⟨true, 2, 1, 1⟩, ⟨false, 0, 0, 0⟩] :=
  ⟨by decide, by decide,
    color_pairs_unique_reachable font_bits_sample (disp_clear 3 2)
      { disp_one_pair with
        color_pairs := [⟨false, 0, 0, 0⟩, ⟨true, 2, 1, 1⟩, ⟨false, 0, 0, 0⟩] }
      [pool_call.add_color_pair init_pair_ok 2 1, pool_call.pal_free 0,
       pool_call.add_color_pair init_pair_ok 2 1]
      (by decide) (by decide)⟩

/-! ### `s_disp_pal_add` -/

/-- A valid style mask stays valid when the bold bit is added. -/
theorem style_or_bold_valid (F : disp_font_bits) (st : Nat)
    (h : st &&& DISP_FONT_STYLE_BITS F = st) :
    (st ||| F.DISP_FONT_BOLD) &&& DISP_FONT_STYLE_BITS F = st ||| F.DISP_FONT_BOLD := by
  apply Nat.eq_of_testBit_eq
  intro i
  have hi := congrArg (fun n => n.testBit i) h
  simp only [DISP_FONT_STYLE_BITS, Nat.testBit_and, Nat.testBit_or] at hi ⊢
  revert hi
  cases st.testBit i <;> cases F.DISP_FONT_ITALIC.testBit i <;>
    cases F.DISP_FONT_BOLD.testBit i <;> cases F.DISP_FONT_UNDERLINE.testBit i <;>
    cases F.DISP_FONT_REVERSE.testBit i <;> simp

/-- C5: bright-colour normalisation in `s_disp_pal_add`.  For a foreground colour `fg` in
8..15 and a valid style mask `st`, the call `pal_add(fg, bg, st)` is the call
`pal_add(fg - 8, bg, st | DISP_FONT_BOLD)`: from the same state and with the same backend
both give the same return value, the same palette id and the same display object, so the
same colour-pair table and the same palette table, the attribute mask of the new entry
included.  This holds for every background `bg`, in particular for 0..7. -/
theorem pal_add_bright_is_bold (F : disp_font_bits) (init_pair : Nat → Nat → Nat → Int)
    (disp : dispc_t) (fg bg st : Nat)
    (hlo : 8 ≤ fg) (hhi : fg ≤ 15) (hst : st &&& DISP_FONT_STYLE_BITS F = st) :
    s_disp_pal_add F init_pair disp fg bg st =
      s_disp_pal_add F init_pair disp (fg - 8) bg (st ||| F.DISP_FONT_BOLD) := by
  have h2 := style_or_bold_valid F st hst
  have h3 : ¬ (fg - 8 ≥ 8) := by omega
  unfold s_disp_pal_add
  simp only [hst, h2, not_true_eq_false, if_false, ge_iff_le, hlo, if_true]
  simp only [ge_iff_le] at h3
  simp only [h3, if_false]

theorem pal_add_bright_is_bold_witness :
    8 ≤ 12 ∧ 12 ≤ 15 ∧ 4 &&& DISP_FONT_STYLE_BITS font_bits_sample = 4 ∧
    s_disp_pal_add font_bits_sample init_pair_ok (disp_clear 3 2) 12 1 4 =
      s_disp_pal_add font_bits_sample init_pair_ok (disp_clear 3 2) (12 - 8) 1
        (4 ||| font_bits_sample.DISP_FONT_BOLD) ∧
    s_disp_pal_add font_bits_sample init_pair_ok (disp_clear 3 2) 12 1 4 =
      some (1, some 0, disp_one_palette) :=
  ⟨by decide, by decide, by decide,
    pal_add_bright_is_bold font_bits_sample init_pair_ok (disp_clear 3 2) 12 1 4
      (by decide) (by decide) (by decide),
    by decide⟩

theorem find_unused_palette_some {l : List disp_palette_entry} {k i : Nat}
    (h : find_unused_palette l k = some i) :
    k ≤ i ∧ (∃ e, l[i - k]? = some e ∧ e.in_use = false) ∧
    ∀ (j : Nat) (x : disp_palette_entry), j < i - k → l[j]? = some x → x.in_use = true := by
  induction l generalizing k with
  | nil => simp [find_unused_palette] at h
  | cons e es ih =>
    unfold find_unused_palette at h
    split at h
    · rename_i hu
      obtain ⟨h1, ⟨x, hx, hxu⟩, h3⟩ := ih h
      have hik : i - k = (i - (k + 1)) + 1 := by omega
      refine ⟨by omega, ⟨x, ?_, hxu⟩, ?_⟩
      · rw [hik]
        simpa using hx
      · intro j y hj hy
        cases j with
        | zero =>
          simp only [List.getElem?_cons_zero, Option.some.injEq] at hy
          subst hy
          exact hu
        | succ j =>
          simp only [List.getElem?_cons_succ] at hy
          exact h3 j y (by omega) hy
    · rename_i hu
      simp only [Option.some.injEq] at h
      subst h
      refine ⟨le_refl _, ⟨e, by simp, by simpa using hu⟩, ?_⟩
      intro j y hj
      omega

/-- The attribute mask as the OR of one attribute per style bit; the italic bit adds
`A_NORMAL`, which is 0. -/
theorem style_attr_mask_eq (F : disp_font_bits) (st : Nat) :
    style_attr_mask F st =
      (if st &&& F.DISP_FONT_BOLD ≠ 0 then A_BOLD else 0) |||
      (if st &&& F.DISP_FONT_UNDERLINE ≠ 0 then A_UNDERLINE else 0) |||
      (if st &&& F.DISP_FONT_REVERSE ≠ 0 then A_REVERSE else 0) := by
  unfold style_attr_mask
  simp only [A_NORMAL, Nat.or_zero, ite_self]
  split_ifs <;> simp

/-- A call of `s_disp_add_color_pair` that succeeds returns the index, at least 1, of an
entry in use that stores the requested pair, and it leaves the palette table alone. -/
theorem add_color_pair_success {init_pair : Nat → Nat → Nat → Int} {disp d1 : dispc_t}
    {c b : Nat} {r : Int} (h : s_disp_add_color_pair init_pair disp c b = some (r, d1))
    (hr : r ≠ -1) :
    ∃ (i : Nat) (e : disp_color_pair), r = (i : Int) ∧ 1 ≤ i ∧
      d1.color_pairs[i]? = some e ∧ e.in_use = true ∧ e.store_color = c ∧
      e.store_background = b ∧ d1.palette = disp.palette := by
  rcases add_color_pair_cases h with ⟨i, e, hi, hri, he, hm, hd⟩ | ⟨hr1, _, _⟩ |
    ⟨i, e, hi, hri, _, _, he, _, _, _, hd⟩
  · have hlt : i < disp.color_pairs.length := by
      rcases List.getElem?_eq_some_iff.mp he with ⟨h, _⟩
      exact h
    refine ⟨i, { e with ref_cnt := e.ref_cnt + 1 }, hri, hi, ?_, hm.1, hm.2.1, hm.2.2, ?_⟩
    · rw [hd]
      exact getElem?_set_same _ _ _ hlt
    · rw [hd]
  · exact absurd hr1 hr
  · have hlt : i < disp.color_pairs.length := by
      rcases List.getElem?_eq_some_iff.mp he with ⟨h, _⟩
      exact h
    refine ⟨i, { e with in_use := true, store_color := c, store_background := b },
      hri, hi, ?_, rfl, rfl, rfl, ?_⟩
    · rw [hd]
      exact getElem?_set_same _ _ _ hlt
    · rw [hd]

theorem or_bold_and_bold (st B : Nat) : (st ||| B) &&& B = B := by
  apply Nat.eq_of_testBit_eq
  intro i
  simp only [Nat.testBit_and, Nat.testBit_or]
  cases st.testBit i <;> cases B.testBit i <;> rfl

theorem or_bold_and_other (st B U : Nat) (h : B &&& U = 0) :
    (st ||| B) &&& U = st &&& U := by
  rw [Nat.and_comm, Nat.and_or_distrib_left, Nat.and_comm U B, h, Nat.or_zero, Nat.and_comm]

/-- C6: postcondition of a successful `s_disp_pal_add(fg, bg, st)` with `fg` in 0..15 and
any `bg`, in particular `bg` in 0..7 (the bold bit being a non-zero mask that shares no bit
with the underline and reverse masks).  A call that does not return 0 returns 1 and writes to `*palette_id` the
lowest palette index `p` that was not in use before the call; no search for an equal entry
is made.  Afterwards entry `p` is in use: `s_disp_pal_get_color_pair_id(p)` is an index
`cp ≥ 1` of a colour-pair entry in use that stores `(fg mod 8, bg)`, and
`s_disp_pal_get_char_style(p)` is the OR of `A_BOLD` if `st` has the bold bit or `fg ≥ 8`,
`A_UNDERLINE` if `st` has the underline bit and `A_REVERSE` if `st` has the reverse bit.
Every other palette entry is as before. -/
theorem pal_add_postcondition (F : disp_font_bits) (init_pair : Nat → Nat → Nat → Int)
    (disp d2 : dispc_t) (fg bg st : Nat) (r : Int) (pid : Option Nat)
    (hB : F.DISP_FONT_BOLD ≠ 0)
    (hBU : F.DISP_FONT_BOLD &&& F.DISP_FONT_UNDERLINE = 0)
    (hBR : F.DISP_FONT_BOLD &&& F.DISP_FONT_REVERSE = 0)
    (hfg : fg ≤ 15)
    (h : s_disp_pal_add F init_pair disp fg bg st = some (r, pid, d2)) (hr : r ≠ 0) :
    r = 1 ∧
    ∃ (p cp : Nat) (old : disp_palette_entry) (e : disp_color_pair),
      pid = some p ∧
      disp.palette[p]? = some old ∧ old.in_use = false ∧
      (∀ (q : Nat) (x : disp_palette_entry),
        q < p → disp.palette[q]? = some x → x.in_use = true) ∧
      s_disp_pal_get_color_pair_id d2 (p : Int) = some (cp : Int) ∧
      1 ≤ cp ∧ d2.color_pairs[cp]? = some e ∧ e.in_use = true ∧
      e.store_color = fg % 8 ∧ e.store_background = bg ∧
      s_disp_pal_get_char_style d2 (p : Int) = some (((
        (if st &&& F.DISP_FONT_BOLD ≠ 0 ∨ fg ≥ 8 then A_BOLD else 0) |||
        (if st &&& F.DISP_FONT_UNDERLINE ≠ 0 then A_UNDERLINE else 0) |||
        (if st &&& F.DISP_FONT_REVERSE ≠ 0 then A_REVERSE else 0) : Nat) : Int)) ∧
      (∀ q : Nat, q ≠ p → d2.palette[q]? = disp.palette[q]?) ∧
      d2.palette.length = disp.palette.length := by
  unfold s_disp_pal_add at h
  split at h
  · simp at h
  · simp only at h
    split at h
    · simp at h
    · rename_i r1 d1 hadd
      split at h
      · simp only [Option.some.injEq, Prod.mk.injEq] at h
        exact absurd h.1.symm hr
      · rename_i hr1
        obtain ⟨cp, e, hcp, hcp1, he, heu, hec, heb, hpal⟩ := add_color_pair_success hadd hr1
        split at h
        · rename_i p hp
          simp only [Option.some.injEq, Prod.mk.injEq] at h
          obtain ⟨hr', hpid, hd2⟩ := h
          obtain ⟨_, ⟨old, hold, holdu⟩, hmin⟩ := find_unused_palette_some hp
          rw [hpal] at hold hmin hd2
          simp only [Nat.sub_zero] at hold hmin
          have hlt : p < disp.palette.length := by
            rcases List.getElem?_eq_some_iff.mp hold with ⟨h, _⟩
            exact h
          have hget : d2.palette[p]? = some
              { in_use := true, color_pair_id := r1,
                attr_mask := style_attr_mask F
                  (if fg ≥ 8 then st ||| F.DISP_FONT_BOLD else st) } := by
            rw [← hd2]
            exact getElem?_set_same _ _ _ hlt
          have hlen : d2.palette.length = disp.palette.length := by
            rw [← hd2]
            simp
          have hmask : style_attr_mask F (if fg ≥ 8 then st ||| F.DISP_FONT_BOLD else st) =
              (if st &&& F.DISP_FONT_BOLD ≠ 0 ∨ fg ≥ 8 then A_BOLD else 0) |||
              (if st &&& F.DISP_FONT_UNDERLINE ≠ 0 then A_UNDERLINE else 0) |||
              (if st &&& F.DISP_FONT_REVERSE ≠ 0 then A_REVERSE else 0) := by
            rw [style_attr_mask_eq]
            by_cases h8 : fg ≥ 8
            · simp only [h8, if_true, or_true, or_bold_and_bold,
                or_bold_and_other _ _ _ hBU, or_bold_and_other _ _ _ hBR, ne_eq, hB,
                not_false_eq_true]
            · simp only [h8, if_false, or_false]
          refine ⟨hr'.symm, p, cp, old, e, hpid.symm, hold, holdu, hmin, ?_, hcp1, ?_, heu,
            ?_, heb, ?_, ?_, hlen⟩
          · unfold s_disp_pal_get_color_pair_id
            simp only [Int.toNat_ofNat, hget, hlen, hcp]
            rw [if_neg (by omega), if_neg (by omega)]
            simp
          · rw [← hd2]
            exact he
          · rw [hec]
            split <;> omega
          · unfold s_disp_pal_get_char_style
            simp only [Int.toNat_ofNat, hget, hlen, hmask]
            rw [if_neg (by omega), if_neg (by omega)]
            simp
          · intro q hq
            rw [← hd2]
            exact List.getElem?_set_ne (fun h => hq h.symm)
        · simp only [Option.some.injEq, Prod.mk.injEq] at h
          exact absurd h.1.symm hr

theorem pal_add_postcondition_witness :
    font_bits_sample.DISP_FONT_BOLD ≠ 0 ∧
    font_bits_sample.DISP_FONT_BOLD &&& font_bits_sample.DISP_FONT_UNDERLINE = 0 ∧
    font_bits_sample.DISP_FONT_BOLD &&& font_bits_sample.DISP_FONT_REVERSE = 0 ∧
    12 ≤ 15 ∧
    s_disp_pal_add font_bits_sample init_pair_ok (disp_clear 3 2) 12 1 4 =
      some (1, some 0, disp_one_palette) ∧
    (1 : Int) ≠ 0 ∧
    s_disp_pal_get_color_pair_id disp_one_palette 0 = some 1 ∧
    s_disp_pal_get_char_style disp_one_palette 0 = some ((A_BOLD ||| A_UNDERLINE : Nat) : Int) ∧
    ((1 : Int) = 1 ∧
    ∃ (p cp : Nat) (old : disp_palette_entry) (e : disp_color_pair),
      some 0 = some p ∧
      (disp_clear 3 2).palette[p]? = some old ∧ old.in_use = false ∧
      (∀ (q : Nat) (x : disp_palette_entry),
        q < p → (disp_clear 3 2).palette[q]? = some x → x.in_use = true) ∧
      s_disp_pal_get_color_pair_id disp_one_palette (p : Int) = some (cp : Int) ∧
      1 ≤ cp ∧ disp_one_palette.color_pairs[cp]? = some e ∧ e.in_use = true ∧
      e.store_color = 12 % 8 ∧ e.store_background = 1 ∧
      s_disp_pal_get_char_style disp_one_palette (p : Int) = some (((
        (if 4 &&& font_bits_sample.DISP_FONT_BOLD ≠ 0 ∨ 12 ≥ 8 then A_BOLD else 0) |||
        (if 4 &&& font_bits_sample.DISP_FONT_UNDERLINE ≠ 0 then A_UNDERLINE else 0) |||
        (if 4 &&& font_bits_sample.DISP_FONT_REVERSE ≠ 0 then A_REVERSE else 0) : Nat) : Int)) ∧
      (∀ q : Nat, q ≠ p → disp_one_palette.palette[q]? = (disp_clear 3 2).palette[q]?) ∧
      disp_one_palette.palette.length = (disp_clear 3 2).palette.length) :=
  ⟨by decide, by decide, by decide, by decide, by decide, by decide, by decide, by decide,
    pal_add_postcondition font_bits_sample init_pair_ok (disp_clear 3 2) disp_one_palette
      12 1 4 1 (some 0) (by decide) (by decide) (by decide) (by decide) (by decide)
      (by decide)⟩

/-! ### The key sequence matcher -/

theorem strlen_eq_length_cstr (s : List Nat) : strlen s = (cstr s).length := by
  induction s with
  | nil => rfl
  | cons c cs ih =>
    unfold strlen cstr
    split
    · rfl
    · simp [ih]

theorem strlen_of_no_nul (s : List Nat) (h : ∀ c ∈ s, c ≠ 0) : strlen s = s.length := by
  induction s with
  | nil => rfl
  | cons c cs ih =>
    unfold strlen
    rw [if_neg (h c (List.mem_cons_self _ _)), ih (fun x hx => h x (List.mem_cons_of_mem _ hx))]
    rfl

/-- For a buffer without NUL, `strncmp` over the length of the buffer gives 0 exactly when
the buffer is a prefix of the other string. -/
theorem strncmp_eq_zero_iff (buf pat : List Nat) (h : ∀ c ∈ buf, c ≠ 0) :
    strncmp buf pat buf.length = 0 ↔ buf <+: cstr pat := by
  induction buf generalizing pat with
  | nil => simp [strncmp]
  | cons c cs ih =>
    have hc : c ≠ 0 := h c (List.mem_cons_self _ _)
    have hcs : ∀ x ∈ cs, x ≠ 0 := fun x hx => h x (List.mem_cons_of_mem _ hx)
    cases pat with
    | nil =>
      simp only [List.length_cons, strncmp, List.headD_cons, List.headD_nil, cstr,
        List.prefix_nil, reduceCtorEq, iff_false]
      rw [if_pos hc]
      omega
    | cons p ps =>
      simp only [List.length_cons, strncmp, List.headD_cons, List.tail_cons]
      by_cases hcp : c = p
      · subst hcp
        simp only [ne_eq, not_true_eq_false, if_false, hc, cstr]
        rw [ih ps hcs]
        constructor
        · intro hpre
          obtain ⟨t, ht⟩ := hpre
          exact ⟨t, by rw [List.cons_append, ht]⟩
        · intro hpre
          obtain ⟨t, ht⟩ := hpre
          rw [List.cons_append] at ht
          exact ⟨t, (List.cons.inj ht).2⟩
      · rw [if_pos hcp]
        constructor
        · intro h0
          omega
        · intro hpre
          exfalso
          unfold cstr at hpre
          split at hpre
          · simp at hpre
          · obtain ⟨t, ht⟩ := hpre
            rw [List.cons_append] at ht
            exact hcp (List.cons.inj ht).1

theorem match_key_loop_none (cs : Nat) (buf : List Nat) (hnul : ∀ c ∈ buf, c ≠ 0)
    (keys : List key_sequence_t) :
    (match_key_loop cs buf buf.length keys).1 = 0 ↔
      ∀ r ∈ keys, ¬ buf <+: cstr r.esq_seq := by
  induction keys with
  | nil => simp [match_key_loop]
  | cons r rest ih =>
    unfold match_key_loop
    by_cases hp : buf <+: cstr r.esq_seq
    · rw [if_pos ((strncmp_eq_zero_iff buf r.esq_seq hnul).mpr hp)]
      constructor
      · intro h
        split at h <;> simp at h
      · intro h
        exact absurd hp (h r (List.mem_cons_self _ _))
    · rw [if_neg (fun h => hp ((strncmp_eq_zero_iff buf r.esq_seq hnul).mp h)), ih]
      constructor
      · intro h x hx
        rcases List.mem_cons.mp hx with rfl | hx
        · exact hp
        · exact h x hx
      · intro h x hx
        exact h x (List.mem_cons_of_mem _ hx)

theorem match_key_loop_first (cs : Nat) (buf : List Nat) (hnul : ∀ c ∈ buf, c ≠ 0)
    (keys : List key_sequence_t) (i : Nat) (r : key_sequence_t)
    (hr : keys[i]? = some r) (hp : buf <+: cstr r.esq_seq)
    (hfirst : ∀ (j : Nat) (x : key_sequence_t),
      j < i → keys[j]? = some x → ¬ buf <+: cstr x.esq_seq) :
    match_key_loop cs buf buf.length keys =
      if buf.length = (cstr r.esq_seq).length then
        (2, some (r.key ||| ((cs <<< 16) % 4294967296), cs))
      else (1, none) := by
  induction keys generalizing i with
  | nil => simp at hr
  | cons k rest ih =>
    unfold match_key_loop
    cases i with
    | zero =>
      simp only [List.getElem?_cons_zero, Option.some.injEq] at hr
      subst hr
      rw [if_pos ((strncmp_eq_zero_iff buf k.esq_seq hnul).mpr hp), strlen_eq_length_cstr]
      by_cases hl : buf.length = (cstr k.esq_seq).length
      · rw [if_pos hl.symm, if_pos hl]
      · rw [if_neg (fun h => hl h.symm), if_neg hl]
    | succ j =>
      simp only [List.getElem?_cons_succ] at hr
      have hk : ¬ buf <+: cstr k.esq_seq := hfirst 0 k (by omega) (by simp)
      rw [if_neg (fun h => hk ((strncmp_eq_zero_iff buf k.esq_seq hnul).mp h))]
      apply ih j hr
      intro j2 x hj2 hx
      exact hfirst (j2 + 1) x (by omega) (by simpa using hx)

/-- C7: first-match semantics of `s_match_key_sequence`.  For every table of rules, every
console shift state and every buffer without NUL: the result is 0 exactly when the buffer is
a prefix of no rule's byte pattern; otherwise the rule of lowest index that has the buffer
as a prefix decides alone: the result is 2 when the buffer is as long as that pattern, with
`*key` that rule's key ORed with the console shift state shifted left by 16 (the rule's
key itself when that state is 0) and `*shift_state` the console shift state, and it is 1
when the buffer is shorter. -/
theorem match_key_sequence_first_match (keys : List key_sequence_t) (cs : Nat)
    (buf : List Nat) (hnul : ∀ c ∈ buf, c ≠ 0) :
    ((s_match_key_sequence keys cs buf).1 = 0 ↔ ∀ r ∈ keys, ¬ buf <+: cstr r.esq_seq) ∧
    ∀ (i : Nat) (r : key_sequence_t), keys[i]? = some r → buf <+: cstr r.esq_seq →
      (∀ (j : Nat) (x : key_sequence_t),
        j < i → keys[j]? = some x → ¬ buf <+: cstr x.esq_seq) →
      (s_match_key_sequence keys cs buf =
        if buf.length = (cstr r.esq_seq).length then
          (2, some (r.key ||| ((cs <<< 16) % 4294967296), cs))
        else (1, none)) ∧
      (buf.length ≠ (cstr r.esq_seq).length → buf.length < (cstr r.esq_seq).length) ∧
      (cs = 0 → buf.length = (cstr r.esq_seq).length →
        s_match_key_sequence keys cs buf = (2, some (r.key, 0))) := by
  unfold s_match_key_sequence
  rw [strlen_of_no_nul buf hnul]
  refine ⟨match_key_loop_none cs buf hnul keys, ?_⟩
  intro i r hr hp hfirst
  have hmain := match_key_loop_first cs buf hnul keys i r hr hp hfirst
  refine ⟨hmain, ?_, ?_⟩
  · intro hne
    have := List.IsPrefix.length_le hp
    omega
  · intro hcs hl
    rw [hmain, if_pos hl, hcs]
    simp

theorem match_key_sequence_first_match_witness :
    (∀ c ∈ [27, 91], c ≠ 0) ∧
    s_match_key_sequence
      [⟨[113], 7, none⟩, ⟨[27, 91, 65], 8, some "kcuu1"⟩, ⟨[27, 91], 9, none⟩] 0 [27, 91] =
      (1, none) ∧
    s_match_key_sequence
      [⟨[113], 7, none⟩, ⟨[27, 91, 65], 8, some "kcuu1"⟩, ⟨[27, 91], 9, none⟩] 0 [27, 91, 65] =
      (2, some (8, 0)) ∧
    ((s_match_key_sequence
      [⟨[113], 7, none⟩, ⟨[27, 91, 65], 8, some "kcuu1"⟩, ⟨[27, 91], 9, none⟩] 0 [27, 91]).1 = 0 ↔
      ∀ r ∈ [(⟨[113], 7, none⟩ : key_sequence_t), ⟨[27, 91, 65], 8, some "kcuu1"⟩,
        ⟨[27, 91], 9, none⟩], ¬ [27, 91] <+: cstr r.esq_seq) :=
  ⟨by decide, by decide, by decide,
    (match_key_sequence_first_match
      [⟨[113], 7, none⟩, ⟨[27, 91, 65], 8, some "kcuu1"⟩, ⟨[27, 91], 9, none⟩] 0 [27, 91]
      (by decide)).1⟩

/-! ### The static table `s_keys` -/

set_option maxRecDepth 100000

/-- C8 at the rule for Alt+N: rule 175 of `s_keys` has the pattern ESC `e`, the same bytes
as rule 64 (Alt+E).  Fed the bytes of rule 175 one at a time with console shift state 0,
`s_match_key_sequence` answers 1 for ESC and 2 for ESC `e`, and the key it stores is the
key of rule 64, `KEY(kbAlt, kbE)`, not the key `KEY(kbAlt, kbN)` of rule 175. -/
theorem s_keys_alt_n_yields_alt_e (K : key_consts) :
    (s_keys K)[175]? =
      some (key_sequence_t.mk [27, 101] (K.KEY K.kbAlt (K.sc key_defs.kbN)) none) ∧
    (s_keys K)[64]? =
      some (key_sequence_t.mk [27, 101] (K.KEY K.kbAlt (K.sc key_defs.kbE)) none) ∧
    s_match_key_sequence (s_keys K) 0 [27] = (1, none) ∧
    s_match_key_sequence (s_keys K) 0 [27, 101] =
      (2, some (K.KEY K.kbAlt (K.sc key_defs.kbE), 0)) := by
  refine ⟨rfl, rfl, rfl, ?_⟩
  have h : s_match_key_sequence (s_keys K) 0 [27, 101] =
      (2, some (K.KEY K.kbAlt (K.sc key_defs.kbE) ||| ((0 <<< 16) % 4294967296), 0)) := rfl
  rw [h]
  simp

/-! ### The event pump -/

/-- A silent wait slice: `select` times out, both counters grow by `DISP_SLEEP_TIME`, then
the idle timer is checked, then the key time-out. -/
theorem pump_iter_silent (K : key_consts) (keys : List key_sequence_t) (cs : Nat)
    (st : pump_state) :
    pump_iter K keys cs st slice_silent =
      if st.miliseconds + 15000 > 5000000 then
        pump_outcome.returned 1 [{ K.ev_clear with code := disp_event_code.EVENT_TIMER_5SEC }]
      else if st.key_wait_time + 15000 > 30000 then
        if st.key_buf.length = 1 ∧ st.key_buf.headD 0 = 27 then
          pump_outcome.returned 1 [{ K.ev_clear with
            code := disp_event_code.EVENT_KEY
            scan_code_only := K.sc key_defs.kbEsc
            shift_state := 0
            key := K.KEY 0 (K.sc key_defs.kbEsc) }]
        else
          pump_outcome.running
            { miliseconds := st.miliseconds + 15000
              key_wait_time := 0
              key_buf := if st.key_buf.length > 0 then [] else st.key_buf }
      else
        pump_outcome.running
          { miliseconds := st.miliseconds + 15000
            key_wait_time := st.key_wait_time + 15000
            key_buf := st.key_buf } := by
  simp [pump_iter, slice_silent, s_disp_wait_console, DISP_SLEEP_TIME, DISP_KEY_TIMEOUT]

/-- A wait slice in which a byte can be read: the counters stay, the byte is stored and
the buffer is matched. -/
theorem pump_iter_ready (K : key_consts) (keys : List key_sequence_t) (cs : Nat)
    (st : pump_state) (sl : console_slice) (hready : 0 < sl.num_files_ready) :
    pump_iter K keys cs st sl =
      if ¬ (key_buf_append st.key_buf (sl.getch % 256).toNat).length < 10 then
        pump_outcome.fault
      else
        match s_match_key_sequence keys cs
            (key_buf_append st.key_buf (sl.getch % 256).toNat) with
        | (0, _) =>
          pump_outcome.running
            { miliseconds := st.miliseconds, key_wait_time := st.key_wait_time
              key_buf := key_buf_append st.key_buf (sl.getch % 256).toNat }
        | (1, _) =>
          pump_outcome.running
            { miliseconds := st.miliseconds, key_wait_time := st.key_wait_time
              key_buf := key_buf_append st.key_buf (sl.getch % 256).toNat }
        | (2, some (key, shift_state)) =>
          pump_outcome.returned 1 [{ K.ev_clear with
            code := disp_event_code.EVENT_KEY
            scan_code_only := ((key >>> 16) &&& 255) % 256
            shift_state := shift_state
            key := key }]
        | _ => pump_outcome.fault := by
  have h0 : sl.num_files_ready ≠ 0 := by omega
  simp [pump_iter, s_disp_wait_console, h0, hready]

theorem pump_iter_byte (K : key_consts) (keys : List key_sequence_t) (cs : Nat)
    (st : pump_state) (c : Nat) (hc : c < 256) :
    pump_iter K keys cs st (slice_byte c) =
      if ¬ (key_buf_append st.key_buf c).length < 10 then pump_outcome.fault
      else
        match s_match_key_sequence keys cs (key_buf_append st.key_buf c) with
        | (0, _) =>
          pump_outcome.running
            { miliseconds := st.miliseconds, key_wait_time := st.key_wait_time
              key_buf := key_buf_append st.key_buf c }
        | (1, _) =>
          pump_outcome.running
            { miliseconds := st.miliseconds, key_wait_time := st.key_wait_time
              key_buf := key_buf_append st.key_buf c }
        | (2, some (key, shift_state)) =>
          pump_outcome.returned 1 [{ K.ev_clear with
            code := disp_event_code.EVENT_KEY
            scan_code_only := ((key >>> 16) &&& 255) % 256
            shift_state := shift_state
            key := key }]
        | _ => pump_outcome.fault := by
  have h1 : ((slice_byte c).getch % 256).toNat = c := by
    simp only [slice_byte]
    omega
  have h := pump_iter_ready K keys cs st (slice_byte c) (by simp [slice_byte])
  rw [h1] at h
  exact h

/-- Silent wait slices with nothing pending, before the idle threshold: after `m` of them
`miliseconds` is `15000 * m` and `key_wait_time` is `15000 * (m % 3)`. -/
theorem pump_loop_idle (K : key_consts) (keys : List key_sequence_t) (cs : Nat)
    (n : Nat) (rest : List console_slice) :
    ∀ m : Nat, m + n ≤ 333 →
      pump_loop K keys cs
          { miliseconds := 15000 * m, key_wait_time := 15000 * (m % 3), key_buf := [] }
          (List.replicate n slice_silent ++ rest) =
        pump_loop K keys cs
          { miliseconds := 15000 * (m + n), key_wait_time := 15000 * ((m + n) % 3)
            key_buf := [] } rest := by
  induction n with
  | zero => intro m _; rfl
  | succ n ih =>
    intro m hm
    rw [List.replicate_succ, List.cons_append, pump_loop, pump_iter_silent]
    simp only [List.length_nil, gt_iff_lt, lt_self_iff_false, if_false]
    rw [if_neg (by omega)]
    have hstep := ih (m + 1) (by omega)
    have e1 : 15000 * m + 15000 = 15000 * (m + 1) := by ring
    have e2 : m + 1 + n = m + (n + 1) := by ring
    by_cases h3 : 30000 < 15000 * (m % 3) + 15000
    · rw [if_pos h3]
      simp only [zero_ne_one, false_and, if_false]
      have e3 : 15000 * ((m + 1) % 3) = 0 := by omega
      rw [e1, ← e2, ← hstep, e3]
    · rw [if_neg h3]
      have e3 : 15000 * (m % 3) + 15000 = 15000 * ((m + 1) % 3) := by omega
      rw [e1, e3, ← e2, ← hstep]

/-- In `s_keys` the single byte ESC is the start of longer patterns only. -/
theorem s_keys_match_esc (K : key_consts) :
    s_match_key_sequence (s_keys K) 0 [27] = (1, none) := rfl

/-- C9 at the idle threshold: 333 silent wait slices, then the byte ESC, then silence.  The
next silent slice is the 334th, `miliseconds` passes 5 000 000 and the invocation returns 1
having put the one event `EVENT_TIMER_5SEC`; the pending ESC is dropped with the locals and
no key event for ESC is put. -/
theorem bare_esc_dropped_at_idle_threshold (K : key_consts) (more : List console_slice) :
    s_disp_process_events K (s_keys K) 0
        (List.replicate 333 slice_silent ++ ([slice_byte 27] ++ slice_silent :: more)) =
      pump_outcome.returned 1
        [{ K.ev_clear with code := disp_event_code.EVENT_TIMER_5SEC }] ∧
    s_disp_process_events K (s_keys K) 0 (List.replicate 333 slice_silent ++ [slice_byte 27]) =
      pump_outcome.running { miliseconds := 4995000, key_wait_time := 0, key_buf := [27] } := by
  have h0 := pump_loop_idle K (s_keys K) 0 333
  simp only [Nat.mul_zero, Nat.zero_mod] at h0
  constructor
  · unfold s_disp_process_events
    have h := h0 ([slice_byte 27] ++ slice_silent :: more) 0 (by omega)
    simp only [Nat.mul_zero, Nat.zero_mod] at h
    rw [h]
    simp only [List.singleton_append, pump_loop, pump_iter_byte K (s_keys K) 0 _ 27 (by omega)]
    simp [key_buf_append, s_keys_match_esc, pump_loop, pump_iter_silent]
  · unfold s_disp_process_events
    have h := h0 [slice_byte 27] 0 (by omega)
    simp only [Nat.mul_zero, Nat.zero_mod] at h
    rw [h]
    simp only [pump_loop, pump_iter_byte K (s_keys K) 0 _ 27 (by omega)]
    simp [key_buf_append, s_keys_match_esc]

/-- A silent wait slice while a lone ESC is pending. -/
theorem pump_iter_silent_esc (K : key_consts) (keys : List key_sequence_t) (cs : Nat)
    (ms kwt : Nat) :
    pump_iter K keys cs { miliseconds := ms, key_wait_time := kwt, key_buf := [27] }
        slice_silent =
      if ms + 15000 > 5000000 then
        pump_outcome.returned 1 [{ K.ev_clear with code := disp_event_code.EVENT_TIMER_5SEC }]
      else if kwt + 15000 > 30000 then
        pump_outcome.returned 1 [{ K.ev_clear with
          code := disp_event_code.EVENT_KEY
          scan_code_only := K.sc key_defs.kbEsc
          shift_state := 0
          key := K.KEY 0 (K.sc key_defs.kbEsc) }]
      else
        pump_outcome.running
          { miliseconds := ms + 15000, key_wait_time := kwt + 15000, key_buf := [27] } := by
  rw [pump_iter_silent]
  simp

/-- Away from the idle threshold the bare ESC is delivered: after at most 332 silent wait
slices the byte ESC followed by silence makes the invocation return 1 with the one key
event for ESC, within three silent slices. -/
theorem bare_esc_delivered_before_threshold (K : key_consts) (n : Nat) (hn : n ≤ 332)
    (more : List console_slice) :
    s_disp_process_events K (s_keys K) 0
        (List.replicate n slice_silent ++
          (slice_byte 27 :: slice_silent :: slice_silent :: slice_silent :: more)) =
      pump_outcome.returned 1 [{ K.ev_clear with
        code := disp_event_code.EVENT_KEY
        scan_code_only := K.sc key_defs.kbEsc
        shift_state := 0
        key := K.KEY 0 (K.sc key_defs.kbEsc) }] := by
  unfold s_disp_process_events
  have h := pump_loop_idle K (s_keys K) 0 n
    (slice_byte 27 :: slice_silent :: slice_silent :: slice_silent :: more) 0 (by omega)
  simp only [Nat.mul_zero, Nat.zero_mod, Nat.zero_add] at h
  rw [h]
  have hb : key_buf_append [] 27 = [27] := rfl
  rw [pump_loop, pump_iter_byte K (s_keys K) 0 _ 27 (by omega)]
  simp only [hb, List.length_singleton, s_keys_match_esc]
  rw [if_neg (by omega)]
  simp only
  have h3 : n % 3 = 0 ∨ n % 3 = 1 ∨ n % 3 = 2 := by omega
  rcases h3 with h3 | h3 | h3
  · rw [h3, pump_loop, pump_iter_silent_esc, if_neg (by omega), if_neg (by omega)]
    simp only
    rw [pump_loop, pump_iter_silent_esc, if_neg (by omega), if_neg (by omega)]
    simp only
    rw [pump_loop, pump_iter_silent_esc, if_neg (by omega), if_pos (by omega)]
  · rw [h3, pump_loop, pump_iter_silent_esc, if_neg (by omega), if_neg (by omega)]
    simp only
    rw [pump_loop, pump_iter_silent_esc, if_neg (by omega), if_pos (by omega)]
  · rw [h3, pump_loop, pump_iter_silent_esc, if_neg (by omega), if_pos (by omega)]

/-- The claim of C10 fails: byte 28 is the start of no pattern of `s_keys`, the matcher
answers 0 for it, and the pass of the loop that read it leaves it pending (`key_cnt` is 1,
not 0).  The byte `a` read right after it is matched as part of the buffer 28, `a`, which
matches nothing either: no key event for `a` is put and the loop goes on waiting. -/
theorem no_match_reset_counterexample :
    s_match_key_sequence (s_keys key_consts_sample) 0 [28] = (0, none) ∧
    pump_iter key_consts_sample (s_keys key_consts_sample) 0
        { miliseconds := 0, key_wait_time := 0, key_buf := [] } (slice_byte 28) =
      pump_outcome.running { miliseconds := 0, key_wait_time := 0, key_buf := [28] } ∧
    s_disp_process_events key_consts_sample (s_keys key_consts_sample) 0
        [slice_byte 28, slice_byte 97] =
      pump_outcome.running { miliseconds := 0, key_wait_time := 0, key_buf := [28, 97] } := by
  decide

/-! ### ESC while bytes are pending -/

/-- The rules of `s_keys` with a pattern of three bytes, in table order. -/
theorem s_keys_three_bytes (K : key_consts) :
    (s_keys K).filter (fun r => decide (r.esq_seq.length = 3)) =
      [key_sequence_t.mk [27, 91, 77] 127 none,
       key_sequence_t.mk [27, 91, 80] 127 none,
       key_sequence_t.mk [27, 91, 65] (K.KEY 0 (K.sc key_defs.kbUp)) (some "kcuu1"),
       key_sequence_t.mk [27, 91, 66] (K.KEY 0 (K.sc key_defs.kbDown)) (some "kcud1"),
       key_sequence_t.mk [27, 91, 68] (K.KEY 0 (K.sc key_defs.kbLeft)) (some "kcub1"),
       key_sequence_t.mk [27, 91, 67] (K.KEY 0 (K.sc key_defs.kbRight)) (some "kcuf1"),
       key_sequence_t.mk [27, 91, 65] (K.KEY 0 (K.sc key_defs.kbUp)) none,
       key_sequence_t.mk [27, 91, 66] (K.KEY 0 (K.sc key_defs.kbDown)) none,
       key_sequence_t.mk [27, 91, 68] (K.KEY 0 (K.sc key_defs.kbLeft)) none,
       key_sequence_t.mk [27, 91, 67] (K.KEY 0 (K.sc key_defs.kbRight)) none,
       key_sequence_t.mk [27, 91, 72] (K.KEY 0 (K.sc key_defs.kbHome)) none,
       key_sequence_t.mk [27, 91, 70] (K.KEY 0 (K.sc key_defs.kbEnd)) none] := rfl

/-- Every rule of `s_keys` with a pattern of three bytes starts with ESC `[`, and its
pattern is matched completely with the key of the rule. -/
theorem s_keys_three_bytes_match (K : key_consts) (cs : Nat) (r : key_sequence_t)
    (hr : r ∈ s_keys K) (hl : r.esq_seq.length = 3) :
    ∃ c : Nat, c < 256 ∧ c ≠ 27 ∧ r.esq_seq = [27, 91, c] ∧
      s_match_key_sequence (s_keys K) cs [27, 91, c] =
        (2, some (r.key ||| ((cs <<< 16) % 4294967296), cs)) := by
  have hmem : r ∈ (s_keys K).filter (fun r => decide (r.esq_seq.length = 3)) := by
    rw [List.mem_filter]
    exact ⟨hr, by simpa using hl⟩
  rw [s_keys_three_bytes] at hmem
  simp only [List.mem_cons, List.mem_singleton, List.not_mem_nil, or_false] at hmem
  rcases hmem with h | h | h | h | h | h | h | h | h | h | h | h <;> subst h
  · exact ⟨77, by omega, by omega, rfl, rfl⟩
  · exact ⟨80, by omega, by omega, rfl, rfl⟩
  · exact ⟨65, by omega, by omega, rfl, rfl⟩
  · exact ⟨66, by omega, by omega, rfl, rfl⟩
  · exact ⟨68, by omega, by omega, rfl, rfl⟩
  · exact ⟨67, by omega, by omega, rfl, rfl⟩
  · exact ⟨65, by omega, by omega, rfl, rfl⟩
  · exact ⟨66, by omega, by omega, rfl, rfl⟩
  · exact ⟨68, by omega, by omega, rfl, rfl⟩
  · exact ⟨67, by omega, by omega, rfl, rfl⟩
  · exact ⟨72, by omega, by omega, rfl, rfl⟩
  · exact ⟨70, by omega, by omega, rfl, rfl⟩

/-- C11: ESC with two or more bytes pending.  When the byte ESC is read while at least two
bytes are accumulated, the old bytes are discarded and the buffer then holds exactly that
ESC: the pass of the loop is the pass it would be with nothing pending.  So for the table
`s_keys`: the first two bytes of a rule with a pattern of three bytes, followed without a
time-out by the three bytes of a rule with a pattern of three bytes (all of these start with
ESC), make the invocation return with exactly one event put, the key event of the second
rule. -/
theorem esc_discards_pending (K : key_consts) (keys : List key_sequence_t) (cs : Nat)
    (st : pump_state) (sl : console_slice)
    (hready : 0 < sl.num_files_ready) (hesc : (sl.getch % 256).toNat = 27)
    (h2 : 2 ≤ st.key_buf.length) :
    key_buf_append st.key_buf 27 = [27] ∧
    pump_iter K keys cs st sl = pump_iter K keys cs { st with key_buf := [] } sl ∧
    ∀ (r1 r2 : key_sequence_t), r1 ∈ s_keys K → r2 ∈ s_keys K →
      r1.esq_seq.length = 3 → r2.esq_seq.length = 3 →
      ∀ more : List console_slice,
        s_disp_process_events K (s_keys K) cs
            ((r1.esq_seq.take 2 ++ r2.esq_seq).map slice_byte ++ more) =
          pump_outcome.returned 1 [{ K.ev_clear with
            code := disp_event_code.EVENT_KEY
            scan_code_only :=
              (((r2.key ||| ((cs <<< 16) % 4294967296)) >>> 16) &&& 255) % 256
            shift_state := cs
            key := r2.key ||| ((cs <<< 16) % 4294967296) }] := by
  have happ : key_buf_append st.key_buf 27 = [27] := by
    unfold key_buf_append
    rw [if_pos ⟨rfl, by omega⟩]
    simp
  refine ⟨happ, ?_, ?_⟩
  · rw [pump_iter_ready K keys cs st sl hready,
      pump_iter_ready K keys cs { st with key_buf := [] } sl hready, hesc, happ]
    rfl
  · intro r1 r2 hr1 hr2 hl1 hl2 more
    obtain ⟨c1, _, _, hp1, _⟩ := s_keys_three_bytes_match K cs r1 hr1 hl1
    obtain ⟨c2, hc2, hne2, hp2, hm2⟩ := s_keys_three_bytes_match K cs r2 hr2 hl2
    have m1 : s_match_key_sequence (s_keys K) cs [27] = (1, none) := rfl
    have m2 : s_match_key_sequence (s_keys K) cs [27, 91] = (1, none) := rfl
    have b1 : key_buf_append [] 27 = [27] := rfl
    have b2 : key_buf_append [27] 91 = [27, 91] := rfl
    have b3 : key_buf_append [27, 91] 27 = [27] := rfl
    have b4 : key_buf_append [27, 91] c2 = [27, 91, c2] := by
      simp [key_buf_append, hne2]
    rw [hp1, hp2]
    simp only [List.take_succ_cons, List.take_zero, List.cons_append, List.nil_append,
      List.map_cons, List.map_nil]
    unfold s_disp_process_events
    rw [pump_loop, pump_iter_byte K (s_keys K) cs _ 27 (by omega)]
    simp only [b1, m1, List.length_singleton]
    rw [if_neg (by omega)]
    simp only
    rw [pump_loop, pump_iter_byte K (s_keys K) cs _ 91 (by omega)]
    simp only [b2, m2, List.length_cons, List.length_nil]
    rw [if_neg (by omega)]
    simp only
    rw [pump_loop, pump_iter_byte K (s_keys K) cs _ 27 (by omega)]
    simp only [b3, m1, List.length_singleton]
    rw [if_neg (by omega)]
    simp only
    rw [pump_loop, pump_iter_byte K (s_keys K) cs _ 91 (by omega)]
    simp only [b2, m2, List.length_cons, List.length_nil]
    rw [if_neg (by omega)]
    simp only
    rw [pump_loop, pump_iter_byte K (s_keys K) cs _ c2 hc2]
    simp only [b4, hm2, List.length_cons, List.length_nil]
    rw [if_neg (by omega)]

theorem esc_discards_pending_witness :
    0 < (slice_byte 27).num_files_ready ∧ (((slice_byte 27).getch % 256).toNat = 27) ∧
    2 ≤ [27, 91].length ∧
    key_buf_append [27, 91] 27 = [27] ∧
    pump_iter key_consts_sample (s_keys key_consts_sample) 0
        { miliseconds := 0, key_wait_time := 0, key_buf := [27, 91] } (slice_byte 27) =
      pump_outcome.running { miliseconds := 0, key_wait_time := 0, key_buf := [27] } ∧
    s_disp_process_events key_consts_sample (s_keys key_consts_sample) 0
        ([27, 91, 27, 91, 66].map slice_byte) =
      pump_outcome.returned 1 [⟨disp_event_code.EVENT_KEY, 0, 0, 18176⟩] :=
  ⟨by decide, by decide, by decide,
    (esc_discards_pending key_consts_sample (s_keys key_consts_sample) 0
      { miliseconds := 0, key_wait_time := 0, key_buf := [27, 91] } (slice_byte 27)
      (by decide) (by decide) (by decide)).1,
    by decide, by decide⟩

/-- C12 at two ESC bytes: the test before the store is `key_cnt > 1`, so an ESC read while
exactly one byte is pending is stored behind that byte, at index 1 of `key_buf`.  In the
table `s_keys`, ESC ESC leaves the buffer 27, 27 pending, and the unrecognised byte 28
followed by ESC leaves 28, 27 pending: ESC sits at index 1, against the rule stated in the
comment of the source (ESC only at the start). -/
theorem esc_stored_at_index_one (K : key_consts) :
    (∀ b : Nat, key_buf_append [b] 27 = [b, 27]) ∧
    s_disp_process_events K (s_keys K) 0 [slice_byte 27, slice_byte 27] =
      pump_outcome.running { miliseconds := 0, key_wait_time := 0, key_buf := [27, 27] } ∧
    s_disp_process_events K (s_keys K) 0 [slice_byte 28, slice_byte 27] =
      pump_outcome.running { miliseconds := 0, key_wait_time := 0, key_buf := [28, 27] } :=
  ⟨fun _ => rfl, rfl, rfl⟩

/-- C15 at ten unmatched bytes: the unrecognised byte 28 read ten times without a time-out.
Nine of them are pending after nine passes (`key_cnt` is 9, which is not
`sizeof(key_buf)`, so there is no reset); the tenth is stored at index 9, `key_cnt` becomes
10 and the NUL is stored at `key_buf[10]`, one past the last element of `key_buf`. -/
theorem key_buf_nul_stored_past_end (K : key_consts) :
    s_disp_process_events K (s_keys K) 0 (List.replicate 9 (slice_byte 28)) =
      pump_outcome.running
        { miliseconds := 0, key_wait_time := 0, key_buf := List.replicate 9 28 } ∧
    (key_buf_append (List.replicate 9 28) 28).length = 10 ∧
    s_disp_process_events K (s_keys K) 0 (List.replicate 10 (slice_byte 28)) =
      pump_outcome.fault :=
  ⟨rfl, rfl, rfl⟩

/-! ### Runs of the event pump -/

/-- A wait slice without a byte to read (time-out, or wait ended by a signal). -/
theorem pump_iter_not_ready (K : key_consts) (keys : List key_sequence_t) (cs : Nat)
    (st : pump_state) (sl : console_slice) (hnr : ¬ 0 < sl.num_files_ready) :
    pump_iter K keys cs st sl =
      if st.miliseconds + (s_disp_wait_console sl.num_files_ready).1 > 5000000 then
        pump_outcome.returned 1 [{ K.ev_clear with code := disp_event_code.EVENT_TIMER_5SEC }]
      else if st.key_wait_time + (s_disp_wait_console sl.num_files_ready).1 > 30000 then
        if st.key_buf.length = 1 ∧ st.key_buf.headD 0 = 27 then
          pump_outcome.returned 1 [{ K.ev_clear with
            code := disp_event_code.EVENT_KEY
            scan_code_only := K.sc key_defs.kbEsc
            shift_state := 0
            key := K.KEY 0 (K.sc key_defs.kbEsc) }]
        else
          pump_outcome.running
            { miliseconds := st.miliseconds + (s_disp_wait_console sl.num_files_ready).1
              key_wait_time := 0
              key_buf := if st.key_buf.length > 0 then [] else st.key_buf }
      else
        pump_outcome.running
          { miliseconds := st.miliseconds + (s_disp_wait_console sl.num_files_ready).1
            key_wait_time := st.key_wait_time + (s_disp_wait_console sl.num_files_ready).1
            key_buf := st.key_buf } := by
  have h2 : (s_disp_wait_console sl.num_files_ready).2 = false := by
    simp [s_disp_wait_console, hnr]
  unfold pump_iter
  simp only [h2, if_true, DISP_KEY_TIMEOUT]

/-- The three ways a pass of the loop returns: the idle timer, the lone ESC at the key
time-out, and the complete match. -/
theorem pump_iter_returned {K : key_consts} {keys : List key_sequence_t} {cs : Nat}
    {st : pump_state} {sl : console_slice} {ret : Int} {puts : List disp_event_t}
    (h : pump_iter K keys cs st sl = pump_outcome.returned ret puts) :
    ret = 1 ∧
    ((¬ 0 < sl.num_files_ready ∧
        st.miliseconds + (s_disp_wait_console sl.num_files_ready).1 > 5000000 ∧
        puts = [{ K.ev_clear with code := disp_event_code.EVENT_TIMER_5SEC }]) ∨
     (¬ 0 < sl.num_files_ready ∧
        ¬ st.miliseconds + (s_disp_wait_console sl.num_files_ready).1 > 5000000 ∧
        st.key_wait_time + (s_disp_wait_console sl.num_files_ready).1 > 30000 ∧
        st.key_buf = [27] ∧
        puts = [{ K.ev_clear with
          code := disp_event_code.EVENT_KEY
          scan_code_only := K.sc key_defs.kbEsc
          shift_state := 0
          key := K.KEY 0 (K.sc key_defs.kbEsc) }]) ∨
     (0 < sl.num_files_ready ∧ ∃ key shift_state : Nat,
        s_match_key_sequence keys cs
          (key_buf_append st.key_buf (sl.getch % 256).toNat) = (2, some (key, shift_state)) ∧
        puts = [{ K.ev_clear with
          code := disp_event_code.EVENT_KEY
          scan_code_only := ((key >>> 16) &&& 255) % 256
          shift_state := shift_state
          key := key }])) := by
  by_cases hready : 0 < sl.num_files_ready
  · rw [pump_iter_ready K keys cs st sl hready] at h
    split at h
    · simp at h
    · split at h
      · simp at h
      · simp at h
      · rename_i key shift_state hm
        simp only [pump_outcome.returned.injEq] at h
        exact ⟨h.1.symm, Or.inr (Or.inr ⟨hready, key, shift_state, hm, h.2.symm⟩)⟩
      · simp at h
  · rw [pump_iter_not_ready K keys cs st sl hready] at h
    split at h
    · rename_i h5
      simp only [pump_outcome.returned.injEq] at h
      exact ⟨h.1.symm, Or.inl ⟨hready, h5, h.2.symm⟩⟩
    · rename_i h5
      split at h
      · rename_i hk
        split at h
        · rename_i hesc
          simp only [pump_outcome.returned.injEq] at h
          refine ⟨h.1.symm, Or.inr (Or.inl ⟨hready, h5, hk, ?_, h.2.symm⟩)⟩
          obtain ⟨hl, hh⟩ := hesc
          match hb : st.key_buf, hl, hh with
          | [b], _, hh =>
            simp only [List.headD_cons] at hh
            rw [hh]
        · simp at h
      · simp at h

/-- A run that returns does so in one pass of the loop, and the loop was still running
after all passes before it. -/
theorem pump_loop_returned {K : key_consts} {keys : List key_sequence_t} {cs : Nat}
    {ret : Int} {puts : List disp_event_t} (input : List console_slice) :
    ∀ st0 : pump_state,
      pump_loop K keys cs st0 input = pump_outcome.returned ret puts →
      ∃ (pre post : List console_slice) (sl : console_slice) (st : pump_state),
        input = pre ++ sl :: post ∧
        pump_loop K keys cs st0 pre = pump_outcome.running st ∧
        pump_iter K keys cs st sl = pump_outcome.returned ret puts := by
  induction input with
  | nil =>
    intro st0 h
    simp [pump_loop] at h
  | cons sl rest ih =>
    intro st0 h
    rw [pump_loop] at h
    split at h
    · rename_i st1 hit
      obtain ⟨pre, post, sl1, st, hin, hrun, hret⟩ := ih st1 h
      refine ⟨sl :: pre, post, sl1, st, by rw [hin]; rfl, ?_, hret⟩
      rw [pump_loop, hit]
      exact hrun
    · rename_i r p hit
      simp only [pump_outcome.returned.injEq] at h
      refine ⟨[], rest, sl, st0, rfl, rfl, ?_⟩
      rw [hit, h.1, h.2]
    · simp at h

/-- C14: one event per pump invocation.  Every run of `s_disp_process_events` that returns
returns 1 and has put exactly one event, in its last pass of the loop: the loop was still
running, nothing put, after all passes before it.  The event is `EVENT_TIMER_5SEC` (put at
a slice without input), or the key event of a lone ESC (put at a slice without input, with
the buffer holding just ESC), or the key event that carries the key and the shift state
stored by the complete match of the buffer in that pass. -/
theorem one_event_per_invocation (K : key_consts) (keys : List key_sequence_t) (cs : Nat)
    (input : List console_slice) (ret : Int) (puts : List disp_event_t)
    (h : s_disp_process_events K keys cs input = pump_outcome.returned ret puts) :
    ret = 1 ∧
    ∃ (pre post : List console_slice) (sl : console_slice) (st : pump_state),
      input = pre ++ sl :: post ∧
      s_disp_process_events K keys cs pre = pump_outcome.running st ∧
      ((¬ 0 < sl.num_files_ready ∧
          puts = [{ K.ev_clear with code := disp_event_code.EVENT_TIMER_5SEC }]) ∨
       (¬ 0 < sl.num_files_ready ∧ st.key_buf = [27] ∧
          puts = [{ K.ev_clear with
            code := disp_event_code.EVENT_KEY
            scan_code_only := K.sc key_defs.kbEsc
            shift_state := 0
            key := K.KEY 0 (K.sc key_defs.kbEsc) }]) ∨
       (0 < sl.num_files_ready ∧ ∃ key shift_state : Nat,
          s_match_key_sequence keys cs
            (key_buf_append st.key_buf (sl.getch % 256).toNat) =
              (2, some (key, shift_state)) ∧
          puts = [{ K.ev_clear with
            code := disp_event_code.EVENT_KEY
            scan_code_only := ((key >>> 16) &&& 255) % 256
            shift_state := shift_state
            key := key }])) := by
  unfold s_disp_process_events at h ⊢
  obtain ⟨pre, post, sl, st, hin, hrun, hret⟩ := pump_loop_returned input _ h
  obtain ⟨hr, hcases⟩ := pump_iter_returned hret
  refine ⟨hr, pre, post, sl, st, hin, hrun, ?_⟩
  rcases hcases with ⟨h1, _, h3⟩ | ⟨h1, _, _, h4, h5⟩ | h3
  · exact Or.inl ⟨h1, h3⟩
  · exact Or.inr (Or.inl ⟨h1, h4, h5⟩)
  · exact Or.inr (Or.inr h3)

theorem one_event_per_invocation_witness :
    s_disp_process_events key_consts_sample (s_keys key_consts_sample) 0 [slice_byte 97] =
      pump_outcome.returned 1 [⟨disp_event_code.EVENT_KEY, 0, 0, 7521⟩] ∧
    ((1 : Int) = 1 ∧
    ∃ (pre post : List console_slice) (sl : console_slice) (st : pump_state),
      [slice_byte 97] = pre ++ sl :: post ∧
      s_disp_process_events key_consts_sample (s_keys key_consts_sample) 0 pre =
        pump_outcome.running st ∧
      ((¬ 0 < sl.num_files_ready ∧
          [(⟨disp_event_code.EVENT_KEY, 0, 0, 7521⟩ : disp_event_t)] =
            [{ key_consts_sample.ev_clear with code := disp_event_code.EVENT_TIMER_5SEC }]) ∨
       (¬ 0 < sl.num_files_ready ∧ st.key_buf = [27] ∧
          [(⟨disp_event_code.EVENT_KEY, 0, 0, 7521⟩ : disp_event_t)] =
            [{ key_consts_sample.ev_clear with
              code := disp_event_code.EVENT_KEY
              scan_code_only := key_consts_sample.sc key_defs.kbEsc
              shift_state := 0
              key := key_consts_sample.KEY 0 (key_consts_sample.sc key_defs.kbEsc) }]) ∨
       (0 < sl.num_files_ready ∧ ∃ key shift_state : Nat,
          s_match_key_sequence (s_keys key_consts_sample) 0
            (key_buf_append st.key_buf (sl.getch % 256).toNat) =
              (2, some (key, shift_state)) ∧
          [(⟨disp_event_code.EVENT_KEY, 0, 0, 7521⟩ : disp_event_t)] =
            [{ key_consts_sample.ev_clear with
              code := disp_event_code.EVENT_KEY
              scan_code_only := ((key >>> 16) &&& 255) % 256
              shift_state := shift_state
              key := key }]))) :=
  ⟨by decide,
    one_event_per_invocation key_consts_sample (s_keys key_consts_sample) 0 [slice_byte 97] 1
      [⟨disp_event_code.EVENT_KEY, 0, 0, 7521⟩] (by decide)⟩

/-! ### The idle counter -/

theorem timed_out_slices_cons (sl : console_slice) (rest : List console_slice) :
    timed_out_slices (sl :: rest) =
      (if sl.num_files_ready = 0 then 1 else 0) + timed_out_slices rest := by
  unfold timed_out_slices
  by_cases h : sl.num_files_ready = 0
  · simp [List.filter_cons, h]
    omega
  · simp [List.filter_cons, h]

theorem timed_out_slices_append (pre post : List console_slice) :
    timed_out_slices (pre ++ post) = timed_out_slices pre + timed_out_slices post := by
  unfold timed_out_slices
  simp

/-- A pass that leaves the loop running has added the elapsed time of its wait slice to
`miliseconds`, which is still at most 5 000 000. -/
theorem pump_iter_running_miliseconds {K : key_consts} {keys : List key_sequence_t}
    {cs : Nat} {st st1 : pump_state} {sl : console_slice}
    (h : pump_iter K keys cs st sl = pump_outcome.running st1) :
    st1.miliseconds = st.miliseconds + (if sl.num_files_ready = 0 then 15000 else 0) ∧
    (st.miliseconds ≤ 5000000 → st1.miliseconds ≤ 5000000) := by
  by_cases hready : 0 < sl.num_files_ready
  · have h0 : sl.num_files_ready ≠ 0 := by omega
    rw [pump_iter_ready K keys cs st sl hready] at h
    rw [if_neg h0]
    split at h
    · simp at h
    · split at h
      · simp only [pump_outcome.running.injEq] at h
        rw [← h]
        exact ⟨rfl, fun hle => hle⟩
      · simp only [pump_outcome.running.injEq] at h
        rw [← h]
        exact ⟨rfl, fun hle => hle⟩
      · simp at h
      · simp at h
  · rw [pump_iter_not_ready K keys cs st sl hready] at h
    have he : (s_disp_wait_console sl.num_files_ready).1 =
        if sl.num_files_ready = 0 then 15000 else 0 := by
      simp [s_disp_wait_console, DISP_SLEEP_TIME]
    rw [he] at h
    generalize (if sl.num_files_ready = 0 then 15000 else 0) = e at h ⊢
    split at h
    · simp at h
    · rename_i h5
      split at h
      · split at h
        · simp at h
        · simp only [pump_outcome.running.injEq] at h
          rw [← h]
          exact ⟨rfl, fun _ => by simp only; omega⟩
      · simp only [pump_outcome.running.injEq] at h
        rw [← h]
        exact ⟨rfl, fun _ => by simp only; omega⟩

/-- While the loop runs, `miliseconds` is 15 000 times the number of wait slices that have
timed out since the invocation began, whatever was read in between. -/
theorem pump_loop_miliseconds {K : key_consts} {keys : List key_sequence_t} {cs : Nat}
    (input : List console_slice) :
    ∀ st0 st : pump_state,
      pump_loop K keys cs st0 input = pump_outcome.running st →
      st.miliseconds = st0.miliseconds + 15000 * timed_out_slices input ∧
      (st0.miliseconds ≤ 5000000 → st.miliseconds ≤ 5000000) := by
  induction input with
  | nil =>
    intro st0 st h
    simp only [pump_loop, pump_outcome.running.injEq] at h
    rw [← h]
    exact ⟨by simp [timed_out_slices], fun hle => hle⟩
  | cons sl rest ih =>
    intro st0 st h
    rw [pump_loop] at h
    split at h
    · rename_i st1 hit
      obtain ⟨h1, h2⟩ := pump_iter_running_miliseconds hit
      obtain ⟨h3, h4⟩ := ih st1 st h
      refine ⟨?_, fun hle => h4 (h2 hle)⟩
      rw [h3, h1, timed_out_slices_cons]
      split <;> omega
    · simp at h
    · simp at h

theorem pump_loop_append {K : key_consts} {keys : List key_sequence_t} {cs : Nat}
    (pre : List console_slice) :
    ∀ (st0 st : pump_state) (post : List console_slice),
      pump_loop K keys cs st0 pre = pump_outcome.running st →
      pump_loop K keys cs st0 (pre ++ post) = pump_loop K keys cs st post := by
  induction pre with
  | nil =>
    intro st0 st post h
    simp only [pump_loop, pump_outcome.running.injEq] at h
    rw [h]
    rfl
  | cons sl rest ih =>
    intro st0 st post h
    rw [pump_loop] at h
    rw [List.cons_append, pump_loop]
    cases hit : pump_iter K keys cs st0 sl with
    | running st1 =>
      rw [hit] at h
      exact ih st1 st post h
    | returned r p =>
      rw [hit] at h
      simp at h
    | fault =>
      rw [hit] at h
      simp at h

/-- Silence before and after a byte that completes nothing adds up: 200 silent wait slices,
the unrecognised byte 28, then 134 silent wait slices end in the timer event. -/
theorem pump_timer_after_unmatched_byte (K : key_consts) (more : List console_slice) :
    s_disp_process_events K (s_keys K) 0
        (List.replicate 200 slice_silent ++ ([slice_byte 28] ++
          (List.replicate 134 slice_silent ++ more))) =
      pump_outcome.returned 1
        [{ K.ev_clear with code := disp_event_code.EVENT_TIMER_5SEC }] := by
  have hl : List.replicate 134 slice_silent ++ more =
      slice_silent :: (List.replicate 132 slice_silent ++ slice_silent :: more) := by
    have h1 : List.replicate 134 slice_silent =
        slice_silent :: (List.replicate 132 slice_silent ++ [slice_silent]) := by decide
    rw [h1]
    simp
  have m1 : s_match_key_sequence (s_keys K) 0 [28] = (0, none) := rfl
  have b1 : key_buf_append [] 28 = [28] := rfl
  have i1 := pump_loop_idle K (s_keys K) 0 200
    ([slice_byte 28] ++ (List.replicate 134 slice_silent ++ more)) 0 (by omega)
  have i2 := pump_loop_idle K (s_keys K) 0 132 (slice_silent :: more) 201 (by omega)
  simp only [Nat.mul_zero, Nat.zero_mod, Nat.zero_add, Nat.reduceMul, Nat.reduceMod,
    Nat.reduceAdd] at i1 i2
  unfold s_disp_process_events
  rw [i1, hl, List.singleton_append, pump_loop, pump_iter_byte K (s_keys K) 0 _ 28 (by omega)]
  simp only [b1, m1, List.length_singleton]
  rw [if_neg (by omega)]
  simp only
  rw [pump_loop, pump_iter_silent]
  simp only [Nat.reduceAdd, gt_iff_lt, Nat.reduceLT, if_false, if_true,
    List.length_singleton, List.headD_cons, Nat.reduceEqDiff, and_false, zero_lt_one]
  rw [i2, pump_loop, pump_iter_silent]
  simp

/-- The claim of C13 fails: in this run the byte 28 is read after 200 silent wait slices,
3 000 000 microseconds into the invocation, and only 134 silent wait slices, 2 010 000
microseconds, follow it, yet the invocation returns with the timer event: the silence before
the byte is counted. -/
theorem idle_timer_counterexample :
    15000 * 200 ≤ 5000000 ∧ 15000 * 134 ≤ 5000000 ∧
    s_disp_process_events key_consts_sample (s_keys key_consts_sample) 0
        (List.replicate 200 slice_silent ++ ([slice_byte 28] ++
          (List.replicate 134 slice_silent ++ []))) =
      pump_outcome.returned 1 [⟨disp_event_code.EVENT_TIMER_5SEC, 0, 0, 0⟩] :=
  ⟨by decide, by decide, pump_timer_after_unmatched_byte key_consts_sample []⟩

/-- C13, amended: the idle timer counts all the silence of the invocation.  A run of
`s_disp_process_events` that returns with the event `EVENT_TIMER_5SEC` returns at a wait
slice that timed out and at which 15 000 microseconds for each timed-out slice since the
invocation began, this one included and whatever bytes were read in between, add up to more
than 5 000 000; and whenever the loop is still running when such a slice comes, the timer
event is put there.  A byte that is read without ending the invocation does not reset the
counter: 200 silent slices, the unrecognised byte 28 and 134 silent slices end in the timer
event. -/
theorem idle_timer_counts_all_silence (K : key_consts) (keys : List key_sequence_t)
    (cs : Nat) (input : List console_slice) (ret : Int) (puts : List disp_event_t)
    (h : s_disp_process_events K keys cs input = pump_outcome.returned ret puts)
    (ht : ∃ ev ∈ puts, ev.code = disp_event_code.EVENT_TIMER_5SEC) :
    (∃ (pre post : List console_slice) (sl : console_slice),
      input = pre ++ sl :: post ∧ sl.num_files_ready = 0 ∧
      15000 * (timed_out_slices pre + 1) > 5000000 ∧
      puts = [{ K.ev_clear with code := disp_event_code.EVENT_TIMER_5SEC }]) ∧
    (∀ (pre post : List console_slice) (sl : console_slice) (st : pump_state),
      s_disp_process_events K keys cs pre = pump_outcome.running st →
      sl.num_files_ready = 0 → 15000 * (timed_out_slices pre + 1) > 5000000 →
      s_disp_process_events K keys cs (pre ++ sl :: post) =
        pump_outcome.returned 1
          [{ K.ev_clear with code := disp_event_code.EVENT_TIMER_5SEC }]) ∧
    (∀ more : List console_slice,
      s_disp_process_events K (s_keys K) 0
          (List.replicate 200 slice_silent ++ ([slice_byte 28] ++
            (List.replicate 134 slice_silent ++ more))) =
        pump_outcome.returned 1
          [{ K.ev_clear with code := disp_event_code.EVENT_TIMER_5SEC }]) := by
  refine ⟨?_, ?_, pump_timer_after_unmatched_byte K⟩
  · unfold s_disp_process_events at h
    obtain ⟨pre, post, sl, st, hin, hrun, hret⟩ := pump_loop_returned input _ h
    obtain ⟨hms, hle⟩ := pump_loop_miliseconds pre _ st hrun
    simp only [Nat.zero_add] at hms
    have hle2 := hle (by simp)
    obtain ⟨_, hcases⟩ := pump_iter_returned hret
    obtain ⟨ev, hev, hcode⟩ := ht
    rcases hcases with ⟨h1, h2, h3⟩ | ⟨_, _, _, _, h5⟩ | ⟨_, key, sh, _, h5⟩
    · have h0 : sl.num_files_ready = 0 := by
        by_contra hne
        have : (s_disp_wait_console sl.num_files_ready).1 = 0 := by
          simp [s_disp_wait_console, hne]
        rw [this] at h2
        omega
      have he : (s_disp_wait_console sl.num_files_ready).1 = 15000 := by
        simp [s_disp_wait_console, h0, DISP_SLEEP_TIME]
      rw [he, hms] at h2
      exact ⟨pre, post, sl, hin, h0, by omega, h3⟩
    · rw [h5] at hev
      simp only [List.mem_singleton] at hev
      rw [hev] at hcode
      simp at hcode
    · rw [h5] at hev
      simp only [List.mem_singleton] at hev
      rw [hev] at hcode
      simp at hcode
  · intro pre post sl st hrun h0 hsum
    unfold s_disp_process_events at hrun ⊢
    obtain ⟨hms, _⟩ := pump_loop_miliseconds pre _ st hrun
    simp only [Nat.zero_add] at hms
    rw [pump_loop_append pre _ st _ hrun, pump_loop,
      pump_iter_not_ready K keys cs st sl (by omega)]
    have he : (s_disp_wait_console sl.num_files_ready).1 = 15000 := by
      simp [s_disp_wait_console, h0, DISP_SLEEP_TIME]
    rw [he, if_pos (by omega)]

theorem idle_timer_counts_all_silence_witness :
    s_disp_process_events key_consts_sample (s_keys key_consts_sample) 0
        (List.replicate 200 slice_silent ++ ([slice_byte 28] ++
          (List.replicate 134 slice_silent ++ []))) =
      pump_outcome.returned 1 [⟨disp_event_code.EVENT_TIMER_5SEC, 0, 0, 0⟩] ∧
    (∃ ev ∈ [(⟨disp_event_code.EVENT_TIMER_5SEC, 0, 0, 0⟩ : disp_event_t)],
      ev.code = disp_event_code.EVENT_TIMER_5SEC) ∧
    (∃ (pre post : List console_slice) (sl : console_slice),
      List.replicate 200 slice_silent ++ ([slice_byte 28] ++
          (List.replicate 134 slice_silent ++ [])) = pre ++ sl :: post ∧
      sl.num_files_ready = 0 ∧
      15000 * (timed_out_slices pre + 1) > 5000000 ∧
      [(⟨disp_event_code.EVENT_TIMER_5SEC, 0, 0, 0⟩ : disp_event_t)] =
        [{ key_consts_sample.ev_clear with code := disp_event_code.EVENT_TIMER_5SEC }]) :=
  ⟨pump_timer_after_unmatched_byte key_consts_sample [],
    ⟨_, List.mem_singleton.mpr rfl, rfl⟩,
    (idle_timer_counts_all_silence key_consts_sample (s_keys key_consts_sample) 0
      (List.replicate 200 slice_silent ++ ([slice_byte 28] ++
          (List.replicate 134 slice_silent ++ [])))
      1 [⟨disp_event_code.EVENT_TIMER_5SEC, 0, 0, 0⟩]
      (pump_timer_after_unmatched_byte key_consts_sample [])
      ⟨_, List.mem_singleton.mpr rfl, rfl⟩).1⟩

/-! ### Releasing and checking palette entries -/

/-- C16 on the code: `s_disp_pal_free` changes nothing.  After `s_disp_pal_free(0)` on the
display object `disp_one_palette`, whose palette entry 0 is in use and is the only one that
refers to colour pair 1, entry 0 is still in use and colour pair 1 is still in use. -/
theorem pal_free_releases_nothing (disp : dispc_t) (palette_id : Int) :
    s_disp_pal_free disp palette_id = disp ∧
    (s_disp_pal_free disp_one_palette 0).palette =
      [⟨true, 1, A_BOLD ||| A_UNDERLINE⟩, ⟨false, 0, 0⟩] ∧
    (s_disp_pal_free disp_one_palette 0).color_pairs =
      [⟨false, 0, 0, 0⟩, ⟨true, 4, 1, 0⟩, ⟨false, 0, 0, 0⟩] :=
  ⟨rfl, rfl, rfl⟩

theorem size_t_of_int_nonneg (x : Int) (h0 : 0 ≤ x) (hhi : x ≤ 2147483647) :
    size_t_of_int x = x.toNat := by
  unfold size_t_of_int
  congr 1
  omega

theorem size_t_of_int_neg (x : Int) (hlo : -2147483648 ≤ x) (hneg : x < 0) :
    18446744071562067968 ≤ size_t_of_int x := by
  unfold size_t_of_int
  omega

/-- C17: `s_disp_palette_id_is_valid(id)` is true (1) exactly when
`0 ≤ id < DISP_COUNTOF(disp->palette)`, for every `int` value `id` and every state, and the
result is the same for two states with tables of the same size, whatever entries are in
use. -/
theorem palette_id_is_valid_iff (disp : dispc_t) (palette_id : Int)
    (hhi : palette_id ≤ 2147483647) :
    (s_disp_palette_id_is_valid disp palette_id = 1 ↔
      0 ≤ palette_id ∧ palette_id < (disp.palette.length : Int)) ∧
    (s_disp_palette_id_is_valid disp palette_id ≠ 1 →
      s_disp_palette_id_is_valid disp palette_id = 0) ∧
    ∀ disp1 : dispc_t, disp1.palette.length = disp.palette.length →
      s_disp_palette_id_is_valid disp1 palette_id =
        s_disp_palette_id_is_valid disp palette_id := by
  refine ⟨?_, ?_, ?_⟩
  · unfold s_disp_palette_id_is_valid
    by_cases h0 : 0 ≤ palette_id
    · rw [size_t_of_int_nonneg palette_id h0 hhi]
      constructor
      · intro h
        split at h
        · rename_i hc
          exact ⟨h0, by omega⟩
        · simp at h
      · intro h
        rw [if_pos ⟨by omega, by omega⟩]
    · constructor
      · intro h
        split at h
        · rename_i hc
          omega
        · simp at h
      · intro h
        omega
  · intro h
    unfold s_disp_palette_id_is_valid at h ⊢
    split
    · rename_i hc
      rw [if_pos hc] at h
      exact absurd rfl h
    · rfl
  · intro disp1 hl
    unfold s_disp_palette_id_is_valid
    rw [hl]

theorem palette_id_is_valid_iff_witness :
    (1 : Int) ≤ 2147483647 ∧
    s_disp_palette_id_is_valid disp_one_palette 1 = 1 ∧
    s_disp_palette_id_is_valid disp_one_palette 2 = 0 ∧
    s_disp_palette_id_is_valid disp_one_palette (-1) = 0 ∧
    (s_disp_palette_id_is_valid disp_one_palette 1 = 1 ↔
      (0 : Int) ≤ 1 ∧ (1 : Int) < (disp_one_palette.palette.length : Int)) :=
  ⟨by decide, by decide, by decide, by decide,
    (palette_id_is_valid_iff disp_one_palette 1 (by decide)).1⟩

/-! ### The assertions of the palette accessors -/

theorem add_color_pair_palette {init_pair : Nat → Nat → Nat → Int} {disp d1 : dispc_t}
    {c b : Nat} {r : Int} (h : s_disp_add_color_pair init_pair disp c b = some (r, d1)) :
    d1.palette = disp.palette := by
  rcases add_color_pair_cases h with ⟨_, _, _, _, _, _, hd⟩ | ⟨_, _, hp⟩ |
    ⟨_, _, _, _, _, _, _, _, _, _, hd⟩
  · rw [hd]
  · exact hp
  · rw [hd]

/-- `s_disp_pal_add` keeps the size of the palette table and every entry that is in use. -/
theorem pal_add_palette_kept {F : disp_font_bits} {init_pair : Nat → Nat → Nat → Int}
    {disp d2 : dispc_t} {c b st : Nat} {r : Int} {pid : Option Nat}
    (h : s_disp_pal_add F init_pair disp c b st = some (r, pid, d2)) :
    d2.palette.length = disp.palette.length ∧
    ∀ (p : Nat) (e : disp_palette_entry),
      disp.palette[p]? = some e → e.in_use = true → d2.palette[p]? = some e := by
  unfold s_disp_pal_add at h
  split at h
  · simp at h
  · simp only at h
    split at h
    · simp at h
    · rename_i r1 d1 hadd
      have hpal := add_color_pair_palette hadd
      split at h
      · simp only [Option.some.injEq, Prod.mk.injEq] at h
        rw [← h.2.2, hpal]
        exact ⟨rfl, fun _ _ he _ => he⟩
      · split at h
        · rename_i i hi
          simp only [Option.some.injEq, Prod.mk.injEq] at h
          obtain ⟨_, ⟨old, hold, holdu⟩, _⟩ := find_unused_palette_some hi
          simp only [Nat.sub_zero] at hold
          rw [← h.2.2]
          simp only [List.length_set]
          rw [hpal] at hold ⊢
          refine ⟨rfl, fun p e he heu => ?_⟩
          have hne : i ≠ p := by
            intro hip
            rw [hip, he] at hold
            have := Option.some.inj hold
            rw [this, holdu] at heu
            exact absurd heu (by decide)
          rw [List.getElem?_set_ne hne]
          exact he
        · simp only [Option.some.injEq, Prod.mk.injEq] at h
          rw [← h.2.2, hpal]
          exact ⟨rfl, fun _ _ he _ => he⟩

theorem pool_run_palette_kept {F : disp_font_bits} (calls : List pool_call) :
    ∀ (disp d1 : dispc_t), pool_run F disp calls = some d1 →
      d1.palette.length = disp.palette.length ∧
      ∀ (p : Nat) (e : disp_palette_entry),
        disp.palette[p]? = some e → e.in_use = true → d1.palette[p]? = some e := by
  induction calls with
  | nil =>
    intro disp d1 h
    simp only [pool_run, Option.some.injEq] at h
    rw [← h]
    exact ⟨rfl, fun _ _ he _ => he⟩
  | cons call rest ih =>
    intro disp d1 h
    simp only [pool_run] at h
    split at h
    · simp at h
    · rename_i d2 hstep
      obtain ⟨hl2, hk2⟩ := ih d2 d1 h
      have hstep2 : d2.palette.length = disp.palette.length ∧
          ∀ (p : Nat) (e : disp_palette_entry),
            disp.palette[p]? = some e → e.in_use = true → d2.palette[p]? = some e := by
        cases call with
        | add_color_pair init_pair c b =>
          simp only [pool_step, Option.map_eq_some'] at hstep
          obtain ⟨⟨r, d⟩, hs, hd⟩ := hstep
          simp only at hd
          subst hd
          rw [add_color_pair_palette hs]
          exact ⟨rfl, fun _ _ he _ => he⟩
        | pal_add init_pair c b st =>
          simp only [pool_step, Option.map_eq_some'] at hstep
          obtain ⟨⟨r, pid, d⟩, hs, hd⟩ := hstep
          simp only at hd
          subst hd
          exact pal_add_palette_kept hs
        | pal_free id =>
          simp only [pool_step, s_disp_pal_free, Option.some.injEq] at hstep
          subst hstep
          exact ⟨rfl, fun _ _ he _ => he⟩
      exact ⟨by rw [hl2, hstep2.1], fun p e he heu => hk2 p e (hstep2.2 p e he heu) heu⟩

/-- Both accessors on an id that is negative or too large: the range `ASSERT` fails. -/
theorem accessors_out_of_range (disp : dispc_t) (palette_id : Int)
    (hlo : -2147483648 ≤ palette_id) (hhi : palette_id ≤ 2147483647)
    (hlen : disp.palette.length ≤ 2147483647)
    (h : palette_id < 0 ∨ (disp.palette.length : Int) ≤ palette_id) :
    s_disp_pal_get_color_pair_id_asserts disp palette_id = access_outcome.assert_failed 2 ∧
    s_disp_pal_get_char_style_asserts disp palette_id = access_outcome.assert_failed 2 := by
  have hc : ¬ size_t_of_int palette_id < disp.palette.length := by
    rcases h with h | h
    · have := size_t_of_int_neg palette_id hlo h
      omega
    · rw [size_t_of_int_nonneg palette_id (by omega) hhi]
      omega
  constructor
  · unfold s_disp_pal_get_color_pair_id_asserts
    rw [if_pos hc]
  · unfold s_disp_pal_get_char_style_asserts
    rw [if_pos hc]

/-- Both accessors on an id that indexes an element of the table: the element is read, and
the `ASSERT` on `in_use` decides. -/
theorem accessors_in_range (disp : dispc_t) (palette_id : Int) (e : disp_palette_entry)
    (h0 : 0 ≤ palette_id) (hhi : palette_id ≤ 2147483647)
    (he : disp.palette[palette_id.toNat]? = some e) :
    s_disp_pal_get_color_pair_id_asserts disp palette_id =
      (if e.in_use = false then access_outcome.assert_failed 3
       else access_outcome.value e.color_pair_id) ∧
    s_disp_pal_get_char_style_asserts disp palette_id =
      (if e.in_use = false then access_outcome.assert_failed 3
       else access_outcome.value (e.attr_mask : Int)) := by
  have hlt : palette_id.toNat < disp.palette.length := by
    rcases List.getElem?_eq_some_iff.mp he with ⟨h, _⟩
    exact h
  have hc : size_t_of_int palette_id < disp.palette.length := by
    rw [size_t_of_int_nonneg palette_id h0 hhi]
    exact hlt
  constructor
  · unfold s_disp_pal_get_color_pair_id_asserts
    simp only [hc, not_true_eq_false, if_false, not_lt.mpr h0, he]
  · unfold s_disp_pal_get_char_style_asserts
    simp only [hc, not_true_eq_false, if_false, not_lt.mpr h0, he]

/-- The palette id written by a successful `s_disp_pal_add` is the index of an entry that
is in use afterwards. -/
theorem pal_add_entry_in_use {F : disp_font_bits} {init_pair : Nat → Nat → Nat → Int}
    {disp d2 : dispc_t} {c b st p : Nat} {r : Int}
    (h : s_disp_pal_add F init_pair disp c b st = some (r, some p, d2)) :
    ∃ e : disp_palette_entry, d2.palette[p]? = some e ∧ e.in_use = true := by
  unfold s_disp_pal_add at h
  split at h
  · simp at h
  · simp only at h
    split at h
    · simp at h
    · rename_i r1 d1 hadd
      split at h
      · simp at h
      · split at h
        · rename_i i hi
          simp only [Option.some.injEq, Prod.mk.injEq] at h
          obtain ⟨_, ⟨old, hold, _⟩, _⟩ := find_unused_palette_some hi
          simp only [Nat.sub_zero] at hold
          have hlt : i < d1.palette.length := by
            rcases List.getElem?_eq_some_iff.mp hold with ⟨h, _⟩
            exact h
          rw [← h.2.2, ← h.2.1]
          exact ⟨_, getElem?_set_same _ _ _ hlt, rfl⟩
        · simp at h

theorem accessors_value_iff (disp : dispc_t) (palette_id : Int)
    (hlo : -2147483648 ≤ palette_id) (hhi : palette_id ≤ 2147483647)
    (hlen : disp.palette.length ≤ 2147483647) :
    ((∃ v, s_disp_pal_get_color_pair_id_asserts disp palette_id = access_outcome.value v) ↔
      (0 ≤ palette_id ∧ ∃ e : disp_palette_entry,
        disp.palette[palette_id.toNat]? = some e ∧ e.in_use = true)) ∧
    ((∃ v, s_disp_pal_get_char_style_asserts disp palette_id = access_outcome.value v) ↔
      (0 ≤ palette_id ∧ ∃ e : disp_palette_entry,
        disp.palette[palette_id.toNat]? = some e ∧ e.in_use = true)) ∧
    s_disp_pal_get_color_pair_id_asserts disp palette_id ≠ access_outcome.read_outside ∧
    s_disp_pal_get_char_style_asserts disp palette_id ≠ access_outcome.read_outside := by
  by_cases hr : palette_id < 0 ∨ (disp.palette.length : Int) ≤ palette_id
  · obtain ⟨h1, h2⟩ := accessors_out_of_range disp palette_id hlo hhi hlen hr
    rw [h1, h2]
    have hno : ¬ (0 ≤ palette_id ∧ ∃ e : disp_palette_entry,
        disp.palette[palette_id.toNat]? = some e ∧ e.in_use = true) := by
      rintro ⟨h0, e, he, _⟩
      rcases List.getElem?_eq_some_iff.mp he with ⟨hlt, _⟩
      omega
    simp [hno]
  · have h0 : 0 ≤ palette_id := by omega
    have hlt : palette_id.toNat < disp.palette.length := by omega
    have he : disp.palette[palette_id.toNat]? = some (disp.palette[palette_id.toNat]) :=
      List.getElem?_eq_getElem hlt
    obtain ⟨h1, h2⟩ := accessors_in_range disp palette_id _ h0 hhi he
    rw [h1, h2]
    by_cases hu : (disp.palette[palette_id.toNat]).in_use = false
    · have hno : ¬ (0 ≤ palette_id ∧ ∃ e : disp_palette_entry,
          disp.palette[palette_id.toNat]? = some e ∧ e.in_use = true) := by
        rintro ⟨_, e, he2, heu⟩
        rw [he] at he2
        rw [← Option.some.inj he2, hu] at heu
        exact absurd heu (by decide)
      simp [hu, hno]
    · have hyes : 0 ≤ palette_id ∧ ∃ e : disp_palette_entry,
          disp.palette[palette_id.toNat]? = some e ∧ e.in_use = true :=
        ⟨h0, _, he, by simpa using hu⟩
      simp only [hu, if_false, hyes, iff_true, ne_eq, reduceCtorEq, not_false_eq_true,
        and_true]
      exact ⟨⟨_, rfl⟩, ⟨_, rfl⟩⟩

/-- C18: the assertions of `s_disp_pal_get_color_pair_id` and `s_disp_pal_get_char_style`,
for an `int` id and a palette table of at most `INT_MAX` elements.  For an id that is
negative or too large the range `ASSERT` (the second) fails in both; for an id in range
whose entry is not in use the `ASSERT` on `in_use` (the third) fails in both; so each
returns a value exactly when the id is in range and its entry in use, and neither ever
reads the table outside its elements.  For an id written by a successful `s_disp_pal_add`
no `ASSERT` fails, right after the call and after any further calls into the palette
pool. -/
theorem palette_accessors_assert (disp : dispc_t) (palette_id : Int)
    (hlo : -2147483648 ≤ palette_id) (hhi : palette_id ≤ 2147483647)
    (hlen : disp.palette.length ≤ 2147483647) :
    (palette_id < 0 ∨ (disp.palette.length : Int) ≤ palette_id →
      s_disp_pal_get_color_pair_id_asserts disp palette_id = access_outcome.assert_failed 2 ∧
      s_disp_pal_get_char_style_asserts disp palette_id = access_outcome.assert_failed 2) ∧
    (∀ e : disp_palette_entry, 0 ≤ palette_id →
      disp.palette[palette_id.toNat]? = some e → e.in_use = false →
      s_disp_pal_get_color_pair_id_asserts disp palette_id = access_outcome.assert_failed 3 ∧
      s_disp_pal_get_char_style_asserts disp palette_id = access_outcome.assert_failed 3) ∧
    ((∃ v, s_disp_pal_get_color_pair_id_asserts disp palette_id = access_outcome.value v) ↔
      (0 ≤ palette_id ∧ ∃ e : disp_palette_entry,
        disp.palette[palette_id.toNat]? = some e ∧ e.in_use = true)) ∧
    ((∃ v, s_disp_pal_get_char_style_asserts disp palette_id = access_outcome.value v) ↔
      (0 ≤ palette_id ∧ ∃ e : disp_palette_entry,
        disp.palette[palette_id.toNat]? = some e ∧ e.in_use = true)) ∧
    s_disp_pal_get_color_pair_id_asserts disp palette_id ≠ access_outcome.read_outside ∧
    s_disp_pal_get_char_style_asserts disp palette_id ≠ access_outcome.read_outside ∧
    ∀ (F : disp_font_bits) (init_pair : Nat → Nat → Nat → Int) (d0 d1 : dispc_t)
      (fg bg st p : Nat) (calls : List pool_call),
      s_disp_pal_add F init_pair d0 fg bg st = some (1, some p, d1) →
      pool_run F d1 calls = some disp →
      ∃ v w : Int,
        s_disp_pal_get_color_pair_id_asserts disp (p : Int) = access_outcome.value v ∧
        s_disp_pal_get_char_style_asserts disp (p : Int) = access_outcome.value w := by
  obtain ⟨hv1, hv2, hr1, hr2⟩ := accessors_value_iff disp palette_id hlo hhi hlen
  refine ⟨accessors_out_of_range disp palette_id hlo hhi hlen, ?_, hv1, hv2, hr1, hr2, ?_⟩
  · intro e h0 he hu
    obtain ⟨h1, h2⟩ := accessors_in_range disp palette_id e h0 hhi he
    rw [h1, h2]
    simp [hu]
  · intro F init_pair d0 d1 fg bg st p calls hadd hrun
    obtain ⟨e, he, heu⟩ := pal_add_entry_in_use hadd
    obtain ⟨_, hkept⟩ := pool_run_palette_kept calls d1 disp hrun
    have he3 := hkept p e he heu
    have hlt : p < disp.palette.length := by
      rcases List.getElem?_eq_some_iff.mp he3 with ⟨h, _⟩
      exact h
    obtain ⟨h1, h2⟩ := accessors_in_range disp (p : Int) e (by omega) (by omega)
      (by simpa using he3)
    rw [h1, h2]
    simp [heu]

theorem palette_accessors_assert_witness :
    (-2147483648 : Int) ≤ 0 ∧ (0 : Int) ≤ 2147483647 ∧
    disp_one_palette.palette.length ≤ 2147483647 ∧
    s_disp_pal_get_color_pair_id_asserts disp_one_palette 0 = access_outcome.value 1 ∧
    s_disp_pal_get_char_style_asserts disp_one_palette 1 = access_outcome.assert_failed 3 ∧
    s_disp_pal_get_color_pair_id_asserts disp_one_palette (-1) =
      access_outcome.assert_failed 2 ∧
    s_disp_pal_get_char_style_asserts disp_one_palette 2 = access_outcome.assert_failed 2 ∧
    ((∃ v, s_disp_pal_get_color_pair_id_asserts disp_one_palette 0 =
        access_outcome.value v) ↔
      ((0 : Int) ≤ 0 ∧ ∃ e : disp_palette_entry,
        disp_one_palette.palette[(0 : Int).toNat]? = some e ∧ e.in_use = true)) :=
  ⟨by decide, by decide, by decide, by decide, by decide, by decide, by decide,
    (palette_accessors_assert disp_one_palette 0 (by decide) (by decide)
      (by decide)).2.2.1⟩

/-! ### Painting a rectangle -/

/-- Both accessors return the fields of an entry that is in use. -/
theorem accessors_of_in_use (disp : dispc_t) (a : Int) (e : disp_palette_entry)
    (h0 : 0 ≤ a) (he : disp.palette[a.toNat]? = some e) (hu : e.in_use = true) :
    s_disp_pal_get_color_pair_id disp a = some e.color_pair_id ∧
    s_disp_pal_get_char_style disp a = some (e.attr_mask : Int) := by
  have hlt : a.toNat < disp.palette.length := by
    rcases List.getElem?_eq_some_iff.mp he with ⟨h, _⟩
    exact h
  have h1 : ¬ a < 0 := by omega
  have h2 : a < (disp.palette.length : Int) := by omega
  constructor
  · unfold s_disp_pal_get_color_pair_id
    simp only [h1, if_false, h2, not_true_eq_false, he, hu, if_true]
  · unfold s_disp_pal_get_char_style
    simp only [h1, if_false, h2, not_true_eq_false, he, hu, if_true]

/-- Inside the geometry, `char_ln[j]` is the cell of column `x + j` in the row. -/
theorem buf_access_inside (scr : disp_screen_t) (x yi : Int) (j : Nat)
    (hx : 0 ≤ x) (hy : 0 ≤ yi) (hyh : yi < scr.height) (hxw : x + (j : Int) < scr.width)
    (hbuf : (scr.char_buf.length : Int) = scr.width * scr.height) :
    s_disp_buf_access scr x yi j = some (screen_cell scr (x + (j : Int)) yi) := by
  have hw0 : 0 ≤ scr.width := by omega
  have h1 : 0 ≤ yi * scr.width := Int.mul_nonneg hy hw0
  have h2 : (yi + 1) * scr.width ≤ scr.height * scr.width :=
    Int.mul_le_mul_of_nonneg_right (by omega) hw0
  have h3 : (yi + 1) * scr.width = yi * scr.width + scr.width := by ring
  have h4 : scr.height * scr.width = scr.width * scr.height := by ring
  have hidx : yi * scr.width + x + (j : Int) < (scr.char_buf.length : Int) := by
    rw [hbuf]
    omega
  have hlt : (yi * scr.width + x + (j : Int)).toNat < scr.char_buf.length := by omega
  have he : yi * scr.width + (x + (j : Int)) + ((0 : Nat) : Int) =
      yi * scr.width + x + (j : Int) := by
    simp only [Nat.cast_zero]
    ring
  unfold screen_cell s_disp_buf_access
  rw [he, if_neg (by omega), List.getElem?_eq_getElem hlt]
  rfl

/-- The inner loop over columns whose cells are in the buffer, within `ncurs_buf`, and carry
palette ids in use: every cell is composed as C19 says. -/
theorem compose_row_cells (disp : dispc_t) (scr : disp_screen_t) (x yi : Int)
    (js : List Nat) :
    ∀ (buf : List Nat) (reads : List (Int × Int)),
      (∀ j ∈ js, s_disp_buf_access scr x yi j = some (screen_cell scr (x + (j : Int)) yi) ∧
        (j : Int) < scr.width ∧
        ∃ e : disp_palette_entry, 0 ≤ (screen_cell scr (x + (j : Int)) yi).a ∧
          disp.palette[((screen_cell scr (x + (j : Int)) yi).a).toNat]? = some e ∧
          e.in_use = true) →
      compose_row disp scr x yi js buf reads =
        row_outcome.cells
          (buf ++ js.map (fun (j : Nat) => composed_cell disp (screen_cell scr (x + (j : Int)) yi)))
          (reads ++ js.map (fun (j : Nat) => (x + (j : Int), yi))) := by
  induction js with
  | nil =>
    intro buf reads _
    simp [compose_row]
  | cons j js ih =>
    intro buf reads hall
    obtain ⟨hacc, hjw, e, h0, he, hu⟩ := hall j (List.mem_cons_self _ _)
    obtain ⟨hcp, hst⟩ := accessors_of_in_use disp _ e h0 he hu
    unfold compose_row
    simp only [hacc, hjw, not_true_eq_false, if_false, hcp, hst]
    rw [ih _ _ (fun k hk => hall k (List.mem_cons_of_mem _ hk))]
    simp [composed_cell, hcp, hst]

/-- The outer loop over rows that lie inside the geometry with all their cells carrying
palette ids in use, on a backend that accepts every paint call: one call of `mvaddchnstr`
per row, and every cell read lies inside the geometry. -/
theorem paint_rows_all (mvaddchnstr : Int → Int → List Nat → Int → Int) (disp : dispc_t)
    (scr : disp_screen_t) (x y w : Int)
    (hok : ∀ (yy xx : Int) (chstr : List Nat) (n : Int), mvaddchnstr yy xx chstr n ≠ ERR)
    (hx : 0 ≤ x) (hy : 0 ≤ y) (hxw : x + w ≤ scr.width)
    (hbuf : (scr.char_buf.length : Int) = scr.width * scr.height) (is : List Nat) :
    ∀ tr : rect_trace,
      (∀ i ∈ is, y + (i : Int) < scr.height ∧ ∀ j : Nat, (j : Int) < w →
        ∃ e : disp_palette_entry, 0 ≤ (screen_cell scr (x + (j : Int)) (y + (i : Int))).a ∧
          disp.palette[((screen_cell scr (x + (j : Int)) (y + (i : Int))).a).toNat]? =
            some e ∧ e.in_use = true) →
      ∃ reads : List (Int × Int),
        paint_rows mvaddchnstr disp scr x y w is tr =
          rect_outcome.painted scr
            { cells_read := reads
              mvaddchnstr_calls := tr.mvaddchnstr_calls ++ is.map (fun (i : Nat) =>
                (y + (i : Int), x,
                  (List.range w.toNat).map (fun (j : Nat) =>
                    composed_cell disp (screen_cell scr (x + (j : Int)) (y + (i : Int)))),
                  w)) } ∧
        ∀ p ∈ reads, p ∈ tr.cells_read ∨
          (0 ≤ p.1 ∧ p.1 < scr.width ∧ 0 ≤ p.2 ∧ p.2 < scr.height) := by
  induction is with
  | nil =>
    intro tr _
    exact ⟨tr.cells_read, by simp [paint_rows], fun p hp => Or.inl hp⟩
  | cons i is ih =>
    intro tr hall
    obtain ⟨hrow, hids⟩ := hall i (List.mem_cons_self _ _)
    have hcells := compose_row_cells disp scr x (y + (i : Int)) (List.range w.toNat) []
      tr.cells_read (by
        intro j hj
        have hjw : (j : Int) < w := by
          have := List.mem_range.mp hj
          omega
        exact ⟨buf_access_inside scr x (y + (i : Int)) j hx (by omega) hrow (by omega) hbuf,
          by omega, hids j hjw⟩)
    obtain ⟨reads, hrun, hreads⟩ := ih
      { cells_read := tr.cells_read ++
          (List.range w.toNat).map (fun (j : Nat) => (x + (j : Int), y + (i : Int)))
        mvaddchnstr_calls := tr.mvaddchnstr_calls ++
          [(y + (i : Int), x,
            (List.range w.toNat).map (fun (j : Nat) =>
              composed_cell disp (screen_cell scr (x + (j : Int)) (y + (i : Int)))), w)] }
      (fun k hk => hall k (List.mem_cons_of_mem _ hk))
    refine ⟨reads, ?_, ?_⟩
    · rw [paint_rows, hcells]
      simp only [List.nil_append, hok, if_false]
      rw [hrun]
      simp
    · intro p hp
      rcases hreads p hp with h1 | h2
      · simp only [List.mem_append, List.mem_map, List.mem_range] at h1
        rcases h1 with h1 | ⟨j, hj, hpj⟩
        · exact Or.inl h1
        · right
          rw [← hpj]
          simp only
          omega
      · exact Or.inr h2

/-- C19: row composition in `s_disp_validate_rect`.  For a rectangle inside the geometry
(`x ≥ 0`, `y ≥ 0`, `w > 0`, `h > 0`, `x + w ≤ width`, `y + h ≤ height`) of a screen buffer of
`width * height` cells whose cells in the rectangle carry palette ids in use, and a backend
that accepts the paint calls: the function returns after exactly `h` calls of `mvaddchnstr`,
the `i`-th at row `y + i`, column `x`, with count `w` and `w` cells, the `j`-th of them the
low byte of the character of cell `(x + j, y + i)` ORed with `COLOR_PAIR` of the colour-pair
id and with the style mask of that cell's palette id.  `paint_is_suspended` is 0 afterwards,
the screen buffer and the geometry are as before, the palette tables are only read, and
every cell read lies inside the geometry. -/
theorem validate_rect_paints_rows (mvaddchnstr : Int → Int → List Nat → Int → Int)
    (disp : dispc_t) (scr : disp_screen_t) (tr : rect_trace) (x y w h : Int)
    (hx : 0 ≤ x) (hy : 0 ≤ y) (hw : 0 < w) (hh : 0 < h)
    (hxw : x + w ≤ scr.width) (hyh : y + h ≤ scr.height)
    (hbuf : (scr.char_buf.length : Int) = scr.width * scr.height)
    (hids : ∀ i j : Nat, (i : Int) < h → (j : Int) < w →
      ∃ e : disp_palette_entry, 0 ≤ (screen_cell scr (x + (j : Int)) (y + (i : Int))).a ∧
        disp.palette[((screen_cell scr (x + (j : Int)) (y + (i : Int))).a).toNat]? = some e ∧
        e.in_use = true)
    (hok : ∀ (yy xx : Int) (chstr : List Nat) (n : Int), mvaddchnstr yy xx chstr n ≠ ERR) :
    ∃ reads : List (Int × Int),
      s_disp_validate_rect mvaddchnstr disp scr tr x y w h =
        rect_outcome.painted { scr with paint_is_suspended := 0 }
          { cells_read := reads
            mvaddchnstr_calls := tr.mvaddchnstr_calls ++ (List.range h.toNat).map (fun (i : Nat) =>
              (y + (i : Int), x,
                (List.range w.toNat).map (fun (j : Nat) =>
                  composed_cell disp (screen_cell scr (x + (j : Int)) (y + (i : Int)))),
                w)) } ∧
      ((List.range h.toNat).map (fun (i : Nat) =>
              (y + (i : Int), x,
                (List.range w.toNat).map (fun (j : Nat) =>
                  composed_cell disp (screen_cell scr (x + (j : Int)) (y + (i : Int)))),
                w))).length = h.toNat ∧
      ∀ p ∈ reads, p ∈ tr.cells_read ∨
        (0 ≤ p.1 ∧ p.1 < scr.width ∧ 0 ≤ p.2 ∧ p.2 < scr.height) := by
  have hsc : ∀ c r : Int,
      screen_cell { scr with paint_is_suspended := 0 } c r = screen_cell scr c r :=
    fun _ _ => rfl
  obtain ⟨reads, hrun, hreads⟩ := paint_rows_all mvaddchnstr disp
    { scr with paint_is_suspended := 0 } x y w hok hx hy hxw hbuf (List.range h.toNat) tr
    (by
      intro i hi
      have hih : (i : Int) < h := by
        have := List.mem_range.mp hi
        omega
      refine ⟨by simp only; omega, fun j hj => ?_⟩
      rw [hsc]
      exact hids i j hih hj)
  refine ⟨reads, ?_, by simp, hreads⟩
  unfold s_disp_validate_rect
  rw [if_neg (by omega), if_neg (by omega), if_neg (by omega), if_neg (by omega),
    if_neg (by omega), if_neg (by omega), hrun]
  simp only [hsc]

theorem validate_rect_paints_rows_witness :
    (0 : Int) ≤ 1 ∧ (0 : Int) ≤ 0 ∧ (0 : Int) < 2 ∧
    (1 : Int) + 2 ≤ screen_sample.width ∧ (0 : Int) + 2 ≤ screen_sample.height ∧
    (screen_sample.char_buf.length : Int) = screen_sample.width * screen_sample.height ∧
    s_disp_validate_rect mvaddchnstr_ok disp_one_palette screen_sample ⟨[], []⟩ 1 0 2 2 =
      rect_outcome.painted { screen_sample with paint_is_suspended := 0 }
        { cells_read := [(1, 0), (2, 0), (1, 1), (2, 1)]
          mvaddchnstr_calls :=
            [(0, 1, [2228578, 2228579], 2), (1, 1, [2228581, 2228582], 2)] } ∧
    ∃ reads : List (Int × Int),
      s_disp_validate_rect mvaddchnstr_ok disp_one_palette screen_sample ⟨[], []⟩ 1 0 2 2 =
        rect_outcome.painted { screen_sample with paint_is_suspended := 0 }
          { cells_read := reads
            mvaddchnstr_calls := ([] : List (Int × Int × List Nat × Int)) ++
              (List.range (2 : Int).toNat).map (fun (i : Nat) =>
                ((0 : Int) + (i : Int), (1 : Int),
                  (List.range (2 : Int).toNat).map (fun (j : Nat) =>
                    composed_cell disp_one_palette
                      (screen_cell screen_sample (1 + (j : Int)) (0 + (i : Int)))),
                  (2 : Int))) } ∧
      ((List.range (2 : Int).toNat).map (fun (i : Nat) =>
                ((0 : Int) + (i : Int), (1 : Int),
                  (List.range (2 : Int).toNat).map (fun (j : Nat) =>
                    composed_cell disp_one_palette
                      (screen_cell screen_sample (1 + (j : Int)) (0 + (i : Int)))),
                  (2 : Int)))).length = (2 : Int).toNat ∧
      ∀ p ∈ reads, p ∈ ([] : List (Int × Int)) ∨
        (0 ≤ p.1 ∧ p.1 < screen_sample.width ∧ 0 ≤ p.2 ∧ p.2 < screen_sample.height) :=
  ⟨by decide, by decide, by decide, by decide, by decide, by decide, by decide,
    validate_rect_paints_rows mvaddchnstr_ok disp_one_palette screen_sample ⟨[], []⟩ 1 0 2 2
      (by decide) (by decide) (by decide) (by decide) (by decide) (by decide) (by decide)
      (by
        intro i j hi hj
        have hi2 : i = 0 ∨ i = 1 := by omega
        have hj2 : j = 0 ∨ j = 1 := by omega
        rcases hi2 with rfl | rfl <;> rcases hj2 with rfl | rfl <;>
          exact ⟨⟨true, 1, A_BOLD ||| A_UNDERLINE⟩, by decide, by decide, rfl⟩)
      (by intro yy xx chstr n; simp [mvaddchnstr_ok, ERR])⟩

/-- The assertions of `s_disp_validate_rect` on the rectangle reject, before anything is
read or painted, exactly the rectangles with `x < 0`, `y < 0`, `w ≤ 0`, `h ≤ 0`,
`w > width` or `h > height`. -/
theorem validate_rect_asserts (mvaddchnstr : Int → Int → List Nat → Int → Int)
    (disp : dispc_t) (scr : disp_screen_t) (tr : rect_trace) (x y w h : Int) :
    (x < 0 ∨ y < 0 ∨ w ≤ 0 ∨ h ≤ 0 ∨ scr.width < w ∨ scr.height < h →
      s_disp_validate_rect mvaddchnstr disp scr tr x y w h = rect_outcome.assert_failed tr) ∧
    (¬ (x < 0 ∨ y < 0 ∨ w ≤ 0 ∨ h ≤ 0 ∨ scr.width < w ∨ scr.height < h) →
      s_disp_validate_rect mvaddchnstr disp scr tr x y w h =
        paint_rows mvaddchnstr disp { scr with paint_is_suspended := 0 } x y w
          (List.range h.toNat) tr) := by
  constructor
  · intro hbad
    unfold s_disp_validate_rect
    split
    · rfl
    · split
      · rfl
      · split
        · rfl
        · split
          · rfl
          · split
            · rfl
            · split
              · rfl
              · omega
  · intro hgood
    unfold s_disp_validate_rect
    rw [if_neg (by omega), if_neg (by omega), if_neg (by omega), if_neg (by omega),
      if_neg (by omega), if_neg (by omega)]

/-- The inner loop never stores outside `ncurs_buf` when every `j` is below `width`. -/
theorem compose_row_writes_inside (disp : dispc_t) (scr : disp_screen_t) (x yi : Int)
    (js : List Nat) (hjs : ∀ j ∈ js, (j : Int) < scr.width) :
    ∀ (buf : List Nat) (reads r : List (Int × Int)),
      compose_row disp scr x yi js buf reads ≠ row_outcome.write_outside r := by
  induction js with
  | nil =>
    intro buf reads r
    simp [compose_row]
  | cons j js ih =>
    intro buf reads r
    have hj := hjs j (List.mem_cons_self _ _)
    unfold compose_row
    split
    · simp
    · rw [if_neg (by omega)]
      split
      · simp
      · split
        · simp
        · exact ih (fun k hk => hjs k (List.mem_cons_of_mem _ hk)) _ _ _

/-- `s_disp_validate_rect` never stores outside the `width` elements of `ncurs_buf`. -/
theorem validate_rect_writes_inside (mvaddchnstr : Int → Int → List Nat → Int → Int)
    (disp : dispc_t) (scr : disp_screen_t) (tr tr1 : rect_trace) (x y w h : Int) :
    s_disp_validate_rect mvaddchnstr disp scr tr x y w h ≠ rect_outcome.write_outside tr1 := by
  by_cases hbad : x < 0 ∨ y < 0 ∨ w ≤ 0 ∨ h ≤ 0 ∨ scr.width < w ∨ scr.height < h
  · rw [(validate_rect_asserts mvaddchnstr disp scr tr x y w h).1 hbad]
    simp
  · rw [(validate_rect_asserts mvaddchnstr disp scr tr x y w h).2 hbad]
    have hw : w ≤ scr.width := by omega
    have hgen : ∀ (is : List Nat) (t : rect_trace),
        paint_rows mvaddchnstr disp { scr with paint_is_suspended := 0 } x y w is t ≠
          rect_outcome.write_outside tr1 := by
      intro is
      induction is with
      | nil =>
        intro t
        simp [paint_rows]
      | cons i is ih =>
        intro t
        rw [paint_rows]
        have hrow := compose_row_writes_inside disp { scr with paint_is_suspended := 0 } x
          (y + (i : Int)) (List.range w.toNat) (by
            intro j hj
            have := List.mem_range.mp hj
            simp only
            omega) [] t.cells_read
        split
        · split
          · simp
          · exact ih _
        · simp
        · simp
        · rename_i reads hc
          exact absurd hc (hrow reads)
    exact hgen _ _

/-- C20 at a rectangle that starts at column 1 and is as wide as the screen: on the screen
of 3 columns and 2 rows the rectangle `x = 1, y = 0, w = 3, h = 1` passes every `ASSERT`
(`w ≤ width`, `h ≤ height`), the cell of column 3, which is not in row 0, is read, and the
row is painted; with `y = 1` the same rectangle passes every `ASSERT` and the cell read for
column 3 is not in the screen buffer at all. -/
theorem validate_rect_reads_past_row :
    s_disp_validate_rect mvaddchnstr_ok disp_one_palette screen_sample ⟨[], []⟩ 1 0 3 1 =
      rect_outcome.painted { screen_sample with paint_is_suspended := 0 }
        { cells_read := [(1, 0), (2, 0), (3, 0)]
          mvaddchnstr_calls := [(0, 1, [2228578, 2228579, 2228580], 3)] } ∧
    s_disp_validate_rect mvaddchnstr_ok disp_one_palette screen_sample ⟨[], []⟩ 1 1 3 1 =
      rect_outcome.read_outside
        { cells_read := [(1, 1), (2, 1), (3, 1)], mvaddchnstr_calls := [] } ∧
    screen_sample.width = 3 ∧ screen_sample.height = 2 ∧
    (screen_sample.char_buf.length : Int) = screen_sample.width * screen_sample.height := by
  decide

/-! ### The shift state of a complete match -/

/-- A complete match comes from one rule of the table: the buffer compares equal to its
pattern and is as long, `*shift_state` is the console shift state and `*key` is the key of
the rule ORed with that state shifted left by 16. -/
theorem match_key_loop_complete (cs : Nat) (buf : List Nat) (n : Nat) :
    ∀ keys : List key_sequence_t, (match_key_loop cs buf n keys).1 = 2 →
      ∃ r ∈ keys, strncmp buf r.esq_seq n = 0 ∧ strlen r.esq_seq = n ∧
        match_key_loop cs buf n keys =
          (2, some (r.key ||| ((cs <<< 16) % 4294967296), cs)) := by
  intro keys
  induction keys with
  | nil =>
    intro h
    simp [match_key_loop] at h
  | cons r rest ih =>
    intro h
    by_cases hm : strncmp buf r.esq_seq n = 0
    · by_cases hl : strlen r.esq_seq = n
      · exact ⟨r, List.mem_cons_self _ _, hm, hl, by simp [match_key_loop, hm, hl]⟩
      · simp [match_key_loop, hm, hl] at h
    · have hrec : match_key_loop cs buf n (r :: rest) = match_key_loop cs buf n rest := by
        simp [match_key_loop, hm]
      rw [hrec] at h ⊢
      obtain ⟨x, hx, h1, h2, h3⟩ := ih h
      exact ⟨x, List.mem_cons_of_mem _ hx, h1, h2, h3⟩

/-- The claim of C21 fails: rule 3 of `s_keys` is `!`, with the static shift bits `kbShift`
in its key.  With the console shift state 0 the matcher answers 2 for the byte `!`, stores
the key of the rule and stores 0 to `*shift_state`, not `kbShift | 0`; the key event the
pump puts carries that 0 in its field `shift_state`. -/
theorem shift_state_not_ored_counterexample :
    (s_keys key_consts_sample)[3]? =
      some (key_sequence_t.mk [33]
        (key_consts_sample.KEY key_consts_sample.kbShift (key_consts_sample.sc key_defs.kb1)
          ||| 33) none) ∧
    key_consts_sample.KEY key_consts_sample.kbShift (key_consts_sample.sc key_defs.kb1)
      ||| 33 = 197153 ∧
    s_match_key_sequence (s_keys key_consts_sample) 0 [33] = (2, some (197153, 0)) ∧
    key_consts_sample.kbShift ||| 0 = 3 ∧
    s_disp_process_events key_consts_sample (s_keys key_consts_sample) 0 [slice_byte 33] =
      pump_outcome.returned 1 [⟨disp_event_code.EVENT_KEY, 3, 0, 197153⟩] := by
  decide

/-- C21, amended: the shift state of a complete match is the console shift state alone.
Whenever `s_match_key_sequence` returns 2, some rule of the table has the buffer as its
whole pattern, the value stored through `shift_state` is the live console shift state (the
static shift bits of the rule are not ORed into it), and the value stored through `key` is
the key of the rule ORed with the console shift state shifted left by 16; the pump copies
both unchanged into the fields `shift_state` and `key` of the key event it puts. -/
theorem complete_match_shift_state (keys : List key_sequence_t) (cs : Nat)
    (key_buf : List Nat) (h : (s_match_key_sequence keys cs key_buf).1 = 2) :
    ∃ r ∈ keys, strncmp key_buf r.esq_seq (strlen key_buf) = 0 ∧
      strlen r.esq_seq = strlen key_buf ∧
      s_match_key_sequence keys cs key_buf =
        (2, some (r.key ||| ((cs <<< 16) % 4294967296), cs)) ∧
      ∀ (K : key_consts) (st : pump_state) (c : Nat), c < 256 →
        key_buf_append st.key_buf c = key_buf → key_buf.length < 10 →
        pump_iter K keys cs st (slice_byte c) =
          pump_outcome.returned 1 [{ K.ev_clear with
            code := disp_event_code.EVENT_KEY
            scan_code_only :=
              (((r.key ||| ((cs <<< 16) % 4294967296)) >>> 16) &&& 255) % 256
            shift_state := cs
            key := r.key ||| ((cs <<< 16) % 4294967296) }] := by
  obtain ⟨r, hr, h1, h2, h3⟩ := match_key_loop_complete cs key_buf (strlen key_buf) keys h
  refine ⟨r, hr, h1, h2, h3, ?_⟩
  intro K st c hc hbuf hlen
  have h4 : s_match_key_sequence keys cs (key_buf_append st.key_buf c) =
      (2, some (r.key ||| ((cs <<< 16) % 4294967296), cs)) := by
    rw [hbuf]
    exact h3
  rw [pump_iter_byte K keys cs st c hc, if_neg (by rw [hbuf]; omega), h4]

theorem complete_match_shift_state_witness :
    (s_match_key_sequence (s_keys key_consts_sample) 4 [33]).1 = 2 ∧
    ∃ r ∈ s_keys key_consts_sample, strncmp [33] r.esq_seq (strlen [33]) = 0 ∧
      strlen r.esq_seq = strlen [33] ∧
      s_match_key_sequence (s_keys key_consts_sample) 4 [33] =
        (2, some (r.key ||| ((4 <<< 16) % 4294967296), 4)) ∧
      ∀ (K : key_consts) (st : pump_state) (c : Nat), c < 256 →
        key_buf_append st.key_buf c = [33] → [33].length < 10 →
        pump_iter K (s_keys key_consts_sample) 4 st (slice_byte c) =
          pump_outcome.returned 1 [{ K.ev_clear with
            code := disp_event_code.EVENT_KEY
            scan_code_only :=
              (((r.key ||| ((4 <<< 16) % 4294967296)) >>> 16) &&& 255) % 256
            shift_state := 4
            key := r.key ||| ((4 <<< 16) % 4294967296) }] :=
  ⟨by decide, complete_match_shift_state (s_keys key_consts_sample) 4 [33] (by decide)⟩

/-! ### Failures of `s_disp_add_color_pair` -/

/-- Every call of `s_disp_add_color_pair` that returns -1 stores the error kind
`DISP_NCURSES_COLOR_ALLOC_FAIL` and leaves both tables as they were. -/
theorem add_color_pair_fail_code {init_pair : Nat → Nat → Nat → Int} {disp d1 : dispc_t}
    {c b : Nat} (h : s_disp_add_color_pair init_pair disp c b = some (-1, d1)) :
    d1.code = some disp_error_code.DISP_NCURSES_COLOR_ALLOC_FAIL ∧
    d1.color_pairs = disp.color_pairs ∧ d1.palette = disp.palette := by
  unfold s_disp_add_color_pair at h
  split at h
  · split at h
    · simp only [Option.some.injEq, Prod.mk.injEq] at h
      omega
    · simp at h
  · simp only at h
    split at h
    · simp only [Option.some.injEq, Prod.mk.injEq, true_and] at h
      rw [← h]
      exact ⟨rfl, rfl, rfl⟩
    · split at h
      · simp at h
      · split at h
        · simp at h
        · split at h
          · simp only [Option.some.injEq, Prod.mk.injEq, true_and] at h
            rw [← h]
            exact ⟨rfl, rfl, rfl⟩
          · split at h
            · simp only [Option.some.injEq, Prod.mk.injEq] at h
              omega
            · simp at h

/-- The claim of C22 fails: on a cleared table of three entries a backend that refuses the
registration makes the call return -1 with `DISP_NCURSES_COLOR_ALLOC_FAIL`, and on a table
of one entry (no usable slot) the call returns -1 with the same
`DISP_NCURSES_COLOR_ALLOC_FAIL`; the two failures differ in `error_msg` only. -/
theorem backend_rejection_kind_counterexample :
    s_disp_add_color_pair init_pair_fail (disp_clear 3 2) 2 1 =
      some (-1, { disp_clear 3 2 with
        code := some disp_error_code.DISP_NCURSES_COLOR_ALLOC_FAIL
        error_msg := "init_pair() failed to allocate ncurses color pair"
        init_pair_calls := [(1, 2, 4)] }) ∧
    s_disp_add_color_pair init_pair_ok (disp_clear 1 2) 2 1 =
      some (-1, { disp_clear 1 2 with
        code := some disp_error_code.DISP_NCURSES_COLOR_ALLOC_FAIL
        error_msg := "no room for additional ncurses color pairs" }) ∧
    (s_disp_add_color_pair init_pair_fail (disp_clear 3 2) 2 1).map (fun x => x.2.code) =
      (s_disp_add_color_pair init_pair_ok (disp_clear 1 2) 2 1).map (fun x => x.2.code) := by
  decide

/-- C22, amended: backend rejection in `s_disp_add_color_pair`.  When the pair is not in
the table, a free slot `i` exists, both colours are in 0..7 and the backend answers `ERR`
to `init_pair(i, ...)`, the call returns -1 with `disp->code` set to
`DISP_NCURSES_COLOR_ALLOC_FAIL` and only `error_msg` telling the cause, and the colour-pair
table and the palette table are exactly as before the call.  The error kind is the same
one as for a table without a free slot: every call that returns -1 leaves
`DISP_NCURSES_COLOR_ALLOC_FAIL` in `disp->code` and both tables unchanged. -/
theorem backend_rejection_same_kind (init_pair : Nat → Nat → Nat → Int) (disp : dispc_t)
    (c b : Nat)
    (hnew : find_color_pair disp.color_pairs.tail 1 c b = none)
    (hfree : find_unused_pair disp.color_pairs.tail 1 ≠ disp.color_pairs.length)
    (hc : c < 8) (hb : b < 8)
    (hrej : init_pair (find_unused_pair disp.color_pairs.tail 1)
      (PC_TO_CURSES.getD c 0) (PC_TO_CURSES.getD b 0) = ERR) :
    s_disp_add_color_pair init_pair disp c b =
      some (-1, { disp with
        init_pair_calls := disp.init_pair_calls ++
          [(find_unused_pair disp.color_pairs.tail 1,
            PC_TO_CURSES.getD c 0, PC_TO_CURSES.getD b 0)]
        code := some disp_error_code.DISP_NCURSES_COLOR_ALLOC_FAIL
        error_msg := "init_pair() failed to allocate ncurses color pair" }) ∧
    ∀ (init2 : Nat → Nat → Nat → Int) (d d1 : dispc_t) (c2 b2 : Nat),
      s_disp_add_color_pair init2 d c2 b2 = some (-1, d1) →
      d1.code = some disp_error_code.DISP_NCURSES_COLOR_ALLOC_FAIL ∧
      d1.color_pairs = d.color_pairs ∧ d1.palette = d.palette := by
  constructor
  · have hlen : PC_TO_CURSES.length = 8 := rfl
    unfold s_disp_add_color_pair
    simp only [hnew, hlen]
    rw [if_neg hfree, if_neg (by omega), if_neg (by omega), if_pos hrej]
  · intro init2 d d1 c2 b2 h
    exact add_color_pair_fail_code h

theorem backend_rejection_same_kind_witness :
    find_color_pair (disp_clear 3 2).color_pairs.tail 1 2 1 = none ∧
    find_unused_pair (disp_clear 3 2).color_pairs.tail 1 ≠ (disp_clear 3 2).color_pairs.length ∧
    s_disp_add_color_pair init_pair_fail (disp_clear 3 2) 2 1 =
      some (-1, { disp_clear 3 2 with
        init_pair_calls := (disp_clear 3 2).init_pair_calls ++
          [(find_unused_pair (disp_clear 3 2).color_pairs.tail 1,
            PC_TO_CURSES.getD 2 0, PC_TO_CURSES.getD 1 0)]
        code := some disp_error_code.DISP_NCURSES_COLOR_ALLOC_FAIL
        error_msg := "init_pair() failed to allocate ncurses color pair" }) :=
  ⟨by decide, by decide,
    (backend_rejection_same_kind init_pair_fail (disp_clear 3 2) 2 1 (by decide) (by decide)
      (by decide) (by decide) (by decide)).1⟩

/-! ### Session setup -/

/-- C23: error handling of `s_disp_init` over an abstract backend.  The call returns 1
exactly when `initscr()` is not `NULL`, `tigetstr("cup")` is not `NULL`, `start_color()`
is not `ERR` and none of `raw`, `noecho`, `nonl`, `nodelay`, `intrflush` returns `ERR`;
otherwise it returns 0.  At the first step that fails `disp->code` gets the kind of that
step, the calls made end there (of the five mode calls only those up to the failing one
are made), `endwin()` follows as the last call unless it was `initscr()` that failed, and
neither the key table nor the geometry is touched: no `tigetstr` for a key, no `getmaxyx`.
The four error kinds are pairwise distinct. -/
theorem init_error_handling (B : curses_backend) (disp : dispc_t) (scr : disp_screen_t)
    (keys : List key_sequence_t) :
    ((s_disp_init B disp scr keys).ret = 1 ↔
      B.initscr ≠ 0 ∧ (B.tigetstr "cup").ptr ≠ 0 ∧ B.start_color ≠ ERR ∧ B.raw ≠ ERR ∧
      B.noecho ≠ ERR ∧ B.nonl ≠ ERR ∧ B.nodelay ≠ ERR ∧ B.intrflush ≠ ERR) ∧
    ((s_disp_init B disp scr keys).ret ≠ 1 → (s_disp_init B disp scr keys).ret = 0) ∧
    (B.initscr = 0 →
      (s_disp_init B disp scr keys).disp.code = some disp_error_code.DISP_FAILED_NCURS_INIT ∧
      (s_disp_init B disp scr keys).calls = [curses_call.initscr]) ∧
    (B.initscr ≠ 0 → (B.tigetstr "cup").ptr = 0 →
      (s_disp_init B disp scr keys).disp.code = some disp_error_code.DISP_TERMINAL_NO_CURSOR_OPERATIONS ∧
      (s_disp_init B disp scr keys).calls =
        [curses_call.initscr, curses_call.tigetstr "cup", curses_call.endwin]) ∧
    (B.initscr ≠ 0 → (B.tigetstr "cup").ptr ≠ 0 → B.start_color = ERR →
      (s_disp_init B disp scr keys).disp.code = some disp_error_code.DISP_TERMINAL_NO_COLOR ∧
      (s_disp_init B disp scr keys).calls =
        [curses_call.initscr, curses_call.tigetstr "cup", curses_call.start_color,
          curses_call.endwin]) ∧
    (B.initscr ≠ 0 → (B.tigetstr "cup").ptr ≠ 0 → B.start_color ≠ ERR →
      B.raw = ERR →
      (s_disp_init B disp scr keys).disp.code = some disp_error_code.DISP_NCURSES_MODE_SETUP_FAILURE ∧
      (s_disp_init B disp scr keys).calls =
        [curses_call.initscr, curses_call.tigetstr "cup", curses_call.start_color, curses_call.raw, curses_call.endwin]) ∧
    (B.initscr ≠ 0 → (B.tigetstr "cup").ptr ≠ 0 → B.start_color ≠ ERR →
      B.raw ≠ ERR → B.noecho = ERR →
      (s_disp_init B disp scr keys).disp.code = some disp_error_code.DISP_NCURSES_MODE_SETUP_FAILURE ∧
      (s_disp_init B disp scr keys).calls =
        [curses_call.initscr, curses_call.tigetstr "cup", curses_call.start_color, curses_call.raw, curses_call.noecho, curses_call.endwin]) ∧
    (B.initscr ≠ 0 → (B.tigetstr "cup").ptr ≠ 0 → B.start_color ≠ ERR →
      B.raw ≠ ERR → B.noecho ≠ ERR → B.nonl = ERR →
      (s_disp_init B disp scr keys).disp.code = some disp_error_code.DISP_NCURSES_MODE_SETUP_FAILURE ∧
      (s_disp_init B disp scr keys).calls =
        [curses_call.initscr, curses_call.tigetstr "cup", curses_call.start_color, curses_call.raw, curses_call.noecho, curses_call.nonl, curses_call.endwin]) ∧
    (B.initscr ≠ 0 → (B.tigetstr "cup").ptr ≠ 0 → B.start_color ≠ ERR →
      B.raw ≠ ERR → B.noecho ≠ ERR → B.nonl ≠ ERR → B.nodelay = ERR →
      (s_disp_init B disp scr keys).disp.code = some disp_error_code.DISP_NCURSES_MODE_SETUP_FAILURE ∧
      (s_disp_init B disp scr keys).calls =
        [curses_call.initscr, curses_call.tigetstr "cup", curses_call.start_color, curses_call.raw, curses_call.noecho, curses_call.nonl, curses_call.nodelay, curses_call.endwin]) ∧
    (B.initscr ≠ 0 → (B.tigetstr "cup").ptr ≠ 0 → B.start_color ≠ ERR →
      B.raw ≠ ERR → B.noecho ≠ ERR → B.nonl ≠ ERR → B.nodelay ≠ ERR → B.intrflush = ERR →
      (s_disp_init B disp scr keys).disp.code = some disp_error_code.DISP_NCURSES_MODE_SETUP_FAILURE ∧
      (s_disp_init B disp scr keys).calls =
        [curses_call.initscr, curses_call.tigetstr "cup", curses_call.start_color, curses_call.raw, curses_call.noecho, curses_call.nonl, curses_call.nodelay, curses_call.intrflush, curses_call.endwin]) ∧
    ((s_disp_init B disp scr keys).ret = 0 →
      (s_disp_init B disp scr keys).keys = keys ∧ (s_disp_init B disp scr keys).scr = scr ∧
      curses_call.getmaxyx ∉ (s_disp_init B disp scr keys).calls ∧
      (∀ capname : String, curses_call.tigetstr capname ∈ (s_disp_init B disp scr keys).calls → capname = "cup") ∧
      (curses_call.endwin ∈ (s_disp_init B disp scr keys).calls ↔ B.initscr ≠ 0)) ∧
    ((s_disp_init B disp scr keys).ret = 1 →
      (s_disp_init B disp scr keys).disp = disp ∧ (s_disp_init B disp scr keys).keys = (s_disp_get_ncurses_keys B.tigetstr keys).1 ∧
      (s_disp_init B disp scr keys).scr = { scr with height := B.getmaxyx.1, width := B.getmaxyx.2 }) ∧
    disp_error_code.DISP_FAILED_NCURS_INIT ≠ disp_error_code.DISP_TERMINAL_NO_CURSOR_OPERATIONS ∧
    disp_error_code.DISP_FAILED_NCURS_INIT ≠ disp_error_code.DISP_TERMINAL_NO_COLOR ∧
    disp_error_code.DISP_FAILED_NCURS_INIT ≠ disp_error_code.DISP_NCURSES_MODE_SETUP_FAILURE ∧
    disp_error_code.DISP_TERMINAL_NO_CURSOR_OPERATIONS ≠ disp_error_code.DISP_TERMINAL_NO_COLOR ∧
    disp_error_code.DISP_TERMINAL_NO_CURSOR_OPERATIONS ≠
      disp_error_code.DISP_NCURSES_MODE_SETUP_FAILURE ∧
    disp_error_code.DISP_TERMINAL_NO_COLOR ≠ disp_error_code.DISP_NCURSES_MODE_SETUP_FAILURE := by
  by_cases h0 : B.initscr = 0
  · simp [s_disp_init, h0]
  by_cases h1 : (B.tigetstr "cup").ptr = 0
  · simp [s_disp_init, h0, h1]
  by_cases h2 : B.start_color = ERR
  · simp [s_disp_init, h0, h1, h2]
  by_cases h3 : B.raw = ERR
  · simp [s_disp_init, mode_setup, h0, h1, h2, h3]
  by_cases h4 : B.noecho = ERR
  · simp [s_disp_init, mode_setup, h0, h1, h2, h3, h4]
  by_cases h5 : B.nonl = ERR
  · simp [s_disp_init, mode_setup, h0, h1, h2, h3, h4, h5]
  by_cases h6 : B.nodelay = ERR
  · simp [s_disp_init, mode_setup, h0, h1, h2, h3, h4, h5, h6]
  by_cases h7 : B.intrflush = ERR
  · simp [s_disp_init, mode_setup, h0, h1, h2, h3, h4, h5, h6, h7]
  simp [s_disp_init, mode_setup, h0, h1, h2, h3, h4, h5, h6, h7]


/-! ### A palette table without a free entry -/

theorem find_unused_palette_none (l : List disp_palette_entry) :
    ∀ k : Nat, find_unused_palette l k = none ↔ ∀ e ∈ l, e.in_use = true := by
  induction l with
  | nil => intro k; simp [find_unused_palette]
  | cons e es ih =>
    intro k
    by_cases he : e.in_use = true
    · simp [find_unused_palette, he, ih (k + 1)]
    · simp [find_unused_palette, he]

/-- With a table of at least one element and both colours in 0..7, no `ASSERT` of
`s_disp_add_color_pair` fails and no access leaves the table: the call returns. -/
theorem add_color_pair_total (init_pair : Nat → Nat → Nat → Int) (disp : dispc_t)
    (c b : Nat) (hne : disp.color_pairs ≠ []) (hc : c < 8) (hb : b < 8) :
    ∃ (r : Int) (d1 : dispc_t), s_disp_add_color_pair init_pair disp c b = some (r, d1) := by
  have hlen : PC_TO_CURSES.length = 8 := rfl
  have hpos : 0 < disp.color_pairs.length := List.length_pos.mpr hne
  have htl := List.length_tail disp.color_pairs
  unfold s_disp_add_color_pair
  split
  · rename_i i hf
    obtain ⟨hi1, e0, he0, _⟩ := find_color_pair_some hf
    rw [getElem?_tail_pred _ _ hi1] at he0
    rw [he0]
    exact ⟨_, _, rfl⟩
  · simp only [hlen, hc, hb, not_true_eq_false, if_false]
    split
    · exact ⟨_, _, rfl⟩
    · rename_i hi
      split
      · exact ⟨_, _, rfl⟩
      · have hspec := find_unused_pair_spec disp.color_pairs.tail 1
        have hlt : find_unused_pair disp.color_pairs.tail 1 < disp.color_pairs.length := by
          omega
        obtain ⟨x, hx⟩ : ∃ x, disp.color_pairs[find_unused_pair disp.color_pairs.tail 1]? =
            some x := ⟨_, List.getElem?_eq_getElem hlt⟩
        rw [hx]
        exact ⟨_, _, rfl⟩

/-- C24: the palette-full failure of `s_disp_pal_add`.  For a valid style mask, a
foreground in 0..15, a background in 0..7 and a colour-pair table of at least one element
the call returns; it returns 0 with `disp->code = DISP_PALETTE_FULL` exactly when its call
of `s_disp_add_color_pair` did not return -1 and every palette entry is in use; and
whenever it returns 0, for either cause, the palette table is as before the call and
nothing is written to `*palette_id`. -/
theorem pal_add_palette_full (F : disp_font_bits) (init_pair : Nat → Nat → Nat → Int)
    (disp : dispc_t) (c b st : Nat)
    (hst : st &&& DISP_FONT_STYLE_BITS F = st) (hc : c < 16) (hb : b < 8)
    (hne : disp.color_pairs ≠ []) :
    ∃ (ret : Int) (pid : Option Nat) (d2 : dispc_t) (r1 : Int) (d1 : dispc_t),
      s_disp_add_color_pair init_pair disp (if c ≥ 8 then c - 8 else c) b = some (r1, d1) ∧
      s_disp_pal_add F init_pair disp c b st = some (ret, pid, d2) ∧
      ((ret = 0 ∧ d2.code = some disp_error_code.DISP_PALETTE_FULL) ↔
        (r1 ≠ -1 ∧ ∀ e ∈ disp.palette, e.in_use = true)) ∧
      (ret = 0 → d2.palette = disp.palette ∧ pid = none) := by
  obtain ⟨r1, d1, h1⟩ := add_color_pair_total init_pair disp (if c ≥ 8 then c - 8 else c) b
    hne (by split <;> omega) hb
  have hpal := add_color_pair_palette h1
  by_cases hr : r1 = -1
  · subst hr
    have hcode := (add_color_pair_fail_code h1).1
    refine ⟨0, none, d1, -1, d1, h1, ?_, ?_, ?_⟩
    · unfold s_disp_pal_add
      rw [if_neg (by simpa using hst)]
      simp only [h1, if_true]
    · rw [hcode]
      simp
    · intro _
      exact ⟨hpal, rfl⟩
  · cases hfind : find_unused_palette d1.palette 0 with
    | none =>
      have hall : ∀ e ∈ disp.palette, e.in_use = true := by
        rw [← hpal]
        exact (find_unused_palette_none d1.palette 0).mp hfind
      refine ⟨0, none, { d1 with
        code := some disp_error_code.DISP_PALETTE_FULL
        error_msg := "no more entries available in the palette table" }, r1, d1, h1, ?_, ?_, ?_⟩
      · unfold s_disp_pal_add
        rw [if_neg (by simpa using hst)]
        simp only [h1, if_neg hr, hfind]
      · exact ⟨fun _ => ⟨hr, hall⟩, fun _ => ⟨rfl, rfl⟩⟩
      · intro _
        exact ⟨hpal, rfl⟩
    | some i =>
      have hnall : ¬ ∀ e ∈ disp.palette, e.in_use = true := by
        rw [← hpal]
        intro hall
        rw [(find_unused_palette_none d1.palette 0).mpr hall] at hfind
        simp at hfind
      refine ⟨1, some i, { d1 with
        palette := d1.palette.set i
          { in_use := true, color_pair_id := r1
            attr_mask := style_attr_mask F
              (if c ≥ 8 then st ||| F.DISP_FONT_BOLD else st) } }, r1, d1, h1, ?_, ?_, ?_⟩
      · unfold s_disp_pal_add
        rw [if_neg (by simpa using hst)]
        simp only [h1, if_neg hr, hfind]
      · simp [hnall]
      · intro h
        simp at h

theorem pal_add_palette_full_witness :
    (4 : Nat) &&& DISP_FONT_STYLE_BITS font_bits_sample = 4 ∧
    s_disp_pal_add font_bits_sample init_pair_ok
        { disp_one_palette with palette := [⟨true, 1, A_BOLD ||| A_UNDERLINE⟩] } 12 1 4 =
      some (0, none, { disp_one_palette with
        palette := [⟨true, 1, A_BOLD ||| A_UNDERLINE⟩]
        color_pairs := [⟨false, 0, 0, 0⟩, ⟨true, 4, 1, 1⟩, ⟨false, 0, 0, 0⟩]
        code := some disp_error_code.DISP_PALETTE_FULL
        error_msg := "no more entries available in the palette table" }) ∧
    ∃ (ret : Int) (pid : Option Nat) (d2 : dispc_t) (r1 : Int) (d1 : dispc_t),
      s_disp_add_color_pair init_pair_ok
        { disp_one_palette with palette := [⟨true, 1, A_BOLD ||| A_UNDERLINE⟩] }
        (if 12 ≥ 8 then 12 - 8 else 12) 1 = some (r1, d1) ∧
      s_disp_pal_add font_bits_sample init_pair_ok
        { disp_one_palette with palette := [⟨true, 1, A_BOLD ||| A_UNDERLINE⟩] } 12 1 4 =
        some (ret, pid, d2) ∧
      ((ret = 0 ∧ d2.code = some disp_error_code.DISP_PALETTE_FULL) ↔
        (r1 ≠ -1 ∧ ∀ e ∈ ({ disp_one_palette with
          palette := [⟨true, 1, A_BOLD ||| A_UNDERLINE⟩] } : dispc_t).palette,
            e.in_use = true)) ∧
      (ret = 0 → d2.palette = ({ disp_one_palette with
          palette := [⟨true, 1, A_BOLD ||| A_UNDERLINE⟩] } : dispc_t).palette ∧ pid = none) :=
  ⟨by decide, by decide,
    pal_add_palette_full font_bits_sample init_pair_ok
      { disp_one_palette with palette := [⟨true, 1, A_BOLD ||| A_UNDERLINE⟩] } 12 1 4
      (by decide) (by decide) (by decide) (by decide)⟩


/-! ### The key time-out -/

/-- C25 at a sequence begun after two silent wait slices.  `key_wait_time` has counted
the 30 000 microseconds of silence that came before the first byte, and no byte read
resets it.  (a) ESC is read and one silent slice later, 15 000 microseconds of silence
after its first byte, the sequence is ended as a bare ESC key event.  (b) ESC `[` is read
(a partial match: the counter and both bytes are kept), one silent slice later the pending
sequence is cancelled, and the `A` that follows is delivered as the key of the rule `A`
(Shift+A), while without the silence in front the same bytes with the same gap are the key
Up. -/
theorem key_timeout_counts_earlier_silence (K : key_consts) :
    s_disp_process_events K (s_keys K) 0 [slice_silent, slice_silent, slice_byte 27] =
      pump_outcome.running { miliseconds := 30000, key_wait_time := 30000, key_buf := [27] } ∧
    s_disp_process_events K (s_keys K) 0
        [slice_silent, slice_silent, slice_byte 27, slice_silent] =
      pump_outcome.returned 1 [{ K.ev_clear with
        code := disp_event_code.EVENT_KEY
        scan_code_only := K.sc key_defs.kbEsc
        shift_state := 0
        key := K.KEY 0 (K.sc key_defs.kbEsc) }] ∧
    s_disp_process_events K (s_keys K) 0
        [slice_silent, slice_silent, slice_byte 27, slice_byte 91] =
      pump_outcome.running
        { miliseconds := 30000, key_wait_time := 30000, key_buf := [27, 91] } ∧
    s_disp_process_events K (s_keys K) 0
        [slice_silent, slice_silent, slice_byte 27, slice_byte 91, slice_silent] =
      pump_outcome.running { miliseconds := 45000, key_wait_time := 0, key_buf := [] } ∧
    s_disp_process_events K (s_keys K) 0
        [slice_silent, slice_silent, slice_byte 27, slice_byte 91, slice_silent,
          slice_byte 65] =
      pump_outcome.returned 1 [{ K.ev_clear with
        code := disp_event_code.EVENT_KEY
        scan_code_only :=
          (((K.KEY K.kbShift (K.sc key_defs.kbA) ||| 65 ||| ((0 <<< 16) % 4294967296))
            >>> 16) &&& 255) % 256
        shift_state := 0
        key := K.KEY K.kbShift (K.sc key_defs.kbA) ||| 65 ||| ((0 <<< 16) % 4294967296) }] ∧
    s_disp_process_events K (s_keys K) 0
        [slice_byte 27, slice_byte 91, slice_silent, slice_byte 65] =
      pump_outcome.returned 1 [{ K.ev_clear with
        code := disp_event_code.EVENT_KEY
        scan_code_only :=
          (((K.KEY 0 (K.sc key_defs.kbUp) ||| ((0 <<< 16) % 4294967296)) >>> 16) &&& 255) % 256
        shift_state := 0
        key := K.KEY 0 (K.sc key_defs.kbUp) ||| ((0 <<< 16) % 4294967296) }] := by
  refine ⟨rfl, rfl, rfl, rfl, rfl, rfl⟩


/-- The claim of C26 fails: with ESC `[` pending, `miliseconds = 30000` and
`key_wait_time = 30000`, the next silent slice passes the key time-out; the buffer is
discarded and `key_wait_time` is reset, but `miliseconds` is 45 000 afterwards, not 0.
This state is reached by two silent slices followed by the bytes ESC `[`. -/
theorem key_timeout_keeps_idle_counter_counterexample :
    pump_iter key_consts_sample (s_keys key_consts_sample) 0
        { miliseconds := 30000, key_wait_time := 30000, key_buf := [27, 91] } slice_silent =
      pump_outcome.running { miliseconds := 45000, key_wait_time := 0, key_buf := [] } ∧
    s_disp_process_events key_consts_sample (s_keys key_consts_sample) 0
        [slice_silent, slice_silent, slice_byte 27, slice_byte 91] =
      pump_outcome.running
        { miliseconds := 30000, key_wait_time := 30000, key_buf := [27, 91] } ∧
    s_disp_process_events key_consts_sample (s_keys key_consts_sample) 0
        [slice_silent, slice_silent, slice_byte 27, slice_byte 91, slice_silent] =
      pump_outcome.running { miliseconds := 45000, key_wait_time := 0, key_buf := [] } := by
  decide

/-- C26, amended: the key time-out without a bare ESC resets the inter-byte counter only.
At a wait slice without a byte to read at which the idle counter does not pass 5 000 000,
`key_wait_time` passes `DISP_KEY_TIMEOUT` and the pending buffer is not exactly one ESC
byte, the loop goes on without an event, the pending buffer is discarded (`key_cnt = 0`),
`key_wait_time` is reset to 0 and `miliseconds` keeps the time accumulated so far, this
slice included. -/
theorem key_timeout_resets_wait_time_only (K : key_consts) (keys : List key_sequence_t)
    (cs : Nat) (st : pump_state) (sl : console_slice)
    (hnr : ¬ 0 < sl.num_files_ready)
    (hidle : st.miliseconds + (s_disp_wait_console sl.num_files_ready).1 ≤ 5000000)
    (hkey : st.key_wait_time + (s_disp_wait_console sl.num_files_ready).1 > DISP_KEY_TIMEOUT)
    (hesc : ¬ (st.key_buf.length = 1 ∧ st.key_buf.headD 0 = 27)) :
    pump_iter K keys cs st sl =
      pump_outcome.running
        { miliseconds := st.miliseconds + (s_disp_wait_console sl.num_files_ready).1
          key_wait_time := 0
          key_buf := [] } := by
  have hk : st.key_wait_time + (s_disp_wait_console sl.num_files_ready).1 > 30000 := hkey
  rw [pump_iter_not_ready K keys cs st sl hnr, if_neg (by omega), if_pos hk, if_neg hesc]
  cases hb : st.key_buf with
  | nil => simp
  | cons c cs => simp

theorem key_timeout_resets_wait_time_only_witness :
    ¬ 0 < slice_silent.num_files_ready ∧
    30000 + (s_disp_wait_console slice_silent.num_files_ready).1 > DISP_KEY_TIMEOUT ∧
    pump_iter key_consts_sample (s_keys key_consts_sample) 0
        { miliseconds := 30000, key_wait_time := 30000, key_buf := [27, 91] } slice_silent =
      pump_outcome.running
        { miliseconds := 30000 + (s_disp_wait_console slice_silent.num_files_ready).1
          key_wait_time := 0
          key_buf := [] } :=
  ⟨by decide, by decide,
    key_timeout_resets_wait_time_only key_consts_sample (s_keys key_consts_sample) 0
      { miliseconds := 30000, key_wait_time := 30000, key_buf := [27, 91] } slice_silent
      (by decide) (by decide) (by decide) (by decide)⟩

/-! ### The idle threshold -/

/-- A wait slice that times out acts like `slice_silent`: `getch` is not called. -/
theorem pump_iter_timed_out (K : key_consts) (keys : List key_sequence_t) (cs : Nat)
    (st : pump_state) (sl : console_slice) (h : sl.num_files_ready = 0) :
    pump_iter K keys cs st sl = pump_iter K keys cs st slice_silent := by
  rw [pump_iter_not_ready K keys cs st sl (by omega),
    pump_iter_not_ready K keys cs st slice_silent (by decide), h]
  rfl

theorem pump_loop_timed_out (K : key_consts) (keys : List key_sequence_t) (cs : Nat)
    (input : List console_slice) (h : ∀ sl ∈ input, sl.num_files_ready = 0) :
    ∀ st : pump_state,
      pump_loop K keys cs st input =
        pump_loop K keys cs st (List.replicate input.length slice_silent) := by
  induction input with
  | nil => intro st; rfl
  | cons sl rest ih =>
    intro st
    have hrest : ∀ x ∈ rest, x.num_files_ready = 0 :=
      fun x hx => h x (List.mem_cons_of_mem _ hx)
    rw [List.length_cons, List.replicate_succ, pump_loop, pump_loop,
      pump_iter_timed_out K keys cs st sl (h sl (List.mem_cons_self _ _))]
    cases pump_iter K keys cs st slice_silent with
    | running st1 => exact ih hrest st1
    | returned r p => rfl
    | fault => rfl

/-- C27: the idle threshold.  In an invocation in which every wait slice times out, the
loop is still running after each of the first 333 slices, with no event put and
`miliseconds = 15000 * n` after `n` of them; the 334th slice makes the invocation return 1
with the one event `EVENT_TIMER_5SEC`, whatever would follow.  334 is the first `k` with
`15000 * k > 5000000`. -/
theorem idle_timer_at_slice_334 (K : key_consts) (keys : List key_sequence_t) (cs : Nat)
    (input : List console_slice) (hsilent : ∀ sl ∈ input, sl.num_files_ready = 0) :
    (input.length ≤ 333 →
      s_disp_process_events K keys cs input =
        pump_outcome.running
          { miliseconds := 15000 * input.length
            key_wait_time := 15000 * (input.length % 3)
            key_buf := [] }) ∧
    (334 ≤ input.length →
      s_disp_process_events K keys cs input =
        pump_outcome.returned 1
          [{ K.ev_clear with code := disp_event_code.EVENT_TIMER_5SEC }] ∧
      s_disp_process_events K keys cs (input.take 333) =
        pump_outcome.running
          { miliseconds := 4995000, key_wait_time := 0, key_buf := [] }) ∧
    (∀ k : Nat, 15000 * k > 5000000 ↔ 334 ≤ k) := by
  have hrun : ∀ n : Nat, n ≤ 333 → ∀ rest : List console_slice,
      pump_loop K keys cs { miliseconds := 0, key_wait_time := 0, key_buf := [] }
          (List.replicate n slice_silent ++ rest) =
        pump_loop K keys cs
          { miliseconds := 15000 * n, key_wait_time := 15000 * (n % 3), key_buf := [] }
          rest := by
    intro n hn rest
    have h := pump_loop_idle K keys cs n rest 0 (by omega)
    simp only [Nat.mul_zero, Nat.zero_mod, Nat.zero_add] at h
    exact h
  refine ⟨?_, ?_, ?_⟩
  · intro hlen
    unfold s_disp_process_events
    rw [pump_loop_timed_out K keys cs input hsilent]
    have h := hrun input.length hlen []
    rw [List.append_nil] at h
    rw [h]
    rfl
  · intro hlen
    constructor
    · unfold s_disp_process_events
      rw [pump_loop_timed_out K keys cs input hsilent]
      obtain ⟨m, hm⟩ : ∃ m, input.length = 333 + (m + 1) := ⟨input.length - 334, by omega⟩
      rw [hm, List.replicate_add, hrun 333 (by omega), List.replicate_succ, pump_loop,
        pump_iter_silent, if_pos (by decide)]
    · unfold s_disp_process_events
      have hs : ∀ sl ∈ input.take 333, sl.num_files_ready = 0 :=
        fun sl hsl => hsilent sl (List.mem_of_mem_take hsl)
      rw [pump_loop_timed_out K keys cs (input.take 333) hs]
      have hl : (input.take 333).length = 333 := by
        rw [List.length_take]
        omega
      rw [hl]
      have h := hrun 333 (by omega) []
      rw [List.append_nil] at h
      rw [h]
      rfl
  · intro k
    omega

theorem idle_timer_at_slice_334_witness :
    (∀ sl ∈ List.replicate 334 slice_silent, sl.num_files_ready = 0) ∧
    s_disp_process_events key_consts_sample (s_keys key_consts_sample) 0
        (List.replicate 334 slice_silent) =
      pump_outcome.returned 1
        [{ key_consts_sample.ev_clear with code := disp_event_code.EVENT_TIMER_5SEC }] ∧
    s_disp_process_events key_consts_sample (s_keys key_consts_sample) 0
        ((List.replicate 334 slice_silent).take 333) =
      pump_outcome.running { miliseconds := 4995000, key_wait_time := 0, key_buf := [] } :=
  ⟨fun sl hsl => by rw [List.eq_of_mem_replicate hsl]; rfl,
    (idle_timer_at_slice_334 key_consts_sample (s_keys key_consts_sample) 0
      (List.replicate 334 slice_silent)
      (fun sl hsl => by rw [List.eq_of_mem_replicate hsl]; rfl)).2.1
      (by rw [List.length_replicate])⟩


/-! ### The italic style bit -/

theorem or_italic_valid (F : disp_font_bits) (st : Nat)
    (h : st &&& DISP_FONT_STYLE_BITS F = st) :
    (st ||| F.DISP_FONT_ITALIC) &&& DISP_FONT_STYLE_BITS F = st ||| F.DISP_FONT_ITALIC := by
  apply Nat.eq_of_testBit_eq
  intro i
  have hi := congrArg (fun n => n.testBit i) h
  simp only [DISP_FONT_STYLE_BITS, Nat.testBit_and, Nat.testBit_or] at hi ⊢
  revert hi
  cases st.testBit i <;> cases F.DISP_FONT_ITALIC.testBit i <;>
    cases F.DISP_FONT_BOLD.testBit i <;> cases F.DISP_FONT_UNDERLINE.testBit i <;>
    cases F.DISP_FONT_REVERSE.testBit i <;> simp

/-- The italic bit adds `A_NORMAL`, which is 0, to the attribute mask: when it shares no bit
with the three other style bits the mask is the same with and without it. -/
theorem style_attr_mask_or_italic (F : disp_font_bits) (st : Nat)
    (hIB : F.DISP_FONT_ITALIC &&& F.DISP_FONT_BOLD = 0)
    (hIU : F.DISP_FONT_ITALIC &&& F.DISP_FONT_UNDERLINE = 0)
    (hIR : F.DISP_FONT_ITALIC &&& F.DISP_FONT_REVERSE = 0) :
    style_attr_mask F (st ||| F.DISP_FONT_ITALIC) = style_attr_mask F st := by
  rw [style_attr_mask_eq, style_attr_mask_eq, or_bold_and_other st _ _ hIB,
    or_bold_and_other st _ _ hIU, or_bold_and_other st _ _ hIR]

/-- C28: italic is a no-op in `s_disp_pal_add`.  When the italic bit shares no bit with the
bold, underline and reverse bits, then for every display object, backend, colours and valid
style mask `s` the call with style `s | DISP_FONT_ITALIC` passes the `ASSERT` on the style
bits and does in every respect what the call with style `s` does: the same return value,
the same `*palette_id`, the same display object afterwards, in particular the same
attribute mask in the new palette entry. -/
theorem pal_add_italic_is_noop (F : disp_font_bits) (init_pair : Nat → Nat → Nat → Int)
    (disp : dispc_t) (c b s : Nat)
    (hIB : F.DISP_FONT_ITALIC &&& F.DISP_FONT_BOLD = 0)
    (hIU : F.DISP_FONT_ITALIC &&& F.DISP_FONT_UNDERLINE = 0)
    (hIR : F.DISP_FONT_ITALIC &&& F.DISP_FONT_REVERSE = 0)
    (hs : s &&& DISP_FONT_STYLE_BITS F = s) :
    (s ||| F.DISP_FONT_ITALIC) &&& DISP_FONT_STYLE_BITS F = s ||| F.DISP_FONT_ITALIC ∧
    style_attr_mask F (s ||| F.DISP_FONT_ITALIC) = style_attr_mask F s ∧
    style_attr_mask F ((s ||| F.DISP_FONT_ITALIC) ||| F.DISP_FONT_BOLD) =
      style_attr_mask F (s ||| F.DISP_FONT_BOLD) ∧
    s_disp_pal_add F init_pair disp c b (s ||| F.DISP_FONT_ITALIC) =
      s_disp_pal_add F init_pair disp c b s := by
  have hv := or_italic_valid F s hs
  have hm := style_attr_mask_or_italic F s hIB hIU hIR
  have hmb : style_attr_mask F ((s ||| F.DISP_FONT_ITALIC) ||| F.DISP_FONT_BOLD) =
      style_attr_mask F (s ||| F.DISP_FONT_BOLD) := by
    have hcomm : (s ||| F.DISP_FONT_ITALIC) ||| F.DISP_FONT_BOLD =
        (s ||| F.DISP_FONT_BOLD) ||| F.DISP_FONT_ITALIC := by
      apply Nat.eq_of_testBit_eq
      intro i
      simp only [Nat.testBit_or]
      cases s.testBit i <;> cases F.DISP_FONT_ITALIC.testBit i <;>
        cases F.DISP_FONT_BOLD.testBit i <;> rfl
    rw [hcomm]
    exact style_attr_mask_or_italic F (s ||| F.DISP_FONT_BOLD) hIB hIU hIR
  refine ⟨hv, hm, hmb, ?_⟩
  by_cases hc : c ≥ 8
  · simp only [s_disp_pal_add, hv, hs, not_true_eq_false, if_false, hc, if_true, hmb]
  · simp only [s_disp_pal_add, hv, hs, not_true_eq_false, if_false, hc, hm]

theorem pal_add_italic_is_noop_witness :
    font_bits_sample.DISP_FONT_ITALIC &&& font_bits_sample.DISP_FONT_BOLD = 0 ∧
    (4 : Nat) &&& DISP_FONT_STYLE_BITS font_bits_sample = 4 ∧
    s_disp_pal_add font_bits_sample init_pair_ok (disp_clear 3 2) 12 1
        (4 ||| font_bits_sample.DISP_FONT_ITALIC) =
      some (1, some 0, disp_one_palette) ∧
    s_disp_pal_add font_bits_sample init_pair_ok (disp_clear 3 2) 12 1
        (4 ||| font_bits_sample.DISP_FONT_ITALIC) =
      s_disp_pal_add font_bits_sample init_pair_ok (disp_clear 3 2) 12 1 4 :=
  ⟨by decide, by decide, by decide,
    (pal_add_italic_is_noop font_bits_sample init_pair_ok (disp_clear 3 2) 12 1 4
      (by decide) (by decide) (by decide) (by decide)).2.2.2⟩

/-! ### The range of the colours -/

/-- Of the foregrounds `fg ≥ 8` exactly those up to 15 are brought into 0..7 by the
subtraction of 8 in `s_disp_pal_add`. -/
theorem bright_color_normalised (fg : Nat) (h8 : 8 ≤ fg) :
    (if fg ≥ 8 then fg - 8 else fg) < 8 ↔ fg ≤ 15 := by
  rw [if_pos h8]
  omega

/-- C29 at colours of the documented range 0..16 that are not in 0..7.  The `ASSERT` on the
background fails in `s_disp_add_color_pair(disp, 1, 8)`, and the `ASSERT` on the colour
fails for the colour 16; `PC_TO_CURSES` has no element 8.  `s_disp_pal_add` passes the
foreground 16 on as 8, which is not in 0..7, and passes the background on as it is, so
that its calls with foreground 16, or with foreground 7 on background 8, end on the same
`ASSERT`s. -/
theorem color_asserts_fail_in_documented_range :
    s_disp_add_color_pair init_pair_ok (disp_clear 3 2) 1 8 = none ∧
    s_disp_add_color_pair init_pair_ok (disp_clear 3 2) 16 0 = none ∧
    PC_TO_CURSES.length = 8 ∧ PC_TO_CURSES[8]? = none ∧
    (if 16 ≥ 8 then 16 - 8 else 16) = 8 ∧
    s_disp_add_color_pair init_pair_ok (disp_clear 3 2) 8 0 = none ∧
    s_disp_pal_add font_bits_sample init_pair_ok (disp_clear 3 2) 16 0 0 = none ∧
    s_disp_pal_add font_bits_sample init_pair_ok (disp_clear 3 2) 7 8 0 = none := by
  decide


/-! ### The key table after `s_disp_get_ncurses_keys` -/

/-- The test `(int)s != -1 && (int)s != 0` looks at the low 32 bits of the pointer: it
holds exactly when they are neither all 0 nor all 1. -/
theorem int_of_pointer_test (p : Nat) :
    (int_of_pointer p ≠ -1 ∧ int_of_pointer p ≠ 0) ↔
      (p % 4294967296 ≠ 0 ∧ p % 4294967296 ≠ 4294967295) := by
  have hlt : p % 4294967296 < 4294967296 := Nat.mod_lt p (by decide)
  unfold int_of_pointer
  split <;> omega

/-- For a pointer that fits into 32 bits the test `(int)s != -1 && (int)s != 0` says that
`s` is neither `NULL` nor the pointer with all 32 bits set. -/
theorem int_of_pointer_usable (p : Nat) (hp : p < 4294967296) :
    (int_of_pointer p ≠ -1 ∧ int_of_pointer p ≠ 0) ↔ (p ≠ 0 ∧ p ≠ 4294967295) := by
  rw [int_of_pointer_test, Nat.mod_eq_of_lt hp]

/-- The table after `s_disp_get_ncurses_keys`, rule by rule. -/
theorem get_ncurses_keys_map (tigetstr : String → tigetstr_answer)
    (keys : List key_sequence_t) :
    (s_disp_get_ncurses_keys tigetstr keys).1 =
      keys.map (fun (r : key_sequence_t) =>
        match r.term_esc_seq with
        | some capname =>
          if (tigetstr capname).ptr % 4294967296 ≠ 0 ∧
              (tigetstr capname).ptr % 4294967296 ≠ 4294967295 then
            { r with esq_seq := (tigetstr capname).str }
          else r
        | none => r) := by
  induction keys with
  | nil => rfl
  | cons r rest ih =>
    rw [List.map_cons, s_disp_get_ncurses_keys]
    cases hn : r.term_esc_seq with
    | none => simp only [ih]
    | some capname =>
      simp only [ih]
      by_cases hu : (tigetstr capname).ptr % 4294967296 ≠ 0 ∧
          (tigetstr capname).ptr % 4294967296 ≠ 4294967295
      · rw [if_pos ((int_of_pointer_test _).mpr hu), if_pos hu]
      · rw [if_neg (fun h => hu ((int_of_pointer_test _).mp h)), if_neg hu]

/-- What `s_disp_get_ncurses_keys` keeps, whatever `tigetstr` answers: the number of rules
and their order, and the key value and the capability name of every rule.  The byte
pattern of a rule becomes the string `tigetstr` returns when the rule has a capability
name and the low 32 bits of the pointer returned for it are neither all 0 nor all 1, and
it is unchanged otherwise. -/
theorem ncurses_keys_frame (tigetstr : String → tigetstr_answer)
    (keys : List key_sequence_t) :
    (s_disp_get_ncurses_keys tigetstr keys).1.length = keys.length ∧
    ∀ (i : Nat) (r : key_sequence_t), keys[i]? = some r →
      ∃ r1 : key_sequence_t, (s_disp_get_ncurses_keys tigetstr keys).1[i]? = some r1 ∧
        r1.key = r.key ∧ r1.term_esc_seq = r.term_esc_seq ∧
        (∀ capname : String, r.term_esc_seq = some capname →
          (tigetstr capname).ptr % 4294967296 ≠ 0 →
          (tigetstr capname).ptr % 4294967296 ≠ 4294967295 →
          r1.esq_seq = (tigetstr capname).str) ∧
        (r.term_esc_seq = none → r1 = r) ∧
        (∀ capname : String, r.term_esc_seq = some capname →
          ((tigetstr capname).ptr % 4294967296 = 0 ∨
            (tigetstr capname).ptr % 4294967296 = 4294967295) → r1 = r) := by
  rw [get_ncurses_keys_map tigetstr keys]
  refine ⟨List.length_map _ _, ?_⟩
  intro i r hr
  rw [List.getElem?_map, hr]
  refine ⟨_, rfl, ?_⟩
  cases hn : r.term_esc_seq with
  | none => simp [hn]
  | some capname =>
    by_cases hu : (tigetstr capname).ptr % 4294967296 ≠ 0 ∧
        (tigetstr capname).ptr % 4294967296 ≠ 4294967295
    · simp only [hn, if_pos hu]
      refine ⟨trivial, trivial, ?_, ?_, ?_⟩
      · intro cap2 h2 _ _
        rw [Option.some.inj h2]
      · intro h
        simp at h
      · intro cap2 h2 h3
        rw [← Option.some.inj h2] at h3
        omega
    · simp only [hn, if_neg hu]
      refine ⟨trivial, trivial, ?_, ?_, ?_⟩
      · intro cap2 h2 h3 h4
        rw [← Option.some.inj h2] at h3 h4
        exact absurd ⟨h3, h4⟩ hu
      · intro _
        trivial
      · intro _ _ _
        trivial

/-- C30 at a usable string whose address has its low 32 bits all 0 or all 1.  With
pointers of 64 bits `tigetstr_high_sample` returns for `kcuu1` the string ESC `O` `A` at
the address 0x1_0000_0000 and for `kcud1` the string ESC `O` `B` at 0x1_FFFF_FFFF: both
pointers are neither `NULL` nor `(char *)-1`, but `(int)s` is 0 for the first and -1 for
the second, so the patterns of the rules for Up and Down are not replaced.  The string for
`kcub1` at 0x5555_5576_A2A0 replaces the pattern of the rule for Left; the rule for
Right, whose name is not a string capability, and the rule without a name are left
alone, as they should be.  The same holds in the table `s_keys` itself. -/
theorem ncurses_keys_skips_usable_string :
    (tigetstr_high_sample "kcuu1").ptr ≠ 0 ∧
    (tigetstr_high_sample "kcuu1").ptr ≠ 18446744073709551615 ∧
    (tigetstr_high_sample "kcuu1").ptr < 18446744073709551616 ∧
    (tigetstr_high_sample "kcuu1").str = [27, 79, 65] ∧
    int_of_pointer (tigetstr_high_sample "kcuu1").ptr = 0 ∧
    (tigetstr_high_sample "kcud1").ptr ≠ 0 ∧
    (tigetstr_high_sample "kcud1").ptr ≠ 18446744073709551615 ∧
    (tigetstr_high_sample "kcud1").ptr < 18446744073709551616 ∧
    (tigetstr_high_sample "kcud1").str = [27, 79, 66] ∧
    int_of_pointer (tigetstr_high_sample "kcud1").ptr = -1 ∧
    (s_disp_get_ncurses_keys tigetstr_high_sample
      [⟨[27, 91, 65], 8, some "kcuu1"⟩, ⟨[27, 91, 66], 9, some "kcud1"⟩,
        ⟨[27, 91, 68], 10, some "kcub1"⟩, ⟨[27, 91, 67], 11, some "kcuf1"⟩,
        ⟨[113], 7, none⟩]).1 =
      [⟨[27, 91, 65], 8, some "kcuu1"⟩, ⟨[27, 91, 66], 9, some "kcud1"⟩,
        ⟨[27, 79, 68], 10, some "kcub1"⟩, ⟨[27, 91, 67], 11, some "kcuf1"⟩,
        ⟨[113], 7, none⟩] ∧
    ((s_disp_get_ncurses_keys tigetstr_high_sample (s_keys key_consts_sample)).1.filter
        (fun r => decide (r.term_esc_seq = some "kcuu1" ∨ r.term_esc_seq = some "kcud1" ∨
          r.term_esc_seq = some "kcub1"))).map (fun r => r.esq_seq) =
      [[27, 91, 65], [27, 91, 66], [27, 79, 68]] := by
  decide


/-! ### `s_keys` is prefix-free -/

theorem starts_with_iff (p : List Nat) :
    ∀ q : List Nat, starts_with p q = true ↔ p <+: q := by
  induction p with
  | nil => intro q; simp [starts_with]
  | cons a as ih =>
    intro q
    cases q with
    | nil => simp [starts_with]
    | cons b bs =>
      by_cases hab : a = b
      · subst hab
        simp [starts_with, ih bs, List.cons_prefix_cons]
      · simp [starts_with, hab, List.cons_prefix_cons]

theorem no_longer_pattern_spec (p : List Nat) (qs : List (List Nat))
    (h : no_longer_pattern p qs = true) :
    ∀ q ∈ qs, p <+: q → ¬ p.length < q.length := by
  induction qs with
  | nil => intro q hq; simp at hq
  | cons x xs ih =>
    unfold no_longer_pattern at h
    split at h
    · simp at h
    · rename_i hx
      intro q hq hpq
      rcases List.mem_cons.mp hq with hqx | hq
      · intro hlt
        rw [hqx] at hpq hlt
        exact hx ⟨hlt, (starts_with_iff p x).mpr hpq⟩
      · exact ih h q hq hpq

theorem prefix_free_among_spec (all ps : List (List Nat))
    (h : prefix_free_among all ps = true) :
    ∀ p ∈ ps, ∀ q ∈ all, p <+: q → ¬ p.length < q.length := by
  induction ps with
  | nil => intro p hp; simp at hp
  | cons x xs ih =>
    unfold prefix_free_among at h
    split at h
    · rename_i hx
      intro p hp
      rcases List.mem_cons.mp hp with hpx | hp
      · rw [hpx]
        exact no_longer_pattern_spec x all hx
      · exact ih h p hp
    · simp at h

theorem s_keys_patterns_checked_0 :
    prefix_free_among s_keys_patterns ((s_keys_patterns.drop 0).take 43) = true := by
  decide!

theorem s_keys_patterns_checked_1 :
    prefix_free_among s_keys_patterns ((s_keys_patterns.drop 43).take 43) = true := by
  decide!

theorem s_keys_patterns_checked_2 :
    prefix_free_among s_keys_patterns ((s_keys_patterns.drop 86).take 43) = true := by
  decide!

theorem s_keys_patterns_checked_3 :
    prefix_free_among s_keys_patterns ((s_keys_patterns.drop 129).take 43) = true := by
  decide!

theorem s_keys_patterns_checked_4 :
    prefix_free_among s_keys_patterns ((s_keys_patterns.drop 172).take 43) = true := by
  decide!

theorem s_keys_patterns_checked_5 :
    prefix_free_among s_keys_patterns ((s_keys_patterns.drop 215).take 43) = true := by
  decide!

theorem s_keys_patterns_checked_6 :
    prefix_free_among s_keys_patterns ((s_keys_patterns.drop 258).take 43) = true := by
  decide!

theorem s_keys_patterns_checked_7 :
    prefix_free_among s_keys_patterns ((s_keys_patterns.drop 301).take 43) = true := by
  decide!

theorem s_keys_patterns_split :
    s_keys_patterns =
      (s_keys_patterns.drop 0).take 43 ++ ((s_keys_patterns.drop 43).take 43 ++
      ((s_keys_patterns.drop 86).take 43 ++ ((s_keys_patterns.drop 129).take 43 ++
      ((s_keys_patterns.drop 172).take 43 ++ ((s_keys_patterns.drop 215).take 43 ++
      ((s_keys_patterns.drop 258).take 43 ++ (s_keys_patterns.drop 301).take 43)))))) := by
  decide!

/-- No byte pattern of `s_keys` is the start of a longer byte pattern of `s_keys`. -/
theorem s_keys_patterns_prefix_free :
    ∀ p ∈ s_keys_patterns, ∀ q ∈ s_keys_patterns, p <+: q → p = q := by
  intro p hp q hq hpq
  have hnl : ¬ p.length < q.length := by
    rw [s_keys_patterns_split] at hp
    simp only [List.mem_append] at hp
    rcases hp with h | h | h | h | h | h | h | h
    · exact prefix_free_among_spec _ _ s_keys_patterns_checked_0 p h q hq hpq
    · exact prefix_free_among_spec _ _ s_keys_patterns_checked_1 p h q hq hpq
    · exact prefix_free_among_spec _ _ s_keys_patterns_checked_2 p h q hq hpq
    · exact prefix_free_among_spec _ _ s_keys_patterns_checked_3 p h q hq hpq
    · exact prefix_free_among_spec _ _ s_keys_patterns_checked_4 p h q hq hpq
    · exact prefix_free_among_spec _ _ s_keys_patterns_checked_5 p h q hq hpq
    · exact prefix_free_among_spec _ _ s_keys_patterns_checked_6 p h q hq hpq
    · exact prefix_free_among_spec _ _ s_keys_patterns_checked_7 p h q hq hpq
  exact List.IsPrefix.eq_of_length hpq (Nat.le_antisymm hpq.length_le (Nat.not_lt.mp hnl))

/-- The byte patterns of `s_keys` are the same for all key values, and none of them holds
a NUL: each is the C string it stores. -/
theorem s_keys_patterns_eq (K : key_consts) :
    (s_keys K).map (fun r => r.esq_seq) = s_keys_patterns ∧
    (s_keys K).map (fun r => cstr r.esq_seq) = s_keys_patterns :=
  ⟨rfl, rfl⟩

theorem s_keys_pattern_mem (K : key_consts) (r : key_sequence_t) (hr : r ∈ s_keys K) :
    r.esq_seq ∈ s_keys_patterns ∧ cstr r.esq_seq = r.esq_seq := by
  constructor
  · rw [← (s_keys_patterns_eq K).1]
    exact List.mem_map_of_mem _ hr
  · have h : (s_keys K).map (fun r => cstr r.esq_seq) =
        (s_keys K).map (fun r => r.esq_seq) := by
      rw [(s_keys_patterns_eq K).1, (s_keys_patterns_eq K).2]
    exact List.map_inj_left.mp h r hr

/-- What the three values of the matcher say about the table, for a buffer without NUL:
2 needs a rule whose pattern is the buffer, 1 a rule whose pattern is longer than the buffer
and starts with it. -/
theorem match_key_loop_cases (cs : Nat) (buf : List Nat) (hnul : ∀ c ∈ buf, c ≠ 0) :
    ∀ keys : List key_sequence_t,
      ((match_key_loop cs buf buf.length keys).1 = 2 →
        ∃ r ∈ keys, buf = cstr r.esq_seq) ∧
      ((match_key_loop cs buf buf.length keys).1 = 1 →
        ∃ r ∈ keys, buf <+: cstr r.esq_seq ∧ buf ≠ cstr r.esq_seq) ∧
      ((match_key_loop cs buf buf.length keys).1 = 0 ∨
        (match_key_loop cs buf buf.length keys).1 = 1 ∨
        (match_key_loop cs buf buf.length keys).1 = 2) := by
  intro keys
  induction keys with
  | nil => simp [match_key_loop]
  | cons r rest ih =>
    by_cases hm : strncmp buf r.esq_seq buf.length = 0
    · have hp : buf <+: cstr r.esq_seq := (strncmp_eq_zero_iff buf r.esq_seq hnul).mp hm
      by_cases hl : strlen r.esq_seq = buf.length
      · have hv : (match_key_loop cs buf buf.length (r :: rest)).1 = 2 := by
          simp [match_key_loop, hm, hl]
        rw [hv]
        refine ⟨fun _ => ⟨r, List.mem_cons_self _ _, ?_⟩, fun h => by omega, Or.inr (Or.inr rfl)⟩
        rw [strlen_eq_length_cstr] at hl
        exact List.IsPrefix.eq_of_length hp hl.symm
      · have hv : (match_key_loop cs buf buf.length (r :: rest)).1 = 1 := by
          simp [match_key_loop, hm, hl]
        rw [hv]
        refine ⟨fun h => by omega, fun _ => ⟨r, List.mem_cons_self _ _, hp, ?_⟩,
          Or.inr (Or.inl rfl)⟩
        intro heq
        apply hl
        rw [strlen_eq_length_cstr, ← heq]
    · have hrec : match_key_loop cs buf buf.length (r :: rest) =
          match_key_loop cs buf buf.length rest := by
        simp [match_key_loop, hm]
      rw [hrec]
      obtain ⟨h2, h1, h3⟩ := ih
      refine ⟨fun h => ?_, fun h => ?_, h3⟩
      · obtain ⟨x, hx, hb⟩ := h2 h
        exact ⟨x, List.mem_cons_of_mem _ hx, hb⟩
      · obtain ⟨x, hx, hb⟩ := h1 h
        exact ⟨x, List.mem_cons_of_mem _ hx, hb⟩

/-- The matcher on a table none of whose patterns is the start of a longer one, for a
buffer without NUL: 2 exactly for the patterns of the table, 1 exactly for the proper
starts of patterns. -/
theorem match_key_loop_prefix_free (cs : Nat) (buf : List Nat) (hnul : ∀ c ∈ buf, c ≠ 0)
    (keys : List key_sequence_t)
    (hpf : ∀ r1 ∈ keys, ∀ r2 ∈ keys,
      cstr r1.esq_seq <+: cstr r2.esq_seq → cstr r1.esq_seq = cstr r2.esq_seq) :
    ((match_key_loop cs buf buf.length keys).1 = 2 ↔ ∃ r ∈ keys, buf = cstr r.esq_seq) ∧
    ((match_key_loop cs buf buf.length keys).1 = 1 ↔
      (∃ r ∈ keys, buf <+: cstr r.esq_seq ∧ buf ≠ cstr r.esq_seq) ∧
      ¬ ∃ r ∈ keys, buf = cstr r.esq_seq) := by
  obtain ⟨h2, h1, h3⟩ := match_key_loop_cases cs buf hnul keys
  have hnone := match_key_loop_none cs buf hnul keys
  have hcomplete : (∃ r ∈ keys, buf = cstr r.esq_seq) →
      (match_key_loop cs buf buf.length keys).1 = 2 := by
    rintro ⟨r, hr, hb⟩
    rcases h3 with h | h | h
    · exact absurd (hb ▸ List.prefix_refl _) (hnone.mp h r hr)
    · obtain ⟨x, hx, hpx, hne⟩ := h1 h
      rw [hb] at hpx hne
      exact absurd (hpf r hr x hx hpx) hne
    · exact h
  refine ⟨⟨h2, hcomplete⟩, ⟨fun h => ⟨h1 h, fun hex => ?_⟩, fun h => ?_⟩⟩
  · have := hcomplete hex
    omega
  · obtain ⟨⟨r, hr, hp, _⟩, hno⟩ := h
    rcases h3 with h | h | h
    · exact absurd hp (hnone.mp h r hr)
    · exact h
    · exact absurd (h2 h) hno

/-- C31: `s_keys` is prefix-free as shipped.  No byte pattern of the static table is a
proper prefix of another one.  Hence, for every buffer without NUL (the empty one
included) and every console shift state, `s_match_key_sequence` on the static table
returns 2 (CompleteMatch) exactly when the buffer is the byte pattern of some rule, and 1
(PartialMatch) exactly when the buffer is a proper prefix of the pattern of some rule and
the pattern of none. -/
theorem s_keys_prefix_free (K : key_consts) (cs : Nat) :
    (∀ r1 ∈ s_keys K, ∀ r2 ∈ s_keys K,
      r1.esq_seq <+: r2.esq_seq → r1.esq_seq = r2.esq_seq) ∧
    ∀ buf : List Nat, (∀ c ∈ buf, c ≠ 0) →
      ((s_match_key_sequence (s_keys K) cs buf).1 = 2 ↔
        ∃ r ∈ s_keys K, buf = r.esq_seq) ∧
      ((s_match_key_sequence (s_keys K) cs buf).1 = 1 ↔
        (∃ r ∈ s_keys K, buf <+: r.esq_seq ∧ buf ≠ r.esq_seq) ∧
        ¬ ∃ r ∈ s_keys K, buf = r.esq_seq) := by
  have hpf : ∀ r1 ∈ s_keys K, ∀ r2 ∈ s_keys K,
      r1.esq_seq <+: r2.esq_seq → r1.esq_seq = r2.esq_seq :=
    fun r1 h1 r2 h2 hp =>
      s_keys_patterns_prefix_free _ (s_keys_pattern_mem K r1 h1).1 _
        (s_keys_pattern_mem K r2 h2).1 hp
  refine ⟨hpf, ?_⟩
  intro buf hnul
  have hpfc : ∀ r1 ∈ s_keys K, ∀ r2 ∈ s_keys K,
      cstr r1.esq_seq <+: cstr r2.esq_seq → cstr r1.esq_seq = cstr r2.esq_seq := by
    intro r1 h1 r2 h2
    rw [(s_keys_pattern_mem K r1 h1).2, (s_keys_pattern_mem K r2 h2).2]
    exact hpf r1 h1 r2 h2
  have h := match_key_loop_prefix_free cs buf hnul (s_keys K) hpfc
  have hc : ∀ (P : List Nat → Prop),
      (∃ r ∈ s_keys K, P (cstr r.esq_seq)) ↔ (∃ r ∈ s_keys K, P r.esq_seq) := by
    intro P
    constructor
    · rintro ⟨r, hr, hP⟩
      rw [(s_keys_pattern_mem K r hr).2] at hP
      exact ⟨r, hr, hP⟩
    · rintro ⟨r, hr, hP⟩
      rw [← (s_keys_pattern_mem K r hr).2] at hP
      exact ⟨r, hr, hP⟩
  unfold s_match_key_sequence
  rw [strlen_of_no_nul buf hnul]
  rw [← hc (fun p => buf = p), ← hc (fun p => buf <+: p ∧ buf ≠ p)]
  exact h


/-! ### The referential invariant of the palette pool -/

/-- `s_disp_add_color_pair` keeps the size of the colour-pair table, and an entry in use
stays in use with the colours it stores. -/
theorem add_color_pair_keeps_in_use {init_pair : Nat → Nat → Nat → Int} {disp d1 : dispc_t}
    {c b : Nat} {r : Int} (h : s_disp_add_color_pair init_pair disp c b = some (r, d1)) :
    d1.color_pairs.length = disp.color_pairs.length ∧
    ∀ (i : Nat) (cp : disp_color_pair), disp.color_pairs[i]? = some cp → cp.in_use = true →
      ∃ cp2 : disp_color_pair, d1.color_pairs[i]? = some cp2 ∧ cp2.in_use = true ∧
        cp2.store_color = cp.store_color ∧ cp2.store_background = cp.store_background := by
  rcases add_color_pair_cases h with ⟨k, e, _, _, hk, hm, hd⟩ | ⟨_, hcp, _⟩ |
    ⟨k, e, _, _, _, _, hk, hu, _, _, hd⟩
  · subst hd
    refine ⟨by simp, fun i cp hi hin => ?_⟩
    have hlt : k < disp.color_pairs.length := by
      rcases List.getElem?_eq_some_iff.mp hk with ⟨h, _⟩
      exact h
    by_cases hik : i = k
    · subst hik
      rw [hk] at hi
      have hec := Option.some.inj hi
      subst hec
      exact ⟨_, getElem?_set_same _ _ _ hlt, hm.1, rfl, rfl⟩
    · refine ⟨cp, ?_, hin, rfl, rfl⟩
      simp only
      rw [List.getElem?_set_ne (fun hh => hik hh.symm)]
      exact hi
  · rw [hcp]
    exact ⟨rfl, fun i cp hi hin => ⟨cp, hi, hin, rfl, rfl⟩⟩
  · subst hd
    refine ⟨by simp, fun i cp hi hin => ?_⟩
    have hik : i ≠ k := by
      intro hik
      subst hik
      rw [hk] at hi
      have hec := Option.some.inj hi
      subst hec
      rw [hu] at hin
      exact absurd hin (by decide)
    refine ⟨cp, ?_, hin, rfl, rfl⟩
    simp only
    rw [List.getElem?_set_ne (fun hh => hik hh.symm)]
    exact hi

/-- A palette entry in use after `s_disp_pal_add` is an entry that was there before the
call, or it holds the index of a colour-pair entry in use. -/
theorem pal_add_entries {F : disp_font_bits} {init_pair : Nat → Nat → Nat → Int}
    {disp d2 : dispc_t} {c b st : Nat} {r : Int} {pid : Option Nat}
    (h : s_disp_pal_add F init_pair disp c b st = some (r, pid, d2)) :
    ∀ (p : Nat) (e : disp_palette_entry), d2.palette[p]? = some e → e.in_use = true →
      disp.palette[p]? = some e ∨
      ∃ (i : Nat) (cp : disp_color_pair), e.color_pair_id = (i : Int) ∧ 1 ≤ i ∧
        d2.color_pairs[i]? = some cp ∧ cp.in_use = true := by
  unfold s_disp_pal_add at h
  split at h
  · simp at h
  · simp only at h
    split at h
    · simp at h
    · rename_i r1 d1 hadd
      have hpal := add_color_pair_palette hadd
      split at h
      · simp only [Option.some.injEq, Prod.mk.injEq] at h
        rw [← h.2.2, hpal]
        exact fun p e he _ => Or.inl he
      · rename_i hr
        split at h
        · rename_i i hi
          simp only [Option.some.injEq, Prod.mk.injEq] at h
          rw [← h.2.2]
          intro p e he hin
          simp only at he
          rcases getElem?_set_cases he with ⟨_, hnew⟩ | ⟨_, hold⟩
          · obtain ⟨k, cp, hrk, hk1, hcp, hcpu, _⟩ := add_color_pair_success hadd hr
            refine Or.inr ⟨k, cp, ?_, hk1, hcp, hcpu⟩
            rw [hnew]
            exact hrk
          · rw [hpal] at hold
            exact Or.inl hold
        · simp only [Option.some.injEq, Prod.mk.injEq] at h
          rw [← h.2.2, hpal]
          exact fun p e he _ => Or.inl he

/-- One call into the pool keeps the sizes of both tables, every palette entry in use, and
every colour-pair entry in use with its colours; and it keeps the references valid. -/
theorem pool_step_keeps_refs {F : disp_font_bits} {disp d1 : dispc_t} {call : pool_call}
    (h : pool_step F disp call = some d1) :
    (∀ (p : Nat) (e : disp_palette_entry),
      disp.palette[p]? = some e → e.in_use = true → d1.palette[p]? = some e) ∧
    (∀ (i : Nat) (cp : disp_color_pair), disp.color_pairs[i]? = some cp → cp.in_use = true →
      ∃ cp2 : disp_color_pair, d1.color_pairs[i]? = some cp2 ∧ cp2.in_use = true ∧
        cp2.store_color = cp.store_color ∧ cp2.store_background = cp.store_background) ∧
    (palette_refs_valid disp → palette_refs_valid d1) := by
  have hidx : ∀ (l : List disp_color_pair) (i : Nat) (x : disp_color_pair),
      l[i]? = some x → i ≤ l.length - 1 := by
    intro l i x hx
    rcases List.getElem?_eq_some_iff.mp hx with ⟨hlt, _⟩
    omega
  cases call with
  | add_color_pair init_pair c b =>
    simp only [pool_step, Option.map_eq_some'] at h
    obtain ⟨⟨r, d⟩, hs, hd⟩ := h
    simp only at hd
    subst hd
    have hkeep := (add_color_pair_keeps_in_use hs).2
    have hpal := add_color_pair_palette hs
    refine ⟨fun p e he _ => by rw [hpal]; exact he, hkeep, ?_⟩
    intro hv p e he hin
    rw [hpal] at he
    obtain ⟨i, cp, hid, hi1, _, hcp, hcpu⟩ := hv p e he hin
    obtain ⟨cp2, hcp2, hu2, _, _⟩ := hkeep i cp hcp hcpu
    exact ⟨i, cp2, hid, hi1, hidx _ _ _ hcp2, hcp2, hu2⟩
  | pal_add init_pair c b st =>
    simp only [pool_step, Option.map_eq_some'] at h
    obtain ⟨⟨r, pid, d⟩, hs, hd⟩ := h
    simp only at hd
    subst hd
    obtain ⟨r1, d0, hadd, hcps⟩ := pal_add_color_pairs hs
    have hkeep : ∀ (i : Nat) (cp : disp_color_pair),
        disp.color_pairs[i]? = some cp → cp.in_use = true →
        ∃ cp2 : disp_color_pair, d.color_pairs[i]? = some cp2 ∧ cp2.in_use = true ∧
          cp2.store_color = cp.store_color ∧ cp2.store_background = cp.store_background := by
      rw [hcps]
      exact (add_color_pair_keeps_in_use hadd).2
    refine ⟨(pal_add_palette_kept hs).2, hkeep, ?_⟩
    intro hv p e he hin
    rcases pal_add_entries hs p e he hin with hold | ⟨i, cp, hid, hi1, hcp, hcpu⟩
    · obtain ⟨i, cp, hid, hi1, _, hcp, hcpu⟩ := hv p e hold hin
      obtain ⟨cp2, hcp2, hu2, _, _⟩ := hkeep i cp hcp hcpu
      exact ⟨i, cp2, hid, hi1, hidx _ _ _ hcp2, hcp2, hu2⟩
    · exact ⟨i, cp, hid, hi1, hidx _ _ _ hcp, hcp, hcpu⟩
  | pal_free id =>
    simp only [pool_step, s_disp_pal_free, Option.some.injEq] at h
    subst h
    exact ⟨fun _ _ he _ => he, fun i cp hi hin => ⟨cp, hi, hin, rfl, rfl⟩, fun hv => hv⟩

theorem pool_run_keeps_refs {F : disp_font_bits} (calls : List pool_call) :
    ∀ (disp d1 : dispc_t), pool_run F disp calls = some d1 →
      (∀ (p : Nat) (e : disp_palette_entry),
        disp.palette[p]? = some e → e.in_use = true → d1.palette[p]? = some e) ∧
      (∀ (i : Nat) (cp : disp_color_pair),
        disp.color_pairs[i]? = some cp → cp.in_use = true →
        ∃ cp2 : disp_color_pair, d1.color_pairs[i]? = some cp2 ∧ cp2.in_use = true ∧
          cp2.store_color = cp.store_color ∧ cp2.store_background = cp.store_background) ∧
      (palette_refs_valid disp → palette_refs_valid d1) := by
  induction calls with
  | nil =>
    intro disp d1 h
    simp only [pool_run, Option.some.injEq] at h
    subst h
    exact ⟨fun _ _ he _ => he, fun i cp hi hin => ⟨cp, hi, hin, rfl, rfl⟩, fun hv => hv⟩
  | cons call rest ih =>
    intro disp d1 h
    simp only [pool_run] at h
    split at h
    · simp at h
    · rename_i d2 hstep
      obtain ⟨hp1, hc1, hv1⟩ := pool_step_keeps_refs hstep
      obtain ⟨hp2, hc2, hv2⟩ := ih d2 d1 h
      refine ⟨fun p e he hin => hp2 p e (hp1 p e he hin) hin, ?_, fun hv => hv2 (hv1 hv)⟩
      intro i cp hi hin
      obtain ⟨cp2, h2, hu2, hs2, hb2⟩ := hc1 i cp hi hin
      obtain ⟨cp3, h3, hu3, hs3, hb3⟩ := hc2 i cp2 h2 hu2
      exact ⟨cp3, h3, hu3, by rw [hs3, hs2], by rw [hb3, hb2]⟩

/-- C32: the referential invariant of the palette pool.  In every state `d` reached from
tables without a palette entry in use (empty tables in particular) by a sequence of calls of `s_disp_add_color_pair`,
`s_disp_pal_add` and `s_disp_pal_free` (with any answers of the backend), every palette
entry in use holds a `color_pair_id` between 1 and the number of colour-pair slots less 1
that is the index of a colour-pair entry in use.  And whatever calls follow, a palette entry
in use in `d` is the same entry afterwards, and a colour-pair entry in use in `d` is in use
afterwards and stores the same colours. -/
theorem palette_refs_valid_reachable (F : disp_font_bits) (d0 d : dispc_t)
    (calls : List pool_call)
    (hpal0 : ∀ e ∈ d0.palette, e.in_use = false)
    (hrun : pool_run F d0 calls = some d) :
    palette_refs_valid d ∧
    ∀ (more : List pool_call) (d2 : dispc_t), pool_run F d more = some d2 →
      palette_refs_valid d2 ∧
      (∀ (p : Nat) (e : disp_palette_entry),
        d.palette[p]? = some e → e.in_use = true → d2.palette[p]? = some e) ∧
      (∀ (i : Nat) (cp : disp_color_pair), d.color_pairs[i]? = some cp → cp.in_use = true →
        ∃ cp2 : disp_color_pair, d2.color_pairs[i]? = some cp2 ∧ cp2.in_use = true ∧
          cp2.store_color = cp.store_color ∧ cp2.store_background = cp.store_background) := by
  have hv0 : palette_refs_valid d0 := by
    intro p e he hin
    have := hpal0 e (List.mem_iff_getElem?.mpr ⟨p, he⟩)
    rw [this] at hin
    exact absurd hin (by decide)
  have hv := (pool_run_keeps_refs calls d0 d hrun).2.2 hv0
  refine ⟨hv, fun more d2 hmore => ?_⟩
  obtain ⟨hp, hc, hvv⟩ := pool_run_keeps_refs more d d2 hmore
  exact ⟨hvv hv, hp, hc⟩

theorem palette_refs_valid_reachable_witness :
    (∀ e ∈ (disp_clear 3 2).palette, e.in_use = false) ∧
    pool_run font_bits_sample (disp_clear 3 2) [pool_call.pal_add init_pair_ok 12 1 4] =
      some disp_one_palette ∧
    palette_refs_valid disp_one_palette :=
  ⟨by decide, by decide,
    (palette_refs_valid_reachable font_bits_sample (disp_clear 3 2) disp_one_palette
      [pool_call.pal_add init_pair_ok 12 1 4] (by decide) (by decide)).1⟩

/-! ### No roll-back when the palette table is full -/

/-- C33: `s_disp_pal_add` does not roll back on the palette-full failure.  When the style
mask is valid, every palette entry is in use and the call of `s_disp_add_color_pair`
returned the index `i` (not -1), `s_disp_pal_add` returns 0 without writing to
`*palette_id`, with `DISP_PALETTE_FULL` in `disp->code` and the palette table as before,
and the colour-pair table keeps what the colour-pair request did: entry `i` was in use
with the requested colours and has its `ref_cnt` one higher, or entry `i` was not in use
(and no in-use entry behind entry 0 stored the pair) and is now in use with the requested
colours.  Entry `i` differs from what it was, every other entry is as before. -/
theorem pal_add_no_rollback (F : disp_font_bits) (init_pair : Nat → Nat → Nat → Int)
    (disp d1 : dispc_t) (c b st : Nat) (r1 : Int)
    (hst : st &&& DISP_FONT_STYLE_BITS F = st)
    (hfull : ∀ e ∈ disp.palette, e.in_use = true)
    (h1 : s_disp_add_color_pair init_pair disp (if c ≥ 8 then c - 8 else c) b = some (r1, d1))
    (hr : r1 ≠ -1) :
    s_disp_pal_add F init_pair disp c b st =
      some (0, none, { d1 with
        code := some disp_error_code.DISP_PALETTE_FULL
        error_msg := "no more entries available in the palette table" }) ∧
    d1.palette = disp.palette ∧
    ∃ (i : Nat) (e : disp_color_pair), r1 = (i : Int) ∧ 1 ≤ i ∧
      disp.color_pairs[i]? = some e ∧
      ((e.in_use = true ∧ e.store_color = (if c ≥ 8 then c - 8 else c) ∧
          e.store_background = b ∧
          d1.color_pairs = disp.color_pairs.set i { e with ref_cnt := e.ref_cnt + 1 }) ∨
        (e.in_use = false ∧
          (∀ x ∈ disp.color_pairs.tail, ¬ (x.in_use = true ∧
            x.store_color = (if c ≥ 8 then c - 8 else c) ∧ x.store_background = b)) ∧
          d1.color_pairs = disp.color_pairs.set i
            { e with in_use := true, store_color := (if c ≥ 8 then c - 8 else c)
                     store_background := b })) ∧
      d1.color_pairs[i]? ≠ disp.color_pairs[i]? ∧
      ∀ j : Nat, j ≠ i → d1.color_pairs[j]? = disp.color_pairs[j]? := by
  have hpal := add_color_pair_palette h1
  have hfind : find_unused_palette d1.palette 0 = none := by
    rw [hpal]
    exact (find_unused_palette_none disp.palette 0).mpr hfull
  refine ⟨?_, hpal, ?_⟩
  · unfold s_disp_pal_add
    rw [if_neg (by simpa using hst)]
    simp only [h1, if_neg hr, hfind]
  · rcases add_color_pair_cases h1 with ⟨k, e, hk1, hrk, hk, hm, hd⟩ | ⟨hneg, _, _⟩ |
      ⟨k, e, hk1, hrk, hnone, _, hk, hu, _, _, hd⟩
    · have hlt : k < disp.color_pairs.length := by
        rcases List.getElem?_eq_some_iff.mp hk with ⟨h, _⟩
        exact h
      subst hd
      refine ⟨k, e, hrk, hk1, hk, Or.inl ⟨hm.1, hm.2.1, hm.2.2, rfl⟩, ?_, ?_⟩
      · simp only
        rw [getElem?_set_same _ _ _ hlt, hk]
        intro heq
        have := congrArg disp_color_pair.ref_cnt (Option.some.inj heq)
        simp at this
      · intro j hj
        simp only
        rw [List.getElem?_set_ne (fun hh => hj hh.symm)]
    · exact absurd hneg hr
    · have hlt : k < disp.color_pairs.length := by
        rcases List.getElem?_eq_some_iff.mp hk with ⟨h, _⟩
        exact h
      subst hd
      refine ⟨k, e, hrk, hk1, hk, Or.inr ⟨hu, find_color_pair_none hnone, rfl⟩, ?_, ?_⟩
      · simp only
        rw [getElem?_set_same _ _ _ hlt, hk]
        intro heq
        have := congrArg disp_color_pair.in_use (Option.some.inj heq)
        simp only at this
        rw [hu] at this
        exact absurd this (by decide)
      · intro j hj
        simp only
        rw [List.getElem?_set_ne (fun hh => hj hh.symm)]

theorem pal_add_no_rollback_witness :
    (4 : Nat) &&& DISP_FONT_STYLE_BITS font_bits_sample = 4 ∧
    s_disp_add_color_pair init_pair_ok
        { disp_one_palette with palette := [⟨true, 1, A_BOLD ||| A_UNDERLINE⟩] }
        (if 12 ≥ 8 then 12 - 8 else 12) 1 =
      some (1, { disp_one_palette with
        palette := [⟨true, 1, A_BOLD ||| A_UNDERLINE⟩]
        color_pairs := [⟨false, 0, 0, 0⟩, ⟨true, 4, 1, 1⟩, ⟨false, 0, 0, 0⟩] }) ∧
    s_disp_pal_add font_bits_sample init_pair_ok
        { disp_one_palette with palette := [⟨true, 1, A_BOLD ||| A_UNDERLINE⟩] } 12 1 4 =
      some (0, none, { disp_one_palette with
        palette := [⟨true, 1, A_BOLD ||| A_UNDERLINE⟩]
        color_pairs := [⟨false, 0, 0, 0⟩, ⟨true, 4, 1, 1⟩, ⟨false, 0, 0, 0⟩]
        code := some disp_error_code.DISP_PALETTE_FULL
        error_msg := "no more entries available in the palette table" }) :=
  ⟨by decide, by decide,
    (pal_add_no_rollback font_bits_sample init_pair_ok
      { disp_one_palette with palette := [⟨true, 1, A_BOLD ||| A_UNDERLINE⟩] }
      { disp_one_palette with
        palette := [⟨true, 1, A_BOLD ||| A_UNDERLINE⟩]
        color_pairs := [⟨false, 0, 0, 0⟩, ⟨true, 4, 1, 1⟩, ⟨false, 0, 0, 0⟩] }
      12 1 4 1 (by decide) (by decide) (by decide) (by decide)).1⟩


/-! ### A NUL byte in the pending buffer -/

/-- A buffer that starts with NUL is the empty string: `strlen` is 0, `strncmp` over 0 bytes
is 0 for the first rule, and the matcher answers 1 when the pattern of that rule is not
empty. -/
theorem match_key_sequence_nul (r : key_sequence_t) (keys : List key_sequence_t) (cs : Nat)
    (rest : List Nat) (hr : strlen r.esq_seq ≠ 0) :
    s_match_key_sequence (r :: keys) cs (0 :: rest) = (1, none) := by
  simp [s_match_key_sequence, strlen, match_key_loop, strncmp, hr]

theorem s_keys_match_nul (K : key_consts) (cs : Nat) (rest : List Nat) :
    s_match_key_sequence (s_keys K) cs (0 :: rest) = (1, none) :=
  match_key_sequence_nul _ _ cs rest (by simp [strlen])

/-- A byte stored behind a pending NUL: the pass of the loop ends with the byte added to
the buffer, the counters as they were and no event. -/
theorem pump_iter_behind_nul (K : key_consts) (cs : Nat) (st : pump_state) (c : Nat)
    (pre : List Nat) (hc : c < 256) (hbuf : st.key_buf = 0 :: pre)
    (hesc : c = 27 → pre = []) (hroom : pre.length ≤ 7) :
    pump_iter K (s_keys K) cs st (slice_byte c) =
      pump_outcome.running
        { miliseconds := st.miliseconds, key_wait_time := st.key_wait_time
          key_buf := 0 :: (pre ++ [c]) } := by
  have happ : key_buf_append st.key_buf c = 0 :: (pre ++ [c]) := by
    unfold key_buf_append
    rw [hbuf]
    have h1 : ¬ (c = 27 ∧ (0 :: pre).length > 1) := by
      rintro ⟨h27, hlen⟩
      rw [hesc h27] at hlen
      simp at hlen
    simp only [h1, if_false]
    rw [if_neg (by simp only [List.length_cons]; omega)]
    rfl
  rw [pump_iter_byte K (s_keys K) cs st c hc, happ,
    if_neg (by simp only [List.length_cons, List.length_append, List.length_nil]; omega),
    s_keys_match_nul]

theorem pump_loop_behind_nul (K : key_consts) (cs : Nat) (bs : List Nat) :
    ∀ (ms kwt : Nat) (pre : List Nat),
      (∀ c ∈ bs, c < 256) → pre.length + bs.length ≤ 8 →
      (pre ≠ [] → ∀ c ∈ bs, c ≠ 27) → (∀ c ∈ bs.tail, c ≠ 27) →
      pump_loop K (s_keys K) cs
          { miliseconds := ms, key_wait_time := kwt, key_buf := 0 :: pre }
          (bs.map slice_byte) =
        pump_outcome.running
          { miliseconds := ms, key_wait_time := kwt, key_buf := 0 :: (pre ++ bs) } := by
  induction bs with
  | nil =>
    intro ms kwt pre _ _ _ _
    simp [pump_loop]
  | cons c rest ih =>
    intro ms kwt pre hlt hlen hpre htail
    have hstep := pump_iter_behind_nul K cs
      { miliseconds := ms, key_wait_time := kwt, key_buf := 0 :: pre } c pre
      (hlt c (List.mem_cons_self _ _)) rfl
      (fun h27 => by
        by_contra hne
        exact hpre hne c (List.mem_cons_self _ _) h27)
      (by simp only [List.length_cons] at hlen; omega)
    rw [List.map_cons, pump_loop, hstep]
    simp only
    have hrec := ih ms kwt (pre ++ [c])
      (fun x hx => hlt x (List.mem_cons_of_mem _ hx))
      (by simp only [List.length_cons, List.length_append, List.length_nil] at hlen ⊢; omega)
      (fun _ x hx => htail x hx)
      (fun x hx => htail x (List.mem_of_mem_tail hx))
    rw [hrec, List.append_assoc]
    rfl

/-- C34: a NUL byte blinds the matcher.  On the static table a buffer that starts with
NUL is answered with 1 (PartialMatch), whatever follows the NUL.  So when the byte 0 is
read into the empty pending buffer and up to eight more bytes are read after it, none of
them an ESC read with two or more bytes pending, every one of these passes of the loop ends
without an event: the loop is still running with all the bytes pending behind the NUL and
both counters as at the start.  In any state whose pending buffer starts with NUL, a pass
that reads a byte and neither resets the buffer nor fills it ends without an event, the
byte added behind the NUL. -/
theorem nul_byte_blinds_matcher (K : key_consts) (cs : Nat) (bs : List Nat)
    (hbytes : ∀ c ∈ bs, c < 256) (hlen : bs.length ≤ 8)
    (hesc : ∀ c ∈ bs.tail, c ≠ 27) :
    (∀ rest : List Nat, s_match_key_sequence (s_keys K) cs (0 :: rest) = (1, none)) ∧
    s_disp_process_events K (s_keys K) cs [slice_byte 0] =
      pump_outcome.running { miliseconds := 0, key_wait_time := 0, key_buf := [0] } ∧
    s_disp_process_events K (s_keys K) cs (slice_byte 0 :: bs.map slice_byte) =
      pump_outcome.running { miliseconds := 0, key_wait_time := 0, key_buf := 0 :: bs } ∧
    (∀ k : Nat, k ≤ bs.length →
      s_disp_process_events K (s_keys K) cs (slice_byte 0 :: (bs.take k).map slice_byte) =
        pump_outcome.running
          { miliseconds := 0, key_wait_time := 0, key_buf := 0 :: bs.take k }) ∧
    ∀ (st : pump_state) (c : Nat) (pre : List Nat), c < 256 → st.key_buf = 0 :: pre →
      (c = 27 → pre = []) → pre.length ≤ 7 →
      pump_iter K (s_keys K) cs st (slice_byte c) =
        pump_outcome.running
          { miliseconds := st.miliseconds, key_wait_time := st.key_wait_time
            key_buf := 0 :: (pre ++ [c]) } := by
  have hfirst : pump_iter K (s_keys K) cs
      { miliseconds := 0, key_wait_time := 0, key_buf := [] } (slice_byte 0) =
      pump_outcome.running { miliseconds := 0, key_wait_time := 0, key_buf := [0] } := by
    have happ : key_buf_append [] 0 = [0] := rfl
    rw [pump_iter_byte K (s_keys K) cs _ 0 (by omega)]
    simp only [happ, List.length_singleton]
    rw [if_neg (by omega), s_keys_match_nul]
  have hrun : ∀ xs : List Nat, (∀ c ∈ xs, c < 256) → xs.length ≤ 8 →
      (∀ c ∈ xs.tail, c ≠ 27) →
      s_disp_process_events K (s_keys K) cs (slice_byte 0 :: xs.map slice_byte) =
        pump_outcome.running { miliseconds := 0, key_wait_time := 0, key_buf := 0 :: xs } := by
    intro xs h1 h2 h3
    unfold s_disp_process_events
    rw [pump_loop, hfirst]
    simp only
    have h := pump_loop_behind_nul K cs xs 0 0 [] h1 (by simpa using h2)
      (fun h => absurd rfl h) h3
    rw [List.nil_append] at h
    exact h
  refine ⟨s_keys_match_nul K cs, ?_, hrun bs hbytes hlen hesc, ?_,
    fun st c pre hc hbuf he hroom => pump_iter_behind_nul K cs st c pre hc hbuf he hroom⟩
  · have h := hrun [] (by simp) (by simp) (by simp)
    simpa using h
  · intro k hk
    apply hrun
    · exact fun c hc => hbytes c (List.mem_of_mem_take hc)
    · rw [List.length_take]
      omega
    · intro c hc
      have hsub : (bs.take k).tail = bs.tail.take (k - 1) := by
        cases bs with
        | nil => simp
        | cons b rest =>
          cases k with
          | zero => simp
          | succ n => simp
      rw [hsub] at hc
      exact hesc c (List.mem_of_mem_take hc)

theorem nul_byte_blinds_matcher_witness :
    (∀ c ∈ [27, 97, 98], c < 256) ∧ (∀ c ∈ ([27, 97, 98] : List Nat).tail, c ≠ 27) ∧
    s_disp_process_events key_consts_sample (s_keys key_consts_sample) 0
        (slice_byte 0 :: [27, 97, 98].map slice_byte) =
      pump_outcome.running
        { miliseconds := 0, key_wait_time := 0, key_buf := 0 :: [27, 97, 98] } :=
  ⟨by decide, by decide,
    (nul_byte_blinds_matcher key_consts_sample 0 [27, 97, 98]
      (by decide) (by decide) (by decide)).2.2.1⟩


/-! ### What empties the pending buffer -/

/-- The two resets in front of the store of a byte: the buffer restarts with the byte when
it is ESC with more than one byte pending or when `key_cnt == sizeof(key_buf)`, and
otherwise the byte is added behind the pending bytes. -/
theorem key_buf_append_cases (key_buf : List Nat) (c : Nat) :
    (((c = 27 ∧ key_buf.length > 1) ∨ key_buf.length = 10) ∧
      key_buf_append key_buf c = [c]) ∨
    (¬ (c = 27 ∧ key_buf.length > 1) ∧ key_buf.length ≠ 10 ∧
      key_buf_append key_buf c = key_buf ++ [c]) := by
  by_cases h1 : c = 27 ∧ key_buf.length > 1
  · left
    refine ⟨Or.inl h1, ?_⟩
    unfold key_buf_append
    simp only [if_pos h1]
    rfl
  · by_cases h2 : key_buf.length = 10
    · left
      refine ⟨Or.inr h2, ?_⟩
      unfold key_buf_append
      simp only [if_neg h1, if_pos h2]
      rfl
    · right
      refine ⟨h1, h2, ?_⟩
      unfold key_buf_append
      simp only [if_neg h1, if_neg h2]

/-- What one pass of the loop that does not end the invocation does to the pending bytes.
A pass without a byte to read empties the buffer when `key_wait_time` passes
`DISP_KEY_TIMEOUT` and leaves it alone otherwise.  A pass that reads a byte restarts the
buffer with that byte when the byte is ESC with two or more bytes pending or when
`key_cnt == sizeof(key_buf)`, and otherwise adds the byte behind the pending bytes; the
matcher has answered 0 or 1 for the buffer the pass leaves. -/
theorem pump_iter_buffer_frame (K : key_consts) (keys : List key_sequence_t) (cs : Nat)
    (st : pump_state) (sl : console_slice) (st1 : pump_state)
    (h : pump_iter K keys cs st sl = pump_outcome.running st1) :
    (¬ 0 < sl.num_files_ready ∧
      ((st.key_wait_time + (s_disp_wait_console sl.num_files_ready).1 > DISP_KEY_TIMEOUT ∧
          st1.key_buf = []) ∨
        (¬ st.key_wait_time + (s_disp_wait_console sl.num_files_ready).1 > DISP_KEY_TIMEOUT ∧
          st1.key_buf = st.key_buf))) ∨
    (0 < sl.num_files_ready ∧
      st1.miliseconds = st.miliseconds ∧ st1.key_wait_time = st.key_wait_time ∧
      (((((sl.getch % 256).toNat = 27 ∧ st.key_buf.length > 1) ∨ st.key_buf.length = 10) ∧
          st1.key_buf = [(sl.getch % 256).toNat]) ∨
        (¬ ((sl.getch % 256).toNat = 27 ∧ st.key_buf.length > 1) ∧ st.key_buf.length ≠ 10 ∧
          st1.key_buf = st.key_buf ++ [(sl.getch % 256).toNat])) ∧
      ((s_match_key_sequence keys cs st1.key_buf).1 = 0 ∨
        (s_match_key_sequence keys cs st1.key_buf).1 = 1)) := by
  have hK : DISP_KEY_TIMEOUT = 30000 := rfl
  by_cases hr : 0 < sl.num_files_ready
  · right
    rw [pump_iter_ready K keys cs st sl hr] at h
    split at h
    · simp at h
    · have hst : st1.miliseconds = st.miliseconds ∧ st1.key_wait_time = st.key_wait_time ∧
          st1.key_buf = key_buf_append st.key_buf (sl.getch % 256).toNat ∧
          ((s_match_key_sequence keys cs st1.key_buf).1 = 0 ∨
            (s_match_key_sequence keys cs st1.key_buf).1 = 1) := by
        split at h
        · rename_i o hm
          simp only [pump_outcome.running.injEq] at h
          rw [← h]
          simp [hm]
        · rename_i o hm
          simp only [pump_outcome.running.injEq] at h
          rw [← h]
          simp [hm]
        · simp at h
        · simp at h
      obtain ⟨h1, h2, h3, h4⟩ := hst
      refine ⟨hr, h1, h2, ?_, h4⟩
      rw [h3]
      exact key_buf_append_cases st.key_buf (sl.getch % 256).toNat
  · left
    refine ⟨hr, ?_⟩
    rw [pump_iter_not_ready K keys cs st sl hr] at h
    rw [hK]
    split at h
    · simp at h
    · split at h
      · rename_i hk
        split at h
        · simp at h
        · simp only [pump_outcome.running.injEq] at h
          left
          refine ⟨hk, ?_⟩
          rw [← h]
          cases st.key_buf with
          | nil => simp
          | cons c cs => simp
      · rename_i hk
        simp only [pump_outcome.running.injEq] at h
        right
        refine ⟨hk, ?_⟩
        rw [← h]

/-- C10, amended: a NoMatch does not reset the buffer.  When a byte is read, stored with
its terminating NUL within `key_buf`, and the matcher answers 0 for the accumulated bytes,
the pass of the loop ends without an event, with the same counters and with all the
accumulated bytes still pending, the unmatched byte included (`key_cnt` is at least 1).
The pending bytes are emptied only by the resets of the loop: in every pass that does not
end the invocation, a pass without a byte to read empties the buffer exactly when
`key_wait_time` passes `DISP_KEY_TIMEOUT` and otherwise leaves it as it is, and a pass that
reads a byte restarts the buffer with that byte exactly when the byte is ESC with two or
more bytes pending or `key_cnt == sizeof(key_buf)`, and otherwise adds the byte behind the
pending bytes and has the whole buffer matched.  So in `s_keys` the unrecognised byte 28
followed at once by `a` yields no key event (28, `a` is pending); byte 28, three silent
slices (the key time-out) and then `a` yield the key event of `a`; and the bytes 28, 28
followed at once by ESC `[` `A` yield the key event of Up (the ESC rule). -/
theorem no_match_keeps_buffer (K : key_consts) (keys : List key_sequence_t) (cs : Nat)
    (st : pump_state) (sl : console_slice)
    (hready : 0 < sl.num_files_ready)
    (hroom : (key_buf_append st.key_buf (sl.getch % 256).toNat).length < 10)
    (hno : (s_match_key_sequence keys cs
      (key_buf_append st.key_buf (sl.getch % 256).toNat)).1 = 0) :
    pump_iter K keys cs st sl =
      pump_outcome.running
        { miliseconds := st.miliseconds, key_wait_time := st.key_wait_time
          key_buf := key_buf_append st.key_buf (sl.getch % 256).toNat } ∧
    1 ≤ (key_buf_append st.key_buf (sl.getch % 256).toNat).length ∧
    (∀ (st2 : pump_state) (sl2 : console_slice) (st3 : pump_state),
      pump_iter K keys cs st2 sl2 = pump_outcome.running st3 →
      (¬ 0 < sl2.num_files_ready ∧
        ((st2.key_wait_time + (s_disp_wait_console sl2.num_files_ready).1 >
              DISP_KEY_TIMEOUT ∧ st3.key_buf = []) ∨
          (¬ st2.key_wait_time + (s_disp_wait_console sl2.num_files_ready).1 >
              DISP_KEY_TIMEOUT ∧ st3.key_buf = st2.key_buf))) ∨
      (0 < sl2.num_files_ready ∧
        st3.miliseconds = st2.miliseconds ∧ st3.key_wait_time = st2.key_wait_time ∧
        (((((sl2.getch % 256).toNat = 27 ∧ st2.key_buf.length > 1) ∨
              st2.key_buf.length = 10) ∧
            st3.key_buf = [(sl2.getch % 256).toNat]) ∨
          (¬ ((sl2.getch % 256).toNat = 27 ∧ st2.key_buf.length > 1) ∧
            st2.key_buf.length ≠ 10 ∧
            st3.key_buf = st2.key_buf ++ [(sl2.getch % 256).toNat])) ∧
        ((s_match_key_sequence keys cs st3.key_buf).1 = 0 ∨
          (s_match_key_sequence keys cs st3.key_buf).1 = 1))) ∧
    s_disp_process_events K (s_keys K) 0 [slice_byte 28, slice_byte 97] =
      pump_outcome.running { miliseconds := 0, key_wait_time := 0, key_buf := [28, 97] } ∧
    (∀ more : List console_slice,
      s_disp_process_events K (s_keys K) 0
          (slice_byte 28 :: slice_silent :: slice_silent :: slice_silent ::
            slice_byte 97 :: more) =
        pump_outcome.returned 1 [{ K.ev_clear with
          code := disp_event_code.EVENT_KEY
          scan_code_only := (((K.KEY 0 (K.sc key_defs.kbA) ||| 97) >>> 16) &&& 255) % 256
          shift_state := 0
          key := K.KEY 0 (K.sc key_defs.kbA) ||| 97 }]) ∧
    s_disp_process_events K (s_keys K) 0 [slice_byte 28, slice_byte 28] =
      pump_outcome.running { miliseconds := 0, key_wait_time := 0, key_buf := [28, 28] } ∧
    s_disp_process_events K (s_keys K) 0 [slice_byte 28, slice_byte 28, slice_byte 27] =
      pump_outcome.running { miliseconds := 0, key_wait_time := 0, key_buf := [27] } ∧
    ∀ more : List console_slice,
      s_disp_process_events K (s_keys K) 0
          (slice_byte 28 :: slice_byte 28 :: slice_byte 27 :: slice_byte 91 ::
            slice_byte 65 :: more) =
        pump_outcome.returned 1 [{ K.ev_clear with
          code := disp_event_code.EVENT_KEY
          scan_code_only :=
            (((K.KEY 0 (K.sc key_defs.kbUp) ||| ((0 <<< 16) % 4294967296)) >>> 16)
              &&& 255) % 256
          shift_state := 0
          key := K.KEY 0 (K.sc key_defs.kbUp) ||| ((0 <<< 16) % 4294967296) }] := by
  have m1 : s_match_key_sequence (s_keys K) 0 [28] = (0, none) := rfl
  have m2 : s_match_key_sequence (s_keys K) 0 [28, 97] = (0, none) := rfl
  have m3 : s_match_key_sequence (s_keys K) 0 [97] =
      (2, some (K.KEY 0 (K.sc key_defs.kbA) ||| 97 ||| ((0 <<< 16) % 4294967296), 0)) := rfl
  have b1 : key_buf_append [] 28 = [28] := rfl
  have b2 : key_buf_append [28] 97 = [28, 97] := rfl
  have b3 : key_buf_append [] 97 = [97] := rfl
  refine ⟨?_, ?_, ?_, ?_, ?_, rfl, rfl, fun more => rfl⟩
  · rw [pump_iter_ready K keys cs st sl hready, if_neg (by omega)]
    rcases hres : s_match_key_sequence keys cs
        (key_buf_append st.key_buf (sl.getch % 256).toNat) with ⟨r, o⟩
    rw [hres] at hno
    simp only at hno
    subst hno
    rfl
  · simp [key_buf_append]
  · exact fun st2 sl2 st3 h => pump_iter_buffer_frame K keys cs st2 sl2 st3 h
  · unfold s_disp_process_events
    rw [pump_loop, pump_iter_byte K (s_keys K) 0 _ 28 (by omega)]
    simp only [b1, m1, List.length_singleton]
    rw [if_neg (by omega)]
    simp only
    rw [pump_loop, pump_iter_byte K (s_keys K) 0 _ 97 (by omega)]
    simp only [b2, m2, List.length_cons, List.length_nil]
    rw [if_neg (by omega)]
    rfl
  · intro more
    unfold s_disp_process_events
    rw [pump_loop, pump_iter_byte K (s_keys K) 0 _ 28 (by omega)]
    simp only [b1, m1, List.length_singleton]
    rw [if_neg (by omega)]
    simp only [pump_loop, pump_iter_silent]
    simp only [Nat.zero_add, Nat.reduceAdd, gt_iff_lt, Nat.reduceLT, if_false, if_true,
      List.length_singleton, List.headD_cons, Nat.reduceEqDiff, and_false, Nat.lt_one_iff,
      zero_lt_one]
    rw [pump_iter_byte K (s_keys K) 0 _ 97 (by omega)]
    simp only [b3, m3, List.length_singleton]
    rw [if_neg (by omega)]
    simp

theorem no_match_keeps_buffer_witness :
    0 < (slice_byte 28).num_files_ready ∧
    (key_buf_append [] (((slice_byte 28).getch % 256).toNat)).length < 10 ∧
    (s_match_key_sequence (s_keys key_consts_sample) 0
      (key_buf_append [] (((slice_byte 28).getch % 256).toNat))).1 = 0 ∧
    pump_iter key_consts_sample (s_keys key_consts_sample) 0
        { miliseconds := 0, key_wait_time := 0, key_buf := [] } (slice_byte 28) =
      pump_outcome.running { miliseconds := 0, key_wait_time := 0, key_buf := [28] } :=
  ⟨by decide, by decide, by decide,
    (no_match_keeps_buffer key_consts_sample (s_keys key_consts_sample) 0
      { miliseconds := 0, key_wait_time := 0, key_buf := [] } (slice_byte 28)
      (by decide) (by decide) (by decide)).1⟩

end DispNcurs
